import Mathlib

/-!
# Verification of the ARNm compiler and runtime specification

This file gives a shallow embedding, in Lean 4, of the parts of the ARNm
language implementation (compiler front/middle end in C, actor runtime in C)
that the specification's claims are about, and proves or refutes each claim
against that embedding.

Modelling conventions used throughout:

* C machine integers are modelled as `Nat`/`Int` with an explicit `% 2 ^ 32`
  (or `% 2 ^ 64`) at the operations where the C code can wrap.
* C strings / byte buffers are modelled as `List Nat` (one `Nat` per byte).
* Heap pointers are modelled as indices into explicit stores (`List`-based);
  `NULL` is `Option.none`.
* Source-position spans, which are pure diagnostic metadata in the C code and
  are never consulted by any of the verified properties, are omitted from the
  embedded records.
-/

set_option maxRecDepth 10000

namespace Arnm

/-! ## Runtime memory: atomic reference counting

Embedding of `arnm_arc_alloc` / `arnm_arc_retain` / `arnm_arc_release` from
`src/arnm-lang/runtime/src/memory.c`.  An `ArcObject` models the
`ArnmObjectHeader` of a single allocation: `refcount` is the value of the
atomic counter (the C type `atomic_uint_fast32_t` is at least 32 bits wide;
we wrap at `2 ^ 32`, and every theorem below stays strictly below that bound,
so the statements hold for any width that is at least 32 bits), `hasDtor`
records whether a destructor was supplied to `arnm_arc_alloc`, and
`dtorRuns` / `frees` count how often the destructor has been invoked and how
often the whole block has been handed to `free`. -/

def u32Mod : Nat := 2 ^ 32

structure ArcObject where
  refcount : Nat
  hasDtor : Bool
  dtorRuns : Nat
  frees : Nat
  deriving Repr, DecidableEq

/-- `arnm_arc_alloc(size, dtor)`: the fresh header has `refcount = 1` and has
run no destructor and no `free` yet. -/
def arnm_arc_alloc (hasDtor : Bool) : ArcObject :=
  { refcount := 1, hasDtor := hasDtor, dtorRuns := 0, frees := 0 }

/-- `arnm_arc_retain`: `atomic_fetch_add(&header->refcount, 1)`. -/
def arnm_arc_retain (o : ArcObject) : ArcObject :=
  { o with refcount := (o.refcount + 1) % u32Mod }

/-- `arnm_arc_release`: `old = atomic_fetch_sub(&header->refcount, 1)`; when
the pre-decrement value `old` was `1`, run the destructor (if any) and free
the whole block. -/
def arnm_arc_release (o : ArcObject) : ArcObject :=
  let old := o.refcount
  let dec : ArcObject := { o with refcount := (o.refcount + (u32Mod - 1)) % u32Mod }
  if old = 1 then
    { dec with
      dtorRuns := if dec.hasDtor then dec.dtorRuns + 1 else dec.dtorRuns,
      frees := dec.frees + 1 }
  else
    dec

inductive ArcOp where
  | retain
  | release
  deriving Repr, DecidableEq

/-- Run a sequence of retain/release operations against one object. -/
def runArc : ArcObject → List ArcOp → ArcObject
  | o, [] => o
  | o, ArcOp.retain :: rest => runArc (arnm_arc_retain o) rest
  | o, ArcOp.release :: rest => runArc (arnm_arc_release o) rest

def retainCount (l : List ArcOp) : Nat := l.count ArcOp.retain

def releaseCount (l : List ArcOp) : Nat := l.count ArcOp.release

/-- A sequence of balanced retain/release pairs: equally many of each, and no
prefix has more releases than retains. -/
def BalancedArc (l : List ArcOp) : Prop :=
  retainCount l = releaseCount l ∧
  ∀ n < l.length, releaseCount (l.take n) ≤ retainCount (l.take n)

lemma retainCount_cons (a : ArcOp) (l : List ArcOp) :
    retainCount (a :: l) = (if a = ArcOp.retain then 1 else 0) + retainCount l := by
  cases a <;> simp [retainCount, List.count_cons] <;> omega

lemma releaseCount_cons (a : ArcOp) (l : List ArcOp) :
    releaseCount (a :: l) = (if a = ArcOp.release then 1 else 0) + releaseCount l := by
  cases a <;> simp [releaseCount, List.count_cons] <;> omega

/-- Main invariant: starting from a header whose refcount exceeds the excess
of future releases over future retains on every prefix, running the sequence
only moves the counter and neither destroys nor frees. -/
lemma runArc_no_free : ∀ (l : List ArcOp) (k d f : Nat) (hd : Bool),
    (∀ n, releaseCount (l.take n) ≤ retainCount (l.take n) + k) →
    k + l.length + 1 < u32Mod →
    runArc ⟨1 + k, hd, d, f⟩ l =
      ⟨1 + k + retainCount l - releaseCount l, hd, d, f⟩ := by
  intro l
  induction l with
  | nil =>
    intro k d f hd _ _
    simp [runArc, retainCount, releaseCount]
  | cons a rest ih =>
    intro k d f hd hpre hbound
    cases a with
    | retain =>
      have h2 : (1 + k + 1) % u32Mod = 1 + (k + 1) := by
        have hlt : 1 + k + 1 < u32Mod := by simp [List.length_cons] at hbound; omega
        rw [Nat.mod_eq_of_lt hlt]
        omega
      have hstep : arnm_arc_retain ⟨1 + k, hd, d, f⟩ = ⟨1 + (k + 1), hd, d, f⟩ := by
        simp [arnm_arc_retain, h2]
      have hpre' : ∀ n, releaseCount (rest.take n) ≤ retainCount (rest.take n) + (k + 1) := by
        intro n
        have := hpre (n + 1)
        simp only [List.take_succ_cons] at this
        rw [retainCount_cons, releaseCount_cons] at this
        simp at this
        omega
      have hbound' : (k + 1) + rest.length + 1 < u32Mod := by
        simp [List.length_cons] at hbound; omega
      have := ih (k + 1) d f hd hpre' hbound'
      rw [runArc, hstep, this]
      rw [retainCount_cons, releaseCount_cons]
      have htot := hpre' rest.length
      rw [List.take_length] at htot
      congr 1
      simp
      omega
    | release =>
      have hk : 1 ≤ k := by
        have := hpre 1
        simp only [List.take_succ_cons, List.take_zero] at this
        rw [retainCount_cons, releaseCount_cons] at this
        simp [retainCount, releaseCount] at this
        omega
      have hlt : k < u32Mod := by simp [List.length_cons] at hbound; omega
      have h2 : (1 + k + (u32Mod - 1)) % u32Mod = k := by
        have hu : 1 ≤ u32Mod := by norm_num [u32Mod]
        have : 1 + k + (u32Mod - 1) = k + u32Mod := by omega
        rw [this, Nat.add_mod_right, Nat.mod_eq_of_lt hlt]
      have hne : ¬ (1 + k = 1) := by omega
      have hstep : arnm_arc_release ⟨1 + k, hd, d, f⟩ = ⟨1 + (k - 1), hd, d, f⟩ := by
        have hk2 : 1 + (k - 1) = k := by omega
        rw [hk2]
        show (if 1 + k = 1 then _ else _) = _
        rw [if_neg hne]
        show ({ refcount := (1 + k + (u32Mod - 1)) % u32Mod, hasDtor := hd,
                dtorRuns := d, frees := f } : ArcObject) = _
        rw [h2]
      have hpre' : ∀ n, releaseCount (rest.take n) ≤ retainCount (rest.take n) + (k - 1) := by
        intro n
        have := hpre (n + 1)
        simp only [List.take_succ_cons] at this
        rw [retainCount_cons, releaseCount_cons] at this
        simp at this
        omega
      have hbound' : (k - 1) + rest.length + 1 < u32Mod := by
        simp [List.length_cons] at hbound; omega
      have := ih (k - 1) d f hd hpre' hbound'
      rw [runArc, hstep, this]
      rw [retainCount_cons, releaseCount_cons]
      have htot := hpre' rest.length
      rw [List.take_length] at htot
      simp only [ArcObject.mk.injEq]
      refine ⟨?_, trivial, trivial, trivial⟩
      simp
      omega

/-- C7.  `arnm_arc_release` with pre-decrement refcount `1` runs the
destructor (when one is installed) and frees the block; a release with a
larger pre-decrement count does neither; and after any balanced sequence of
retain/release pairs starting from `arnm_arc_alloc`, the object has not been
freed, and the one final release destroys and frees it exactly once. -/
theorem c7_arc_balanced_release_frees_once :
    (∀ o : ArcObject, o.refcount = 1 →
      (arnm_arc_release o).frees = o.frees + 1 ∧
      (arnm_arc_release o).dtorRuns = o.dtorRuns + (if o.hasDtor then 1 else 0)) ∧
    (∀ o : ArcObject, 1 < o.refcount →
      (arnm_arc_release o).frees = o.frees ∧
      (arnm_arc_release o).dtorRuns = o.dtorRuns) ∧
    (∀ (l : List ArcOp) (hd : Bool), BalancedArc l → l.length + 2 < u32Mod →
      (runArc (arnm_arc_alloc hd) l).frees = 0 ∧
      (arnm_arc_release (runArc (arnm_arc_alloc hd) l)).frees = 1 ∧
      (arnm_arc_release (runArc (arnm_arc_alloc hd) l)).dtorRuns
        = (if hd then 1 else 0)) := by
  refine ⟨?_, ?_, ?_⟩
  · intro o h1
    simp [arnm_arc_release, h1]
    split <;> simp
  · intro o hgt
    have : ¬ (o.refcount = 1) := by omega
    simp [arnm_arc_release, this]
  · intro l hd hbal hlen
    have hpre : ∀ n, releaseCount (l.take n) ≤ retainCount (l.take n) + 0 := by
      intro n
      rcases Nat.lt_or_ge n l.length with h | h
      · simpa using hbal.2 n h
      · rw [List.take_of_length_le h]
        have := hbal.1
        omega
    have hrun := runArc_no_free l 0 0 0 hd hpre (by omega)
    have halloc : arnm_arc_alloc hd = (⟨1 + 0, hd, 0, 0⟩ : ArcObject) := by
      simp [arnm_arc_alloc]
    have hfinal : runArc (arnm_arc_alloc hd) l = ⟨1, hd, 0, 0⟩ := by
      rw [halloc, hrun, hbal.1]
      simp
    rw [hfinal]
    refine ⟨rfl, ?_, ?_⟩ <;> simp [arnm_arc_release] <;> split <;> simp

/-- Witness for C7 at the concrete balanced sequence
`[retain, release]` with a destructor installed. -/
theorem c7_witness :
    (runArc (arnm_arc_alloc true) [ArcOp.retain, ArcOp.release]).frees = 0 ∧
    (arnm_arc_release (runArc (arnm_arc_alloc true)
        [ArcOp.retain, ArcOp.release])).frees = 1 ∧
    (arnm_arc_release (runArc (arnm_arc_alloc true)
        [ArcOp.retain, ArcOp.release])).dtorRuns = (if true then 1 else 0) :=
  c7_arc_balanced_release_frees_once.2.2 [ArcOp.retain, ArcOp.release] true
    (by constructor
        · decide
        · decide)
    (by norm_num [u32Mod])

/-! ## Runtime mailbox

Embedding of `mailbox_try_receive` (and the parts of `message_create` /
`message_free` it exercises) from `src/arnm-lang/runtime/src/mailbox.c`.
Message nodes live in an explicit per-mailbox heap of `(id, node)` pairs;
`nextId` is the allocator counter, so an allocation is visible as a bump of
`nextId` and a free as a removal from `heap`.  `malloc` failure inside
`message_create` is not modelled (the carrier allocation is assumed to
succeed); the claim under study only exercises the empty-queue path, which
performs no allocation at all. -/

structure ArnmMessage where
  tag : Nat
  data : Option Nat
  size : Nat
  next : Option Nat
  deriving Repr, DecidableEq

structure ArnmMailbox where
  heap : List (Nat × ArnmMessage)
  nextId : Nat
  head : Option Nat
  tail : Option Nat
  count : Nat
  capacity : Nat
  deriving Repr, DecidableEq

def heapGet (h : List (Nat × ArnmMessage)) (i : Nat) : Option ArnmMessage :=
  (h.find? (fun p => p.1 == i)).map (fun p => p.2)

def heapRemove (h : List (Nat × ArnmMessage)) (i : Nat) : List (Nat × ArnmMessage) :=
  h.filter (fun p => p.1 ≠ i)

def heapSet (h : List (Nat × ArnmMessage)) (i : Nat) (m : ArnmMessage) :
    List (Nat × ArnmMessage) :=
  h.map (fun p => if p.1 = i then (i, m) else p)

/-- `mailbox_try_receive`: load `head`; load `head->next`; if null the queue
is empty and nothing happens; otherwise advance `head`, decrement `count`,
free the old dummy, allocate a fresh carrier message holding the dequeued
tag/data/size, null out the new dummy's payload and return the carrier.
Dereferencing a dangling node id would be undefined behaviour in C; the model
returns `none` without touching the state in that (unreachable) case. -/
def mailbox_try_receive (m : ArnmMailbox) :
    Option ArnmMessage × ArnmMailbox :=
  match m.head with
  | none => (none, m)
  | some h =>
    match heapGet m.heap h with
    | none => (none, m)
    | some hn =>
      match hn.next with
      | none => (none, m)
      | some nx =>
        let m1 : ArnmMailbox := { m with head := some nx, count := m.count - 1 }
        let m2 : ArnmMailbox := { m1 with heap := heapRemove m1.heap h }
        match heapGet m2.heap nx with
        | none => (none, m2)
        | some nxn =>
          let carrier : ArnmMessage :=
            { tag := nxn.tag, data := nxn.data, size := nxn.size, next := none }
          let m3 : ArnmMailbox :=
            { m2 with
              heap := heapSet m2.heap nx { nxn with data := none, size := 0 },
              nextId := m2.nextId + 1 }
          (some carrier, m3)

/-- C9.  `mailbox_try_receive` on a non-null mailbox whose head node's `next`
pointer is null returns `NULL` and leaves the whole mailbox state — `head`,
`tail`, `count`, and the message heap (so nothing freed or allocated) —
unchanged. -/
theorem c9_try_receive_empty_no_change
    (m : ArnmMailbox) (h : Nat) (hn : ArnmMessage)
    (hhead : m.head = some h)
    (hnode : heapGet m.heap h = some hn)
    (hnext : hn.next = none) :
    mailbox_try_receive m = (none, m) := by
  rw [mailbox_try_receive, hhead]
  simp only [hnode, hnext]

/-- Witness for C9: a mailbox holding exactly the sentinel dummy node. -/
theorem c9_witness :
    mailbox_try_receive
        { heap := [(0, { tag := 0, data := none, size := 0, next := none })],
          nextId := 1, head := some 0, tail := some 0, count := 0,
          capacity := 0 }
      = (none,
        { heap := [(0, { tag := 0, data := none, size := 0, next := none })],
          nextId := 1, head := some 0, tail := some 0, count := 0,
          capacity := 0 }) :=
  c9_try_receive_empty_no_change _ 0
    { tag := 0, data := none, size := 0, next := none }
    rfl (by decide) rfl

/-! ## Compiler symbol table

Embedding of `src/arnm-lang/compiler/src/symbol.c`.  Names are byte lists; a
`Scope` is the 64-bucket FNV-1a hash table of the C code, modelled as a
function from bucket index to the bucket's chain (newest symbol first, as in
the C prepend-insert).  The scope chain is the list `scopes`, current scope
first; the global scope is the last entry.  Arena exhaustion inside
`scope_push` / `symbol_define` (a `type_arena_alloc` returning `NULL`) is not
modelled: the arena is treated as large enough, as it is for every program
the compiler accepts. -/

inductive SymbolKind where
  | varSym
  | fnSym
  | actorSym
  | typeSym
  | paramSym
  | fieldSym
  deriving Repr, DecidableEq

inductive Permission where
  | permUnique
  | permShared
  | permImmutable
  | permUnknown
  deriving Repr, DecidableEq

structure Symbol where
  name : List Nat
  kind : SymbolKind
  type : Option Nat
  perm : Permission
  isMutable : Bool
  isDefined : Bool
  deriving Repr, DecidableEq

/-- FNV-1a over the name bytes, as in `hash_name`; 32-bit wrap. -/
def hash_name (name : List Nat) : Nat :=
  name.foldl (fun h b => ((h ^^^ (b % 256)) * 16777619) % u32Mod) 2166136261

def SCOPE_BUCKET_COUNT : Nat := 64

structure Scope where
  buckets : Nat → List Symbol

def emptyScope : Scope := ⟨fun _ => []⟩

structure SymbolTable where
  scopes : List Scope
  symbolCount : Nat

/-- `symtab_init` pushes the global scope. -/
def symtab_init : SymbolTable := { scopes := [emptyScope], symbolCount := 0 }

def scope_push (t : SymbolTable) : SymbolTable :=
  { t with scopes := emptyScope :: t.scopes }

/-- `scope_pop` restores the parent scope, except when the current scope is
the global scope (or there is no scope at all), in which case it is a no-op. -/
def scope_pop (t : SymbolTable) : SymbolTable :=
  match t.scopes with
  | [] => t
  | [_] => t
  | _ :: rest => { t with scopes := rest }

def lookup_in_scope (s : Scope) (name : List Nat) : Option Symbol :=
  (s.buckets (hash_name name % SCOPE_BUCKET_COUNT)).find? (fun sym => sym.name == name)

def lookupScopes : List Scope → List Nat → Option Symbol
  | [], _ => none
  | s :: rest, name =>
    match lookup_in_scope s name with
    | some sym => some sym
    | none => lookupScopes rest name

/-- `symbol_lookup` searches the current scope, then its parents, up to the
global scope. -/
def symbol_lookup (t : SymbolTable) (name : List Nat) : Option Symbol :=
  lookupScopes t.scopes name

def symbol_lookup_current (t : SymbolTable) (name : List Nat) : Option Symbol :=
  match t.scopes with
  | [] => none
  | s :: _ => lookup_in_scope s name

/-- `symbol_define`: fail on a duplicate in the current scope, otherwise
prepend the new symbol to its FNV bucket of the current scope. -/
def symbol_define (t : SymbolTable) (name : List Nat) (kind : SymbolKind)
    (type : Option Nat) : Option Symbol × SymbolTable :=
  match t.scopes with
  | [] => (none, t)
  | cur :: rest =>
    match lookup_in_scope cur name with
    | some _ => (none, t)
    | none =>
      let sym : Symbol :=
        { name := name, kind := kind, type := type,
          perm := Permission.permUnknown, isMutable := false, isDefined := true }
      let b := hash_name name % SCOPE_BUCKET_COUNT
      let cur' : Scope := ⟨fun i => if i = b then sym :: cur.buckets i else cur.buckets i⟩
      (some sym, { scopes := cur' :: rest, symbolCount := t.symbolCount + 1 })

/-- Mutation through the `Symbol*` returned by `symbol_define`: the C callers
update `is_mutable` / `is_defined` / `type` in place; the model rewrites the
named symbol inside the current scope's bucket. -/
def update_symbol_current (t : SymbolTable) (name : List Nat)
    (f : Symbol → Symbol) : SymbolTable :=
  match t.scopes with
  | [] => t
  | cur :: rest =>
    let b := hash_name name % SCOPE_BUCKET_COUNT
    let cur' : Scope :=
      ⟨fun i => if i = b then
          (cur.buckets i).map (fun s => if s.name = name then f s else s)
        else cur.buckets i⟩
    { t with scopes := cur' :: rest }

inductive ScopeOp where
  | push
  | pop
  deriving Repr, DecidableEq

def runScopeOps : SymbolTable → List ScopeOp → SymbolTable
  | t, [] => t
  | t, ScopeOp.push :: rest => runScopeOps (scope_push t) rest
  | t, ScopeOp.pop :: rest => runScopeOps (scope_pop t) rest

def runDefines : SymbolTable → List (List Nat × SymbolKind × Option Nat) → SymbolTable
  | t, [] => t
  | t, (n, k, ty) :: rest => runDefines (symbol_define t n k ty).2 rest

lemma runDefines_single_scope :
    ∀ (defs : List (List Nat × SymbolKind × Option Nat)) (g : Scope) (c : Nat),
    ∃ g' c', runDefines { scopes := [g], symbolCount := c } defs
      = { scopes := [g'], symbolCount := c' } := by
  intro defs
  induction defs with
  | nil => intro g c; exact ⟨g, c, rfl⟩
  | cons d rest ih =>
    intro g c
    obtain ⟨n, k, ty⟩ := d
    rw [runDefines]
    unfold symbol_define
    cases hl : lookup_in_scope g n with
    | some s =>
      simp only [hl]
      exact ih g c
    | none =>
      simp only [hl]
      exact ih _ _

lemma lookupScopes_append_empty :
    ∀ (es : List Scope) (g : Scope) (name : List Nat),
    (∀ e ∈ es, e = emptyScope) →
    lookupScopes (es ++ [g]) name = lookup_in_scope g name := by
  intro es
  induction es with
  | nil =>
    intro g name _
    simp only [List.nil_append, lookupScopes]
    cases lookup_in_scope g name <;> rfl
  | cons e rest ih =>
    intro g name hemp
    have he : e = emptyScope := hemp e (by simp)
    have : lookup_in_scope e name = none := by
      rw [he]; rfl
    rw [List.cons_append, lookupScopes, this, ih]
    intro x hx
    exact hemp x (by simp [hx])

lemma runScopeOps_shape :
    ∀ (ops : List ScopeOp) (es : List Scope) (g : Scope) (c : Nat),
    (∀ e ∈ es, e = emptyScope) →
    ∃ es', (∀ e ∈ es', e = emptyScope) ∧
      runScopeOps { scopes := es ++ [g], symbolCount := c } ops
        = { scopes := es' ++ [g], symbolCount := c } := by
  intro ops
  induction ops with
  | nil => intro es g c hemp; exact ⟨es, hemp, rfl⟩
  | cons op rest ih =>
    intro es g c hemp
    cases op with
    | push =>
      rw [runScopeOps]
      have hpush : scope_push { scopes := es ++ [g], symbolCount := c }
          = { scopes := (emptyScope :: es) ++ [g], symbolCount := c } := rfl
      rw [hpush]
      refine ih (emptyScope :: es) g c ?_
      intro x hx
      rcases List.mem_cons.mp hx with h | h
      · exact h
      · exact hemp x h
    | pop =>
      rw [runScopeOps]
      cases es with
      | nil =>
        have hpop : scope_pop { scopes := ([] : List Scope) ++ [g], symbolCount := c }
            = { scopes := ([] : List Scope) ++ [g], symbolCount := c } := rfl
        rw [hpop]
        exact ih [] g c (by intro x hx; cases hx)
      | cons e es' =>
        have hpop : scope_pop { scopes := (e :: es') ++ [g], symbolCount := c }
            = { scopes := es' ++ [g], symbolCount := c } := by
          cases es' with
          | nil => rfl
          | cons e2 es'' => rfl
        rw [hpop]
        refine ih es' g c ?_
        intro x hx
        exact hemp x (by simp [hx])

/-- C10.  The global scope is never removed: after `symtab_init`, any global
definitions, and then any sequence of `scope_push` / `scope_pop` operations,
`symbol_lookup` still returns exactly what it returned for each name right
after the definitions — every symbol defined in the global scope stays
reachable. -/
theorem c10_global_scope_preserved
    (defs : List (List Nat × SymbolKind × Option Nat))
    (ops : List ScopeOp) (name : List Nat) (s : Symbol)
    (hfound : symbol_lookup (runDefines symtab_init defs) name = some s) :
    symbol_lookup (runScopeOps (runDefines symtab_init defs) ops) name = some s := by
  obtain ⟨g, c, hshape⟩ := runDefines_single_scope defs emptyScope 0
  have hinit : runDefines symtab_init defs = { scopes := [g], symbolCount := c } := hshape
  rw [hinit] at hfound ⊢
  obtain ⟨es', hes', hrun⟩ := runScopeOps_shape ops [] g c (by intro x hx; cases hx)
  simp only [List.nil_append] at hrun
  rw [hrun]
  have h1 : symbol_lookup { scopes := [g], symbolCount := c } name
      = lookup_in_scope g name := by
    simp only [symbol_lookup, lookupScopes]
    cases lookup_in_scope g name <;> rfl
  have h2 : symbol_lookup { scopes := es' ++ [g], symbolCount := c } name
      = lookup_in_scope g name := by
    unfold symbol_lookup
    exact lookupScopes_append_empty es' g name hes'
  rw [h2, ← h1]
  exact hfound

/-- Witness for C10: define `foo` globally, then push twice and pop three
times (one pop more than pushes); `foo` is still found. -/
theorem c10_witness :
    symbol_lookup
      (runScopeOps
        (runDefines symtab_init [([102, 111, 111], SymbolKind.fnSym, none)])
        [ScopeOp.push, ScopeOp.push, ScopeOp.pop, ScopeOp.pop, ScopeOp.pop])
      [102, 111, 111]
    = some { name := [102, 111, 111], kind := SymbolKind.fnSym, type := none,
             perm := Permission.permUnknown, isMutable := false,
             isDefined := true } :=
  c10_global_scope_preserved _ _ _ _ rfl

/-! ## Compiler type system

Embedding of `src/arnm-lang/compiler/src/types.c`.  A `TypeStore` models the
type arena together with the static primitive-singleton storage: a type
pointer is an index into `cells`.  Indices `0`–`15` are reserved for the
`primitive_storage` slots (indexed by `TypeKind` value, so the `i32`
singleton is cell `4`, mirroring `get_or_create_primitive`); arena
allocations append to the list.

`Modelled from the spec:` the `TYPE_STRUCT` kind, the `TypeStruct` payload
(a name plus an ordered field list) and the `type_struct` constructor are
used by `types.c` and `sema.c` but are not declared in the `types.h` present
under `src/`; they are embedded here following the specification's data
model ("`Actor`/`Struct` hold a name and an ordered field list"), with
`structT` given a fresh kind tag distinct from every declared kind.

The C recursions of `occurs_in`, `type_equals` and `type_unify` are bounded
only by the call stack; here they take an explicit fuel, decremented once
per nesting level, and give up (returning `false` with the store unchanged)
when it runs out — none of the theorems below depends on the exhausted
case, and all concrete evaluations stay far below the fuel used. -/

inductive TypeNode where
  | unknown
  | var (id : Nat) (inst : Option Nat)
  | unit
  | bool
  | i32
  | i64
  | f32
  | f64
  | string
  | char
  | fn (params : List Nat) (ret : Nat)
  | actor (name : List Nat) (fields : List (List Nat × Nat))
  | array (elem : Nat)
  | optional (inner : Nat)
  | process
  | error
  | structT (name : List Nat) (fields : List (List Nat × Nat))
  deriving Repr, DecidableEq

/-- The `TypeKind` discriminant of a node, in the order of the C enum
(`structT` is given the next free value). -/
def kindTag : TypeNode → Nat
  | TypeNode.unknown => 0
  | TypeNode.var _ _ => 1
  | TypeNode.unit => 2
  | TypeNode.bool => 3
  | TypeNode.i32 => 4
  | TypeNode.i64 => 5
  | TypeNode.f32 => 6
  | TypeNode.f64 => 7
  | TypeNode.string => 8
  | TypeNode.char => 9
  | TypeNode.fn _ _ => 10
  | TypeNode.actor _ _ => 11
  | TypeNode.array _ => 12
  | TypeNode.optional _ => 13
  | TypeNode.process => 14
  | TypeNode.error => 15
  | TypeNode.structT _ _ => 16

structure TypeCell where
  node : TypeNode
  perm : Permission
  deriving Repr, DecidableEq

structure TypeStore where
  cells : List TypeCell
  nextVarId : Nat
  deriving Repr, DecidableEq

def getNode (s : TypeStore) (i : Nat) : Option TypeNode :=
  (s.cells[i]?).map (fun c => c.node)

def getPerm (s : TypeStore) (i : Nat) : Option Permission :=
  (s.cells[i]?).map (fun c => c.perm)

/-- The `instance` pointer of the type at index `i` (when it is a `Var`). -/
def instOf (s : TypeStore) (i : Nat) : Option Nat :=
  match getNode s i with
  | some (TypeNode.var _ inst) => inst
  | _ => none

/-- Initial store: the sixteen `primitive_storage` slots.  Slots whose kind
is never requested as a primitive hold an `unknown` placeholder. -/
def initStore : TypeStore :=
  { cells :=
      [ ⟨TypeNode.unknown, Permission.permUnknown⟩,
        ⟨TypeNode.unknown, Permission.permUnknown⟩,
        ⟨TypeNode.unit, Permission.permUnknown⟩,
        ⟨TypeNode.bool, Permission.permUnknown⟩,
        ⟨TypeNode.i32, Permission.permUnknown⟩,
        ⟨TypeNode.i64, Permission.permUnknown⟩,
        ⟨TypeNode.f32, Permission.permUnknown⟩,
        ⟨TypeNode.f64, Permission.permUnknown⟩,
        ⟨TypeNode.string, Permission.permUnknown⟩,
        ⟨TypeNode.char, Permission.permUnknown⟩,
        ⟨TypeNode.unknown, Permission.permUnknown⟩,
        ⟨TypeNode.unknown, Permission.permUnknown⟩,
        ⟨TypeNode.unknown, Permission.permUnknown⟩,
        ⟨TypeNode.unknown, Permission.permUnknown⟩,
        ⟨TypeNode.unknown, Permission.permUnknown⟩,
        ⟨TypeNode.error, Permission.permUnknown⟩ ],
    nextVarId := 0 }

def TYPE_UNIT_ID : Nat := 2
def TYPE_BOOL_ID : Nat := 3
def TYPE_I32_ID : Nat := 4
def TYPE_I64_ID : Nat := 5
def TYPE_F64_ID : Nat := 7
def TYPE_STRING_ID : Nat := 8
def TYPE_CHAR_ID : Nat := 9
def TYPE_ERROR_ID : Nat := 15

/-- Arena allocation of a new type cell; returns the fresh index. -/
def allocCell (s : TypeStore) (c : TypeCell) : Nat × TypeStore :=
  (s.cells.length, { s with cells := s.cells ++ [c] })

/-- `type_var`: fresh variable with the next `next_var_id`, unbound. -/
def type_var (s : TypeStore) : Nat × TypeStore :=
  let (i, s') := allocCell s ⟨TypeNode.var s.nextVarId none, Permission.permUnknown⟩
  (i, { s' with nextVarId := s'.nextVarId + 1 })

def type_fn (s : TypeStore) (params : List Nat) (ret : Nat) : Nat × TypeStore :=
  allocCell s ⟨TypeNode.fn params ret, Permission.permImmutable⟩

def type_array (s : TypeStore) (elem : Nat) : Nat × TypeStore :=
  allocCell s ⟨TypeNode.array elem, Permission.permUnknown⟩

def type_optional (s : TypeStore) (inner : Nat) : Nat × TypeStore :=
  allocCell s ⟨TypeNode.optional inner,
    ((getPerm s inner).getD Permission.permUnknown)⟩

def type_process (s : TypeStore) : Nat × TypeStore :=
  allocCell s ⟨TypeNode.process, Permission.permUnique⟩

def type_actor (s : TypeStore) (name : List Nat) : Nat × TypeStore :=
  allocCell s ⟨TypeNode.actor name [], Permission.permUnknown⟩

def type_struct (s : TypeStore) (name : List Nat) : Nat × TypeStore :=
  allocCell s ⟨TypeNode.structT name [], Permission.permUnknown⟩

def listModify : List α → Nat → (α → α) → List α
  | [], _, _ => []
  | x :: xs, 0, f => f x :: xs
  | x :: xs, n + 1, f => x :: listModify xs n f

/-- Replace the whole cell at index `i`. -/
def setCell (s : TypeStore) (i : Nat) (c : TypeCell) : TypeStore :=
  { s with cells := listModify s.cells i (fun _ => c) }

/-- Write the `instance` back-pointer of the variable at index `i`
(the only in-place type mutation `type_unify` performs). -/
def setInst (s : TypeStore) (i : Nat) (target : Nat) : TypeStore :=
  { s with cells := listModify s.cells i (fun c =>
      match c.node with
      | TypeNode.var id _ => ⟨TypeNode.var id (some target), c.perm⟩
      | _ => c) }

/-- `type_resolve`'s chase loop; the C code gives up (with a warning) after
`MAX_DEPTH = 1000` hops, having followed at most 1001 `instance` links. -/
def resolveAux (s : TypeStore) : Nat → Nat → Nat
  | 0, t => t
  | fuel + 1, t =>
    match getNode s t with
    | some (TypeNode.var _ (some inst)) => resolveAux s fuel inst
    | _ => t

def type_resolve (s : TypeStore) (t : Nat) : Nat := resolveAux s 1001 t

/-- `occurs_in`: does the resolved form of `t` transitively contain the
variable with id `vid`? -/
def occurs_in (s : TypeStore) : Nat → Nat → Nat → Bool
  | 0, _, _ => false
  | fuel + 1, vid, t =>
    let rt := type_resolve s t
    match getNode s rt with
    | some (TypeNode.var id _) => id = vid
    | some (TypeNode.fn params ret) =>
      params.any (fun p => occurs_in s fuel vid p) || occurs_in s fuel vid ret
    | some (TypeNode.array e) => occurs_in s fuel vid e
    | some (TypeNode.optional inner) => occurs_in s fuel vid inner
    | _ => false

/-- `type_equals`: structural equality after resolution; `Actor`/`Struct`
compare nominally by name. -/
def type_equals : Nat → TypeStore → Nat → Nat → Bool
  | 0, _, _, _ => false
  | fuel + 1, s, a, b =>
    let ra := type_resolve s a
    let rb := type_resolve s b
    if ra = rb then true
    else
      match getNode s ra, getNode s rb with
      | some na, some nb =>
        if kindTag na ≠ kindTag nb then false
        else
          match na, nb with
          | TypeNode.var ia _, TypeNode.var ib _ => ia = ib
          | TypeNode.fn psa reta, TypeNode.fn psb retb =>
            psa.length = psb.length &&
            type_equals fuel s reta retb &&
            (psa.zip psb).all (fun p => type_equals fuel s p.1 p.2)
          | TypeNode.array ea, TypeNode.array eb => type_equals fuel s ea eb
          | TypeNode.optional ia, TypeNode.optional ib => type_equals fuel s ia ib
          | TypeNode.actor n1 _, TypeNode.actor n2 _ => n1 = n2
          | TypeNode.structT n1 _, TypeNode.structT n2 _ => n1 = n2
          | _, _ => true
      | _, _ => false

/-- `type_unify`: resolve both sides; identical resolved pointers unify;
`Error` unifies with anything; an unbound variable binds (subject to the
occurs check and never to itself); otherwise kinds must match and the
components unify recursively.  The `TYPE_FN` parameter loop of the C code is
the fold over the zipped parameter lists (it short-circuits by propagating
the first failure, exactly as the early `return false` does). -/
def type_unify : Nat → TypeStore → Nat → Nat → Bool × TypeStore
  | 0, s, _, _ => (false, s)
  | fuel + 1, s, a, b =>
    let ra := type_resolve s a
    let rb := type_resolve s b
    match getNode s ra, getNode s rb with
    | some na, some nb =>
      if ra = rb then (true, s)
      else if kindTag na = 15 ∨ kindTag nb = 15 then (true, s)
      else
        match na with
        | TypeNode.var vida _ =>
          if occurs_in s (fuel + 1) vida rb then (false, s)
          else (true, setInst s ra rb)
        | _ =>
          match nb with
          | TypeNode.var vidb _ =>
            if occurs_in s (fuel + 1) vidb ra then (false, s)
            else (true, setInst s rb ra)
          | _ =>
            if kindTag na ≠ kindTag nb then (false, s)
            else
              match na, nb with
              | TypeNode.fn psa reta, TypeNode.fn psb retb =>
                if psa.length ≠ psb.length then (false, s)
                else
                  match (psa.zip psb).foldl
                      (fun acc p =>
                        match acc with
                        | (false, s1) => (false, s1)
                        | (true, s1) => type_unify fuel s1 p.1 p.2)
                      (true, s) with
                  | (true, s1) => type_unify fuel s1 reta retb
                  | (false, s1) => (false, s1)
              | TypeNode.array ea, TypeNode.array eb => type_unify fuel s ea eb
              | TypeNode.optional ia, TypeNode.optional ib => type_unify fuel s ia ib
              | TypeNode.actor _ _, TypeNode.actor _ _ =>
                (type_equals (fuel + 1) s ra rb, s)
              | _, _ => (true, s)
    | _, _ => (false, s)

lemma listModify_getElem_ne {α : Type} :
    ∀ (l : List α) (i j : Nat) (f : α → α), j ≠ i →
    (listModify l i f)[j]? = l[j]? := by
  intro l
  induction l with
  | nil => intro i j f _; simp [listModify]
  | cons x xs ih =>
    intro i j f hne
    cases i with
    | zero =>
      cases j with
      | zero => exact absurd rfl hne
      | succ j' => simp [listModify]
    | succ i' =>
      cases j with
      | zero => simp [listModify]
      | succ j' =>
        simp only [listModify, List.getElem?_cons_succ]
        exact ih i' j' f (by omega)

lemma listModify_getElem_eq {α : Type} :
    ∀ (l : List α) (i : Nat) (f : α → α),
    (listModify l i f)[i]? = (l[i]?).map f := by
  intro l
  induction l with
  | nil => intro i f; simp [listModify]
  | cons x xs ih =>
    intro i f
    cases i with
    | zero => simp [listModify]
    | succ i' =>
      simp only [listModify, List.getElem?_cons_succ]
      exact ih i' f

lemma instOf_setInst_ne (s : TypeStore) (i t j : Nat) (h : j ≠ i) :
    instOf (setInst s i t) j = instOf s j := by
  unfold instOf getNode setInst
  simp only [listModify_getElem_ne s.cells i j _ h]

lemma instOf_setInst_self (s : TypeStore) (i t : Nat) :
    instOf (setInst s i t) i = some t ∨ instOf (setInst s i t) i = instOf s i := by
  unfold instOf getNode setInst
  simp only [listModify_getElem_eq]
  cases hc : s.cells[i]? with
  | none => right; rfl
  | some c =>
    cases hn : c.node with
    | var id inst => left; simp [hn]
    | _ => right; simp [hn]

lemma instOf_setInst_self_isSome (s : TypeStore) (i t j : Nat)
    (h : instOf s i = some j) : instOf (setInst s i t) i = some t := by
  unfold instOf getNode at h ⊢
  unfold setInst
  simp only [listModify_getElem_eq]
  cases hc : s.cells[i]? with
  | none => rw [hc] at h; simp at h
  | some c =>
    rw [hc] at h
    cases hn : c.node with
    | var id inst => simp [hn]
    | unknown => simp [hn] at h
    | unit => simp [hn] at h
    | bool => simp [hn] at h
    | i32 => simp [hn] at h
    | i64 => simp [hn] at h
    | f32 => simp [hn] at h
    | f64 => simp [hn] at h
    | string => simp [hn] at h
    | char => simp [hn] at h
    | fn p r => simp [hn] at h
    | actor n f => simp [hn] at h
    | array e => simp [hn] at h
    | optional o => simp [hn] at h
    | process => simp [hn] at h
    | error => simp [hn] at h
    | structT n f => simp [hn] at h

/-- Store evolution as performed by `type_unify`: instances are only added
(never cleared back to `NULL`), and a variable is never bound to itself. -/
def InstMono (s s' : TypeStore) : Prop :=
  (∀ i j, instOf s i = some j → ∃ k, instOf s' i = some k) ∧
  (∀ i j, instOf s' i = some j → instOf s i = some j ∨ i ≠ j)

lemma instMono_refl (s : TypeStore) : InstMono s s :=
  ⟨fun i j h => ⟨j, h⟩, fun _ _ h => Or.inl h⟩

lemma instMono_trans {s s1 s' : TypeStore}
    (h1 : InstMono s s1) (h2 : InstMono s1 s') : InstMono s s' := by
  constructor
  · intro i j h
    obtain ⟨k, hk⟩ := h1.1 i j h
    exact h2.1 i k hk
  · intro i j h
    rcases h2.2 i j h with h' | h'
    · exact h1.2 i j h'
    · exact Or.inr h'

lemma instMono_setInst (s : TypeStore) (i t : Nat) (hne : i ≠ t) :
    InstMono s (setInst s i t) := by
  constructor
  · intro i' j h
    by_cases hij : i' = i
    · subst hij
      exact ⟨t, instOf_setInst_self_isSome s i' t j h⟩
    · rw [instOf_setInst_ne s i t i' hij]
      exact ⟨j, h⟩
  · intro i' j h
    by_cases hij : i' = i
    · subst hij
      rcases instOf_setInst_self s i' t with h' | h'
      · rw [h'] at h
        have htj : t = j := by injection h
        right
        omega
      · rw [h'] at h
        exact Or.inl h
    · rw [instOf_setInst_ne s i t i' hij] at h
      exact Or.inl h

lemma unify_fold_instMono (g : Nat)
    (ihA : ∀ s a b, InstMono s (type_unify g s a b).2) :
    ∀ (ps : List (Nat × Nat)) (acc : Bool × TypeStore),
      InstMono acc.2 ((ps.foldl
        (fun acc p =>
          match acc with
          | (false, s1) => (false, s1)
          | (true, s1) => type_unify g s1 p.1 p.2) acc).2) := by
  intro ps
  induction ps with
  | nil => intro acc; exact instMono_refl _
  | cons p rest ihl =>
    intro acc
    rw [List.foldl_cons]
    obtain ⟨ok, s1⟩ := acc
    cases ok with
    | false => exact ihl (false, s1)
    | true =>
      exact instMono_trans (ihA s1 p.1 p.2) (ihl (type_unify g s1 p.1 p.2))

lemma type_unify_instMono : ∀ (fuel : Nat) (s : TypeStore) (a b : Nat),
    InstMono s (type_unify fuel s a b).2 := by
  intro fuel
  induction fuel with
  | zero => intro s a b; exact instMono_refl s
  | succ g ih =>
    intro s a b
    rw [type_unify]
    cases hna : getNode s (type_resolve s a) with
    | none => exact instMono_refl s
    | some na =>
      cases hnb : getNode s (type_resolve s b) with
      | none =>
        cases na <;> exact instMono_refl s
      | some nb =>
        by_cases heq : type_resolve s a = type_resolve s b
        · simp only [heq, if_pos rfl]
          exact instMono_refl s
        · simp only [if_neg heq]
          by_cases herr : kindTag na = 15 ∨ kindTag nb = 15
          · simp only [if_pos herr]
            exact instMono_refl s
          · simp only [if_neg herr]
            cases na with
            | var vida insta =>
              by_cases hocc : occurs_in s (g + 1) vida (type_resolve s b) = true
              · simp only [hocc, if_pos rfl]
                exact instMono_refl s
              · simp only [Bool.not_eq_true] at hocc
                simp only [hocc, Bool.false_eq_true, if_false]
                exact instMono_setInst s _ _ heq
            | fn psa reta =>
              cases nb with
              | var vidb instb =>
                by_cases hocc : occurs_in s (g + 1) vidb (type_resolve s a) = true
                · simp only [hocc, if_pos rfl]
                  exact instMono_refl s
                · simp only [Bool.not_eq_true] at hocc
                  simp only [hocc, Bool.false_eq_true, if_false]
                  exact instMono_setInst s _ _ (Ne.symm heq)
              | fn psb retb =>
                by_cases hlen : psa.length = psb.length
                · simp only [hlen, if_pos, if_neg, ne_eq, not_true_eq_false, if_false]
                  have hkind : ¬ (kindTag (TypeNode.fn psa reta) ≠ kindTag (TypeNode.fn psb retb)) := by
                    simp [kindTag]
                  simp only [if_neg hkind]
                  cases hfold : (psa.zip psb).foldl
                      (fun acc p =>
                        match acc with
                        | (false, s1) => (false, s1)
                        | (true, s1) => type_unify g s1 p.1 p.2)
                      (true, s) with
                  | mk ok s1 =>
                    have hmono1 : InstMono s s1 := by
                      have := unify_fold_instMono g ih (psa.zip psb) (true, s)
                      rw [hfold] at this
                      exact this
                    cases ok with
                    | true =>
                      exact instMono_trans hmono1 (ih s1 reta retb)
                    | false =>
                      exact hmono1
                · have : (psa.length ≠ psb.length) := hlen
                  simp only [if_pos this]
                  exact instMono_refl s
              | _ => first
                  | exact instMono_refl s
                  | (simp only []; exact instMono_refl s)
            | array ea =>
              cases nb with
              | var vidb instb =>
                by_cases hocc : occurs_in s (g + 1) vidb (type_resolve s a) = true
                · simp only [hocc, if_pos rfl]
                  exact instMono_refl s
                · simp only [Bool.not_eq_true] at hocc
                  simp only [hocc, Bool.false_eq_true, if_false]
                  exact instMono_setInst s _ _ (Ne.symm heq)
              | array eb =>
                have hkind : ¬ (kindTag (TypeNode.array ea) ≠ kindTag (TypeNode.array eb)) := by
                  simp [kindTag]
                simp only [if_neg hkind]
                exact ih s ea eb
              | _ => first
                  | exact instMono_refl s
                  | (simp only []; exact instMono_refl s)
            | optional ia =>
              cases nb with
              | var vidb instb =>
                by_cases hocc : occurs_in s (g + 1) vidb (type_resolve s a) = true
                · simp only [hocc, if_pos rfl]
                  exact instMono_refl s
                · simp only [Bool.not_eq_true] at hocc
                  simp only [hocc, Bool.false_eq_true, if_false]
                  exact instMono_setInst s _ _ (Ne.symm heq)
              | optional ib =>
                have hkind : ¬ (kindTag (TypeNode.optional ia) ≠ kindTag (TypeNode.optional ib)) := by
                  simp [kindTag]
                simp only [if_neg hkind]
                exact ih s ia ib
              | _ => first
                  | exact instMono_refl s
                  | (simp only []; exact instMono_refl s)
            | _ =>
              cases nb with
              | var vidb instb =>
                by_cases hocc : occurs_in s (g + 1) vidb (type_resolve s a) = true
                · simp only [hocc, if_pos rfl]
                  exact instMono_refl s
                · simp only [Bool.not_eq_true] at hocc
                  simp only [hocc, Bool.false_eq_true, if_false]
                  exact instMono_setInst s _ _ (Ne.symm heq)
              | _ => first
                  | exact instMono_refl s
                  | (split <;> exact instMono_refl s)
                  | (simp only []; split <;> exact instMono_refl s)

lemma resolveAux_stop (s : TypeStore) (t : Nat) (fuel : Nat)
    (h : ∀ id inst, getNode s t ≠ some (TypeNode.var id (some inst))) :
    resolveAux s fuel t = t := by
  cases fuel with
  | zero => rfl
  | succ n =>
    rw [resolveAux]
    split
    · rename_i id inst heq
      exact absurd heq (h id inst)
    · rfl

lemma kindTag_fifteen {n : TypeNode} (h : kindTag n = 15) : n = TypeNode.error := by
  cases n <;> simp [kindTag] at h ⊢

lemma occurs_in_error (s : TypeStore) (fuel vid rb : Nat)
    (h : getNode s rb = some TypeNode.error) :
    occurs_in s (fuel + 1) vid rb = false := by
  rw [occurs_in]
  have hres : type_resolve s rb = rb := by
    unfold type_resolve
    refine resolveAux_stop s rb 1001 ?_
    intro id inst heq
    rw [h] at heq
    cases heq
  simp only [hres, h]

/-- C6.  `type_unify` never binds a type variable to itself (every `instance`
it writes points to a different cell); if an unbound variable `v` is unified
with a type whose resolved form transitively contains `v` without being `v`
itself, the occurs check makes `type_unify` return `false` with the store
untouched; and no instance, once set, is ever cleared back to unbound. -/
theorem c6_unify_occurs_check_and_instance_monotone :
    (∀ (fuel : Nat) (s : TypeStore) (a b : Nat),
      (∀ i j, instOf s i = some j →
        ∃ k, instOf (type_unify fuel s a b).2 i = some k) ∧
      (∀ i j, instOf (type_unify fuel s a b).2 i = some j →
        instOf s i = some j ∨ i ≠ j)) ∧
    (∀ (fuel : Nat) (s : TypeStore) (a b vida : Nat),
      getNode s (type_resolve s a) = some (TypeNode.var vida none) →
      type_resolve s a ≠ type_resolve s b →
      occurs_in s (fuel + 1) vida (type_resolve s b) = true →
      type_unify (fuel + 1) s a b = (false, s)) := by
  constructor
  · intro fuel s a b
    exact type_unify_instMono fuel s a b
  · intro fuel s a b vida hna hne hocc
    rw [type_unify]
    cases hnb : getNode s (type_resolve s b) with
    | none => simp only [hna, hnb]
    | some nb =>
      have hnberr : kindTag nb ≠ 15 := by
        intro h15
        have hb : nb = TypeNode.error := kindTag_fifteen h15
        subst hb
        rw [occurs_in_error s fuel vida (type_resolve s b) hnb] at hocc
        cases hocc
      have hkinds : ¬ (kindTag (TypeNode.var vida none) = 15 ∨ kindTag nb = 15) := by
        intro h
        rcases h with h | h
        · simp [kindTag] at h
        · exact hnberr h
      simp only [hna, hnb, if_neg hne, if_neg hkinds, hocc]
      simp

def c6WitnessStore : TypeStore :=
  { cells := initStore.cells ++
      [⟨TypeNode.var 0 none, Permission.permUnknown⟩,
       ⟨TypeNode.fn [16] TYPE_I32_ID, Permission.permImmutable⟩],
    nextVarId := 1 }

/-- Witness for C6: unifying the unbound variable at cell 16 with the type
`fn(t0) -> i32` at cell 17 (which contains it) fails and leaves the store
unchanged, while unifying it with `i32` binds cell 16 to cell 4 ≠ 16. -/
theorem c6_witness :
    type_unify (4 + 1) c6WitnessStore 16 17 = (false, c6WitnessStore) ∧
    (instOf c6WitnessStore 16 = some TYPE_I32_ID ∨ (16 : Nat) ≠ TYPE_I32_ID) :=
  ⟨c6_unify_occurs_check_and_instance_monotone.2 4 c6WitnessStore 16 17 0
      (by decide) (by decide) (by decide),
   (c6_unify_occurs_check_and_instance_monotone.1 5 c6WitnessStore 16 TYPE_I32_ID).2
      16 TYPE_I32_ID (by decide)⟩

/-! ## Lexer

Embedding of `src/arnm-lang/compiler/src/lexer.c`.  The source buffer is a
byte list; reading past the end yields `0` as in C.  The single-slot peek
buffer (`has_peek` / `lexer_peek_token`) only replays an already-produced
token and is omitted; `lexer_next_token` below is the `has_peek == false`
path.  A token's `lexeme` pointer is recoverable from its span except for
error tokens (where C points it at the static message text), so it is not
stored.  Every C scan loop advances the cursor on each iteration, so each
loop is run with fuel `source.length + 1`, which it can never exhaust. -/

inductive TokKind where
  | tokIdent | tokIntLit | tokFloatLit | tokStringLit | tokCharLit
  | tokFn | tokActor | tokLet | tokMut | tokConst | tokIf | tokElse
  | tokMatch | tokWhile | tokFor | tokLoop | tokBreak | tokContinue
  | tokReturn | tokSpawn | tokReceive | tokSelf | tokUnique | tokShared
  | tokImmut | tokType | tokStruct | tokEnum | tokTrue | tokFalse | tokNil
  | tokPlus | tokMinus | tokStar | tokSlash | tokPercent | tokBang
  | tokEq | tokLt | tokGt | tokAmp | tokPipe | tokCaret | tokTilde
  | tokDot | tokComma | tokColon | tokSemi | tokAt | tokHash | tokQuestion
  | tokArrow | tokFatArrow | tokDoubleColon | tokEqEq | tokBangEq
  | tokLtEq | tokGtEq | tokAndAnd | tokPipePipe | tokPlusEq | tokMinusEq
  | tokStarEq | tokSlashEq | tokDotDot | tokDotDotEq
  | tokLParen | tokRParen | tokLBrace | tokRBrace | tokLBracket | tokRBracket
  | tokEOF | tokError
  deriving Repr, DecidableEq

structure Token where
  kind : TokKind
  start : Nat
  stop : Nat
  line : Nat
  column : Nat
  deriving Repr, DecidableEq

structure Lexer where
  source : List Nat
  cursor : Nat
  line : Nat
  column : Nat
  deriving Repr, DecidableEq

def lexer_init (source : List Nat) : Lexer :=
  { source := source, cursor := 0, line := 1, column := 1 }

def is_whitespace (c : Nat) : Bool := c = 32 || c = 9 || c = 13 || c = 10

def is_digit (c : Nat) : Bool := 48 ≤ c && c ≤ 57

def is_hex_digit (c : Nat) : Bool :=
  is_digit c || (97 ≤ c && c ≤ 102) || (65 ≤ c && c ≤ 70)

def is_alpha (c : Nat) : Bool := (97 ≤ c && c ≤ 122) || (65 ≤ c && c ≤ 90)

def is_ident_start (c : Nat) : Bool := is_alpha c || c = 95

def is_ident_cont (c : Nat) : Bool := is_alpha c || is_digit c || c = 95

def peek_char (lx : Lexer) : Nat :=
  if lx.cursor < lx.source.length then lx.source.getD lx.cursor 0 else 0

def peek_char_at (lx : Lexer) (off : Nat) : Nat :=
  if lx.cursor + off < lx.source.length then lx.source.getD (lx.cursor + off) 0 else 0

def advance (lx : Lexer) : Lexer :=
  if lx.cursor < lx.source.length then
    if lx.source.getD lx.cursor 0 = 10 then
      { lx with cursor := lx.cursor + 1, line := lx.line + 1, column := 1 }
    else
      { lx with cursor := lx.cursor + 1, column := lx.column + 1 }
  else lx

/-- The `while (peek != '\n' && peek != '\0') advance;` loop of the line
comment branch. -/
def skipLineComment : Nat → Lexer → Lexer
  | 0, lx => lx
  | fuel + 1, lx =>
    if peek_char lx ≠ 10 && peek_char lx ≠ 0 then
      skipLineComment fuel (advance lx)
    else lx

/-- The nested block-comment loop (`while depth > 0 && cursor < len`). -/
def skipBlockComment : Nat → Lexer → Nat → Lexer
  | 0, lx, _ => lx
  | fuel + 1, lx, depth =>
    if 0 < depth && lx.cursor < lx.source.length then
      if peek_char lx = 47 && peek_char_at lx 1 = 42 then
        skipBlockComment fuel (advance (advance lx)) (depth + 1)
      else if peek_char lx = 42 && peek_char_at lx 1 = 47 then
        skipBlockComment fuel (advance (advance lx)) (depth - 1)
      else
        skipBlockComment fuel (advance lx) depth
    else lx

/-- `skip_whitespace_and_comments`: note that when a block comment is never
closed, the inner loop simply runs off the end of the input and the outer
loop then terminates with the cursor at the end — no error is recorded. -/
def skip_whitespace_and_comments : Nat → Lexer → Lexer
  | 0, lx => lx
  | fuel + 1, lx =>
    if lx.cursor < lx.source.length then
      let c := peek_char lx
      if is_whitespace c then
        skip_whitespace_and_comments fuel (advance lx)
      else if c = 47 && peek_char_at lx 1 = 47 then
        skip_whitespace_and_comments fuel
          (skipLineComment (lx.source.length + 1) (advance (advance lx)))
      else if c = 47 && peek_char_at lx 1 = 42 then
        skip_whitespace_and_comments fuel
          (skipBlockComment (lx.source.length + 1) (advance (advance lx)) 1)
      else lx
    else lx

def make_token (lx : Lexer) (kind : TokKind) (start : Nat)
    (startLine startCol : Nat) : Token :=
  { kind := kind, start := start, stop := lx.cursor,
    line := startLine, column := startCol }

def make_error (lx : Lexer) (start : Nat) (startLine startCol : Nat) : Token :=
  { kind := TokKind.tokError, start := start, stop := lx.cursor,
    line := startLine, column := startCol }

def strBytes (s : String) : List Nat := s.data.map Char.toNat

/-- The sorted keyword table. -/
def keywords : List (List Nat × TokKind) :=
  [ (strBytes "actor", TokKind.tokActor),
    (strBytes "break", TokKind.tokBreak),
    (strBytes "const", TokKind.tokConst),
    (strBytes "continue", TokKind.tokContinue),
    (strBytes "else", TokKind.tokElse),
    (strBytes "enum", TokKind.tokEnum),
    (strBytes "false", TokKind.tokFalse),
    (strBytes "fn", TokKind.tokFn),
    (strBytes "for", TokKind.tokFor),
    (strBytes "if", TokKind.tokIf),
    (strBytes "immut", TokKind.tokImmut),
    (strBytes "let", TokKind.tokLet),
    (strBytes "loop", TokKind.tokLoop),
    (strBytes "match", TokKind.tokMatch),
    (strBytes "mut", TokKind.tokMut),
    (strBytes "nil", TokKind.tokNil),
    (strBytes "receive", TokKind.tokReceive),
    (strBytes "return", TokKind.tokReturn),
    (strBytes "self", TokKind.tokSelf),
    (strBytes "shared", TokKind.tokShared),
    (strBytes "spawn", TokKind.tokSpawn),
    (strBytes "struct", TokKind.tokStruct),
    (strBytes "true", TokKind.tokTrue),
    (strBytes "type", TokKind.tokType),
    (strBytes "unique", TokKind.tokUnique),
    (strBytes "while", TokKind.tokWhile) ]

/-- `memcmp` over the common prefix, then length comparison — the comparison
`lookup_keyword` performs against one table entry. -/
def kwCmp : List Nat → List Nat → Int
  | [], [] => 0
  | [], _ :: _ => -1
  | _ :: _, [] => 1
  | a :: s', b :: kw' =>
    if a < b then -1 else if b < a then 1 else kwCmp s' kw'

/-- Binary search over the sorted keyword table (`lookup_keyword`); the fuel
bounds the number of bisection steps, which is at most `log2 26 + 1`. -/
def lookup_keyword_aux : Nat → Int → Int → List Nat → TokKind
  | 0, _, _, _ => TokKind.tokIdent
  | fuel + 1, lo, hi, name =>
    if lo ≤ hi then
      let mid := (lo + hi) / 2
      match keywords[mid.toNat]? with
      | none => TokKind.tokIdent
      | some (kw, kind) =>
        let c := kwCmp name kw
        if c = 0 then kind
        else if c < 0 then lookup_keyword_aux fuel lo (mid - 1) name
        else lookup_keyword_aux fuel (mid + 1) hi name
    else TokKind.tokIdent

def lookup_keyword (name : List Nat) : TokKind :=
  lookup_keyword_aux 8 0 25 name

def scanWhile (p : Nat → Bool) : Nat → Lexer → Lexer
  | 0, lx => lx
  | fuel + 1, lx =>
    if p (peek_char lx) then scanWhile p fuel (advance lx) else lx

def scan_identifier (lx : Lexer) (start startLine startCol : Nat) : Token × Lexer :=
  let lx' := scanWhile is_ident_cont (lx.source.length + 1) lx
  let name := (lx'.source.drop start).take (lx'.cursor - start)
  (make_token lx' (lookup_keyword name) start startLine startCol, lx')

def scan_number (lx : Lexer) (start startLine startCol : Nat) : Token × Lexer :=
  if peek_char lx = 48 &&
      (peek_char_at lx 1 = 120 || peek_char_at lx 1 = 88) then
    let lx' := scanWhile is_hex_digit (lx.source.length + 1) (advance (advance lx))
    (make_token lx' TokKind.tokIntLit start startLine startCol, lx')
  else if peek_char lx = 48 &&
      (peek_char_at lx 1 = 98 || peek_char_at lx 1 = 66) then
    let lx' := scanWhile (fun c => c = 48 || c = 49) (lx.source.length + 1)
      (advance (advance lx))
    (make_token lx' TokKind.tokIntLit start startLine startCol, lx')
  else if peek_char lx = 48 &&
      (peek_char_at lx 1 = 111 || peek_char_at lx 1 = 79) then
    let lx' := scanWhile (fun c => 48 ≤ c && c ≤ 55) (lx.source.length + 1)
      (advance (advance lx))
    (make_token lx' TokKind.tokIntLit start startLine startCol, lx')
  else
    let lx1 := scanWhile is_digit (lx.source.length + 1) lx
    let (isFloat1, lx2) :=
      if peek_char lx1 = 46 && is_digit (peek_char_at lx1 1) then
        (true, scanWhile is_digit (lx1.source.length + 1) (advance lx1))
      else (false, lx1)
    let (isFloat2, lx3) :=
      if peek_char lx2 = 101 || peek_char lx2 = 69 then
        let lx2a := advance lx2
        let lx2b := if peek_char lx2a = 43 || peek_char lx2a = 45 then advance lx2a
                    else lx2a
        (true, scanWhile is_digit (lx2b.source.length + 1) lx2b)
      else (isFloat1, lx2)
    (make_token lx3 (if isFloat2 then TokKind.tokFloatLit else TokKind.tokIntLit)
      start startLine startCol, lx3)

def scanStringBody : Nat → Lexer → Lexer
  | 0, lx => lx
  | fuel + 1, lx =>
    if peek_char lx ≠ 34 && peek_char lx ≠ 0 then
      if peek_char lx = 92 then
        let lx' := advance lx
        if peek_char lx' = 0 then lx'
        else scanStringBody fuel (advance lx')
      else scanStringBody fuel (advance lx)
    else lx

def scan_string (lx : Lexer) (start startLine startCol : Nat) : Token × Lexer :=
  let lx1 := scanStringBody (lx.source.length + 1) (advance lx)
  if peek_char lx1 = 0 then
    (make_error lx1 start startLine startCol, lx1)
  else
    let lx2 := advance lx1
    (make_token lx2 TokKind.tokStringLit start startLine startCol, lx2)

def scan_char (lx : Lexer) (start startLine startCol : Nat) : Token × Lexer :=
  let lx1 := advance lx
  let lx2 :=
    if peek_char lx1 = 92 then
      let lx1a := advance lx1
      if peek_char lx1a = 0 then lx1a else advance lx1a
    else if peek_char lx1 ≠ 39 && peek_char lx1 ≠ 0 then advance lx1
    else lx1
  if peek_char lx1 = 92 && peek_char (advance lx1) = 0 then
    (make_error lx2 start startLine startCol, lx2)
  else if peek_char lx2 ≠ 39 then
    (make_error lx2 start startLine startCol, lx2)
  else
    let lx3 := advance lx2
    (make_token lx3 TokKind.tokCharLit start startLine startCol, lx3)

/-- The two-character operator helper: if the next character is `c2`, advance
and produce `k2`, else produce `k1`. -/
def twoChar (lx : Lexer) (c2 : Nat) (k2 k1 : TokKind)
    (start startLine startCol : Nat) : Token × Lexer :=
  if peek_char lx = c2 then
    let lx' := advance lx
    (make_token lx' k2 start startLine startCol, lx')
  else (make_token lx k1 start startLine startCol, lx)

def lexer_next_token (lx0 : Lexer) : Token × Lexer :=
  let lx := skip_whitespace_and_comments (lx0.source.length + 1) lx0
  if lx.cursor ≥ lx.source.length then
    (make_token lx TokKind.tokEOF lx.cursor lx.line lx.column, lx)
  else
    let start := lx.cursor
    let startLine := lx.line
    let startCol := lx.column
    let c := peek_char lx
    if is_ident_start c then scan_identifier lx start startLine startCol
    else if is_digit c then scan_number lx start startLine startCol
    else if c = 34 then scan_string lx start startLine startCol
    else if c = 39 then scan_char lx start startLine startCol
    else
      let lx1 := advance lx
      if c = 40 then (make_token lx1 TokKind.tokLParen start startLine startCol, lx1)
      else if c = 41 then (make_token lx1 TokKind.tokRParen start startLine startCol, lx1)
      else if c = 123 then (make_token lx1 TokKind.tokLBrace start startLine startCol, lx1)
      else if c = 125 then (make_token lx1 TokKind.tokRBrace start startLine startCol, lx1)
      else if c = 91 then (make_token lx1 TokKind.tokLBracket start startLine startCol, lx1)
      else if c = 93 then (make_token lx1 TokKind.tokRBracket start startLine startCol, lx1)
      else if c = 44 then (make_token lx1 TokKind.tokComma start startLine startCol, lx1)
      else if c = 59 then (make_token lx1 TokKind.tokSemi start startLine startCol, lx1)
      else if c = 126 then (make_token lx1 TokKind.tokTilde start startLine startCol, lx1)
      else if c = 64 then (make_token lx1 TokKind.tokAt start startLine startCol, lx1)
      else if c = 35 then (make_token lx1 TokKind.tokHash start startLine startCol, lx1)
      else if c = 63 then (make_token lx1 TokKind.tokQuestion start startLine startCol, lx1)
      else if c = 94 then (make_token lx1 TokKind.tokCaret start startLine startCol, lx1)
      else if c = 37 then (make_token lx1 TokKind.tokPercent start startLine startCol, lx1)
      else if c = 43 then
        twoChar lx1 61 TokKind.tokPlusEq TokKind.tokPlus start startLine startCol
      else if c = 45 then
        if peek_char lx1 = 62 then
          let lx2 := advance lx1
          (make_token lx2 TokKind.tokArrow start startLine startCol, lx2)
        else if peek_char lx1 = 61 then
          let lx2 := advance lx1
          (make_token lx2 TokKind.tokMinusEq start startLine startCol, lx2)
        else (make_token lx1 TokKind.tokMinus start startLine startCol, lx1)
      else if c = 42 then
        twoChar lx1 61 TokKind.tokStarEq TokKind.tokStar start startLine startCol
      else if c = 47 then
        twoChar lx1 61 TokKind.tokSlashEq TokKind.tokSlash start startLine startCol
      else if c = 61 then
        if peek_char lx1 = 61 then
          let lx2 := advance lx1
          (make_token lx2 TokKind.tokEqEq start startLine startCol, lx2)
        else if peek_char lx1 = 62 then
          let lx2 := advance lx1
          (make_token lx2 TokKind.tokFatArrow start startLine startCol, lx2)
        else (make_token lx1 TokKind.tokEq start startLine startCol, lx1)
      else if c = 33 then
        twoChar lx1 61 TokKind.tokBangEq TokKind.tokBang start startLine startCol
      else if c = 60 then
        twoChar lx1 61 TokKind.tokLtEq TokKind.tokLt start startLine startCol
      else if c = 62 then
        twoChar lx1 61 TokKind.tokGtEq TokKind.tokGt start startLine startCol
      else if c = 38 then
        twoChar lx1 38 TokKind.tokAndAnd TokKind.tokAmp start startLine startCol
      else if c = 124 then
        twoChar lx1 124 TokKind.tokPipePipe TokKind.tokPipe start startLine startCol
      else if c = 58 then
        twoChar lx1 58 TokKind.tokDoubleColon TokKind.tokColon start startLine startCol
      else if c = 46 then
        if peek_char lx1 = 46 then
          let lx2 := advance lx1
          if peek_char lx2 = 61 then
            let lx3 := advance lx2
            (make_token lx3 TokKind.tokDotDotEq start startLine startCol, lx3)
          else (make_token lx2 TokKind.tokDotDot start startLine startCol, lx2)
        else (make_token lx1 TokKind.tokDot start startLine startCol, lx1)
      else (make_error lx1 start startLine startCol, lx1)

/-- C8 (demonstration at the failing input).  Lexing the source `"/* x"`, in
which a block comment is opened and never closed before the end of the input,
produces a plain `EOF` token — not the `ERROR` token the specification
requires (the declared `LEX_ERR_UNTERMINATED_COMMENT` error is never raised
by the code). -/
theorem c8_unterminated_comment_gives_eof :
    (lexer_next_token (lexer_init (strBytes "/* x"))).1.kind = TokKind.tokEOF ∧
    (lexer_next_token (lexer_init (strBytes "/* x"))).1.kind ≠ TokKind.tokError := by
  constructor
  · rfl
  · decide

/-! ## Abstract syntax

The AST of `src/arnm-lang/compiler/include/ast.h`, with the parts that are
pure metadata for the verified properties omitted: spans, and the
`resolved_type` memo slot.  The memo slot starts `NULL` in parser output and
each node is inferred exactly once by the analyzer, so the early-return cache
in `sema_infer_expr` never fires and is not modelled; the two places where
the IR generator later *reads* an annotation (`sema_type` of the object of a
field access) appear as explicit `semaType` fields on identifier and field
nodes.  Null child pointers (possible in C only under arena exhaustion) are
modelled only where the grammar itself makes a child optional. -/

inductive BinaryOp where
  | add | sub | mul | div | mod
  | eq | ne | lt | le | gt | ge
  | andOp | orOp
  | bitand | bitor | bitxor
  | assign
  | send
  deriving Repr, DecidableEq

inductive UnaryOp where
  | neg | notOp | bitnot
  deriving Repr, DecidableEq

inductive AstExpr where
  | intLit (value : Int)
  | floatLit
  | stringLit (sid : Nat)
  | charLit (value : Nat)
  | boolLit (value : Bool)
  | nilE
  | selfE
  | ident (name : List Nat) (semaType : Option Nat)
  | binary (op : BinaryOp) (left right : AstExpr)
  | unary (op : UnaryOp) (operand : AstExpr)
  | call (callee : AstExpr) (args : List AstExpr)
  | index (obj idx : AstExpr)
  | field (obj : AstExpr) (name : List Nat) (semaType : Option Nat)
  | send (target message : AstExpr)
  | spawnE (e : AstExpr)
  | group (inner : AstExpr)
  deriving Repr

inductive AstStmt where
  | letS (name : List Nat) (isMut : Bool) (hasAnn : Bool) (init : Option AstExpr)
  | returnS (value : Option AstExpr)
  | exprS (e : AstExpr)
  | ifS (cond : AstExpr) (thenB : List AstStmt) (elseB : Option AstStmt)
  | whileS (cond : AstExpr) (body : List AstStmt)
  | forS (varName : List Nat) (iterable : AstExpr) (body : List AstStmt)
  | loopS (body : List AstStmt)
  | spawnS (e : AstExpr)
  | receiveS (arms : List (List Nat × Option (List AstStmt)))
  | breakS
  | continueS
  | blockS (b : List AstStmt)
  deriving Repr

structure FnParam where
  name : List Nat
  isMut : Bool
  deriving Repr, DecidableEq

structure AstFnDecl where
  name : List Nat
  params : List FnParam
  hasReturnType : Bool
  body : Option (List AstStmt)
  deriving Repr

structure AstActorDecl where
  name : List Nat
  fields : List (List Nat × Bool × Option AstExpr)
  methods : List AstFnDecl
  receiveBlock : Option (List (List Nat × Option (List AstStmt)))
  deriving Repr

structure AstStructDecl where
  name : List Nat
  fields : List FnParam
  deriving Repr, DecidableEq

inductive AstDecl where
  | fnD (d : AstFnDecl)
  | actorD (d : AstActorDecl)
  | structD (d : AstStructDecl)
  deriving Repr

/-! ## Semantic analyzer

Embedding of `src/arnm-lang/compiler/src/sema.c`.  Every C recursion is
bounded by the call stack; the embedding threads an explicit fuel,
decremented once per statement/expression nesting level, and acts as a no-op
when it runs out (real inputs never exhaust it).  `sema_error` stores a
message and span into a 64-slot array; since no verified property reads the
stored diagnostics, only the count (with the 64 cap) and `had_error` are
kept. -/

def MAX_SEMA_ERRORS : Nat := 64

structure SemaContext where
  store : TypeStore
  symbols : SymbolTable
  errorCount : Nat
  hadError : Bool
  currentFnReturn : Option Nat
  inLoop : Bool
  inActor : Bool
  curActor : Option Nat

def sema_init : SemaContext :=
  { store := initStore, symbols := symtab_init, errorCount := 0,
    hadError := false, currentFnReturn := none, inLoop := false,
    inActor := false, curActor := none }

def sema_error (ctx : SemaContext) : SemaContext :=
  { ctx with
    hadError := true,
    errorCount := (if ctx.errorCount < MAX_SEMA_ERRORS then ctx.errorCount + 1
                   else ctx.errorCount) }

/-- Allocate a fresh type variable inside the context. -/
def ctxTypeVar (ctx : SemaContext) : Nat × SemaContext :=
  let (t, st) := type_var ctx.store
  (t, { ctx with store := st })

def ctxUnify (ctx : SemaContext) (a b : Nat) : Bool × SemaContext :=
  let (ok, st) := type_unify 1000 ctx.store a b
  (ok, { ctx with store := st })

/-- Field list of an actor node (empty for any other node). -/
def actorFieldsOf : Option TypeNode → List (List Nat × Nat)
  | some (TypeNode.actor _ fields) => fields
  | _ => []

def actorNameOf : Option TypeNode → List Nat
  | some (TypeNode.actor name _) => name
  | _ => []

/-- `fn` payload of a node; `SYMBOL_FN` symbols always carry `TYPE_FN` types
in the analyzer, so the fallback is unreachable. -/
def fnPayloadOf : Option TypeNode → List Nat × Nat
  | some (TypeNode.fn ps ret) => (ps, ret)
  | _ => ([], TYPE_ERROR_ID)

/-- `check_assignment_target`: valid targets are mutable identifiers,
`self.field` inside an actor, nested field/index chains; anything else is an
error.  (The C recursion is structural on the expression.) -/
def check_assignment_target (ctx : SemaContext) : AstExpr → SemaContext
  | AstExpr.ident name _ =>
    (match symbol_lookup ctx.symbols name with
     | none => ctx
     | some sym => if sym.isMutable then ctx else sema_error ctx)
  | AstExpr.field obj _ _ =>
    (match obj with
     | AstExpr.selfE => if ctx.inActor then ctx else sema_error ctx
     | _ => check_assignment_target ctx obj)
  | AstExpr.index obj _ => check_assignment_target ctx obj
  | _ => sema_error ctx

/-- `sema_infer_expr`, with `infer_ident`, `infer_binary`, `infer_unary`,
`infer_call`, `infer_send` and `infer_spawn` inlined at their call sites (the
C code splits them into `static` helpers; the control flow is identical). -/
def sema_infer_expr : Nat → SemaContext → AstExpr → Nat × SemaContext
  | 0, ctx, _ => (TYPE_ERROR_ID, ctx)
  | fuel + 1, ctx, e =>
    match e with
    | AstExpr.intLit _ => (TYPE_I32_ID, ctx)
    | AstExpr.floatLit => (TYPE_F64_ID, ctx)
    | AstExpr.stringLit _ => (TYPE_STRING_ID, ctx)
    | AstExpr.charLit _ => (TYPE_CHAR_ID, ctx)
    | AstExpr.boolLit _ => (TYPE_BOOL_ID, ctx)
    | AstExpr.nilE => (TYPE_UNIT_ID, ctx)
    | AstExpr.selfE =>
      (match ctx.curActor with
       | some t => (t, ctx)
       | none => (TYPE_ERROR_ID, sema_error ctx))
    | AstExpr.ident name _ =>
      -- infer_ident: bare actor-field access requires a `self.` prefix
      let bareField :=
        ctx.inActor &&
        (match ctx.curActor with
         | some ca =>
           (actorFieldsOf (getNode ctx.store (type_resolve ctx.store ca))).any
             (fun f => f.1 = name)
         | none => false)
      if bareField then (TYPE_ERROR_ID, sema_error ctx)
      else
        match symbol_lookup ctx.symbols name with
        | none => (TYPE_ERROR_ID, sema_error ctx)
        | some sym =>
          match sym.type with
          | some t => (t, ctx)
          | none => ctxTypeVar ctx
    | AstExpr.binary op l r =>
      -- infer_binary
      let (lt, c1) := sema_infer_expr fuel ctx l
      let (rt, c2) := sema_infer_expr fuel c1 r
      (match op with
       | BinaryOp.add | BinaryOp.sub | BinaryOp.mul
       | BinaryOp.div | BinaryOp.mod =>
         let (ok, c3) := ctxUnify c2 lt rt
         if ok then (lt, c3) else (lt, sema_error c3)
       | BinaryOp.eq | BinaryOp.ne | BinaryOp.lt | BinaryOp.le
       | BinaryOp.gt | BinaryOp.ge =>
         let (ok, c3) := ctxUnify c2 lt rt
         if ok then (TYPE_BOOL_ID, c3) else (TYPE_BOOL_ID, sema_error c3)
       | BinaryOp.andOp | BinaryOp.orOp =>
         -- `!unify(l, bool) || !unify(r, bool)` short-circuits: the second
         -- unification only runs when the first succeeded.
         let (ok1, c3) := ctxUnify c2 lt TYPE_BOOL_ID
         if ok1 then
           let (ok2, c4) := ctxUnify c3 rt TYPE_BOOL_ID
           if ok2 then (TYPE_BOOL_ID, c4) else (TYPE_BOOL_ID, sema_error c4)
         else (TYPE_BOOL_ID, sema_error c3)
       | BinaryOp.assign =>
         let c3 := check_assignment_target c2 l
         let (ok, c4) := ctxUnify c3 lt rt
         if ok then (TYPE_UNIT_ID, c4) else (TYPE_UNIT_ID, sema_error c4)
       | BinaryOp.send =>
         -- BINARY_SEND validation: dead code, since `parse_binary` builds a
         -- dedicated AST_SEND_EXPR node for `!`, never a BINARY_SEND binary.
         let rl := type_resolve c2.store lt
         let knd := (getNode c2.store rl).map kindTag
         if knd ≠ some 14 ∧ knd ≠ some 1 ∧ knd ≠ some 15 then
           (TYPE_UNIT_ID, sema_error c2)
         else (TYPE_UNIT_ID, c2)
       | _ => ctxTypeVar c2)
    | AstExpr.unary op operand =>
      -- infer_unary
      let (t, c1) := sema_infer_expr fuel ctx operand
      (match op with
       | UnaryOp.neg => (t, c1)
       | UnaryOp.notOp =>
         let (ok, c2) := ctxUnify c1 t TYPE_BOOL_ID
         if ok then (TYPE_BOOL_ID, c2) else (TYPE_BOOL_ID, sema_error c2)
       | UnaryOp.bitnot => (t, c1))
    | AstExpr.call callee args =>
      -- infer_call
      let (ct, c1) := sema_infer_expr fuel ctx callee
      let rct := type_resolve c1.store ct
      (match getNode c1.store rct with
       | some (TypeNode.actor aname _) =>
         -- actor constructor call: validate against the `Actor_init` method
         let mangled := aname ++ strBytes "_init"
         let initFnType :=
           match symbol_lookup c1.symbols mangled with
           | some sy => if sy.kind = SymbolKind.fnSym then sy.type else none
           | none => none
         (match initFnType with
          | some ift =>
            let ps := (fnPayloadOf (getNode c1.store ift)).1
            if args.length ≠ ps.length then
              (TYPE_ERROR_ID, sema_error c1)
            else
              let folded := (args.zip ps).foldl
                (fun (acc : Bool × SemaContext) p =>
                  match acc with
                  | (true, cbad) => (true, cbad)
                  | (false, c) =>
                    let (at', c') := sema_infer_expr fuel c p.1
                    let (ok, c'') := ctxUnify c' at' p.2
                    if ok then (false, c'') else (true, sema_error c''))
                (false, c1)
              if folded.1 then (TYPE_ERROR_ID, folded.2)
              else (rct, folded.2)
          | none =>
            if args.length > 0 then (TYPE_ERROR_ID, sema_error c1)
            else (rct, c1))
       | some (TypeNode.var _ _) =>
         -- fabricate a function type from the call and unify the callee
         let (paramTypes, c2) := args.foldl
           (fun (acc : List Nat × SemaContext) a =>
             let (t, c') := sema_infer_expr fuel acc.2 a
             (acc.1 ++ [t], c'))
           ([], c1)
         let (retT, c3) := ctxTypeVar c2
         let (fnT, c4) := (let (i, st) := type_fn c3.store paramTypes retT
                           (i, { c3 with store := st }))
         let (_, c5) := ctxUnify c4 rct fnT
         (retT, c5)
       | some (TypeNode.fn ps ret) =>
         if args.length ≠ ps.length then (ret, sema_error c1)
         else
           let c2 := (args.zip ps).foldl
             (fun c p =>
               let (at', c') := sema_infer_expr fuel c p.1
               let (ok, c'') := ctxUnify c' at' p.2
               if ok then c'' else sema_error c'')
             c1
           (ret, c2)
       | _ => (TYPE_ERROR_ID, sema_error c1))
    | AstExpr.send target message =>
      -- infer_send: both operands are inferred, the results are discarded
      -- ((void)target; (void)message) and unit is returned with no check.
      let (_, c1) := sema_infer_expr fuel ctx target
      let (_, c2) := sema_infer_expr fuel c1 message
      (TYPE_UNIT_ID, c2)
    | AstExpr.spawnE inner =>
      -- infer_spawn: the target must resolve to fn, var, actor or error
      let (t, c1) := sema_infer_expr fuel ctx inner
      let rt := type_resolve c1.store t
      let knd := (getNode c1.store rt).map kindTag
      let ok := knd = some 10 ∨ knd = some 1 ∨ knd = some 11 ∨ knd = some 15
      let c2 := if ok then c1 else sema_error c1
      let (p, st) := type_process c2.store
      (p, { c2 with store := st })
    | AstExpr.group inner => sema_infer_expr fuel ctx inner
    | AstExpr.field obj fname _ =>
      let (ot, c1) := sema_infer_expr fuel ctx obj
      let ro := type_resolve c1.store ot
      (match getNode c1.store ro with
       | some (TypeNode.actor aname fields) =>
         (match (fields.find? (fun f => f.1 = fname)) with
          | some f => (f.2, c1)
          | none =>
            let mangled := aname ++ [95] ++ fname
            match symbol_lookup c1.symbols mangled with
            | some method =>
              if method.kind = SymbolKind.fnSym then
                (method.type.getD TYPE_ERROR_ID, c1)
              else (TYPE_ERROR_ID, sema_error c1)
            | none => (TYPE_ERROR_ID, sema_error c1))
       | some (TypeNode.structT _ fields) =>
         (match (fields.find? (fun f => f.1 = fname)) with
          | some f => (f.2, c1)
          | none => (TYPE_ERROR_ID, sema_error c1))
       | _ => (TYPE_ERROR_ID, sema_error c1))
    | AstExpr.index obj idx =>
      let (ot, c1) := sema_infer_expr fuel ctx obj
      let (_, c2) := sema_infer_expr fuel c1 idx
      (match getNode c2.store (type_resolve c2.store ot) with
       | some (TypeNode.array elem) => (elem, c2)
       | _ => ctxTypeVar c2)

/-- `sema_check_stmt` (with `check_block` inlined as `checkBlock`: push a
scope, check each statement, pop).  `sema_infer_expr` receives the same
remaining stack budget. -/
def sema_check_stmt : Nat → SemaContext → AstStmt → SemaContext
  | 0, ctx, _ => ctx
  | fuel + 1, ctx, stmt =>
    let checkBlock : SemaContext → List AstStmt → SemaContext := fun c stmts =>
      let c1 := { c with symbols := scope_push c.symbols }
      let c2 := stmts.foldl (fun cc st => sema_check_stmt fuel cc st) c1
      { c2 with symbols := scope_pop c2.symbols }
    match stmt with
    | AstStmt.letS name isMut _ init =>
      let (initType, c1) :=
        match init with
        | some e => sema_infer_expr fuel ctx e
        | none => ctxTypeVar ctx
      let (symOpt, tbl) :=
        symbol_define c1.symbols name SymbolKind.varSym (some initType)
      (match symOpt with
       | none => sema_error { c1 with symbols := tbl }
       | some _ =>
         -- `sym->is_mutable = let->is_mut` through the returned pointer
         { c1 with symbols := (update_symbol_current tbl name
             (fun sy => { sy with isMutable := isMut })) })
    | AstStmt.exprS e => (sema_infer_expr fuel ctx e).2
    | AstStmt.returnS value =>
      let (retType, c1) :=
        match value with
        | some e => sema_infer_expr fuel ctx e
        | none => (TYPE_UNIT_ID, ctx)
      (match c1.currentFnReturn with
       | some r =>
         let (ok, c2) := ctxUnify c1 retType r
         if ok then c2 else sema_error c2
       | none => c1)
    | AstStmt.ifS cond thenB elseB =>
      let (ct, c1) := sema_infer_expr fuel ctx cond
      let (ok, c2) := ctxUnify c1 ct TYPE_BOOL_ID
      let c3 := if ok then c2 else sema_error c2
      let c4 := checkBlock c3 thenB
      (match elseB with
       | some es => sema_check_stmt fuel c4 es
       | none => c4)
    | AstStmt.whileS cond body =>
      let (ct, c1) := sema_infer_expr fuel ctx cond
      let (ok, c2) := ctxUnify c1 ct TYPE_BOOL_ID
      let c3 := if ok then c2 else sema_error c2
      let wasInLoop := c3.inLoop
      let c4 := checkBlock { c3 with inLoop := true } body
      { c4 with inLoop := wasInLoop }
    | AstStmt.forS varName iterable body =>
      let (it, c1) := sema_infer_expr fuel ctx iterable
      let (elemT, c2) := ctxTypeVar c1
      let (arrT, c3) := (let (i, st) := type_array c2.store elemT
                         (i, { c2 with store := st }))
      let (_, c4) := ctxUnify c3 it arrT
      let c5 := { c4 with symbols := scope_push c4.symbols }
      let (_, tbl) :=
        symbol_define c5.symbols varName SymbolKind.varSym (some elemT)
      let c6 := { c5 with symbols := tbl }
      let wasInLoop := c6.inLoop
      let c7 := checkBlock { c6 with inLoop := true } body
      let c8 := { c7 with inLoop := wasInLoop }
      { c8 with symbols := scope_pop c8.symbols }
    | AstStmt.loopS body =>
      let wasInLoop := ctx.inLoop
      let c1 := checkBlock { ctx with inLoop := true } body
      { c1 with inLoop := wasInLoop }
    | AstStmt.spawnS e => (sema_infer_expr fuel ctx e).2
    | AstStmt.receiveS arms =>
      arms.foldl
        (fun c arm =>
          match arm.2 with
          | none => c
          | some stmts =>
            let c1 := { c with symbols := scope_push c.symbols }
            let c2 :=
              if arm.1.length > 0 then
                let (tv, ca) := ctxTypeVar c1
                let (_, tbl) :=
                  symbol_define ca.symbols arm.1 SymbolKind.varSym (some tv)
                { ca with symbols := tbl }
              else c1
            let c3 := stmts.foldl (fun cc st => sema_check_stmt fuel cc st) c2
            { c3 with symbols := scope_pop c3.symbols })
        ctx
    | AstStmt.breakS => if ctx.inLoop then ctx else sema_error ctx
    | AstStmt.continueS => if ctx.inLoop then ctx else sema_error ctx
    | AstStmt.blockS b => checkBlock ctx b

/-- `check_function`: open a scope, bind each parameter to a fresh `Var`,
set the expected return type to a fresh `Var`, check the body statements,
close the scope, build the `Fn` type and attempt to define the (possibly
mangled) function name in the enclosing scope — `symbol_define`'s result is
discarded, so a duplicate definition fails silently. -/
def check_function (fuel : Nat) (ctx : SemaContext) (fn : AstFnDecl)
    (override : Option (List Nat)) : SemaContext :=
  let c1 := { ctx with symbols := scope_push ctx.symbols }
  let (paramTypes, c2) := fn.params.foldl
    (fun (acc : List Nat × SemaContext) p =>
      let (tv, ca) := ctxTypeVar acc.2
      let (symOpt, tbl) :=
        symbol_define ca.symbols p.name SymbolKind.paramSym (some tv)
      let cb := { ca with symbols := tbl }
      let cc :=
        match symOpt with
        | some _ =>
          { cb with symbols := (update_symbol_current cb.symbols p.name
              (fun sy => { sy with isMutable := p.isMut })) }
        | none => cb
      (acc.1 ++ [tv], cc))
    ([], c1)
  let (retT, c3) := ctxTypeVar c2
  let saved := c3.currentFnReturn
  let c4 := { c3 with currentFnReturn := some retT }
  let c5 :=
    match fn.body with
    | some stmts => stmts.foldl (fun c st => sema_check_stmt fuel c st) c4
    | none => c4
  let c6 := { c5 with
    currentFnReturn := saved,
    symbols := scope_pop c5.symbols }
  let (fnT, c7) := (let (i, st) := type_fn c6.store paramTypes retT
                    (i, { c6 with store := st }))
  let defname := override.getD fn.name
  let (_, tbl) := symbol_define c7.symbols defname SymbolKind.fnSym (some fnT)
  { c7 with symbols := tbl }

/-- Overwrite the actor/struct node at `tid` with a populated field list,
keeping its name (the C code mutates the arena-resident `Type` in place). -/
def populateFields (st : TypeStore) (tid : Nat)
    (fields : List (List Nat × Nat)) : TypeStore :=
  match getNode st tid with
  | some (TypeNode.actor nm _) =>
    setCell st tid ⟨TypeNode.actor nm fields,
      (getPerm st tid).getD Permission.permUnknown⟩
  | some (TypeNode.structT nm _) =>
    setCell st tid ⟨TypeNode.structT nm fields,
      (getPerm st tid).getD Permission.permUnknown⟩
  | _ => st

/-- `check_actor`: reuse (or create) the actor type, populate its field
table, then check every method as a global function under the mangled name
`Actor_method` (the actor name buffer is truncated to 127 bytes), and
finally check the `receive` block as a statement. -/
def check_actor (fuel : Nat) (ctx : SemaContext) (actor : AstActorDecl) :
    SemaContext :=
  let (actorType, c1) :=
    match symbol_lookup ctx.symbols actor.name with
    | some sym =>
      if sym.kind = SymbolKind.actorSym then
        match sym.type with
        | some t =>
          if (getNode ctx.store t).map kindTag = some 11 then (t, ctx)
          else
            let (nt, st) := type_actor ctx.store actor.name
            let c' := { ctx with
              store := st,
              symbols := (update_symbol_current ctx.symbols actor.name
                (fun sy => { sy with type := some nt })) }
            (nt, c')
        | none =>
          let (nt, st) := type_actor ctx.store actor.name
          let c' := { ctx with
            store := st,
            symbols := (update_symbol_current ctx.symbols actor.name
              (fun sy => { sy with type := some nt })) }
          (nt, c')
      else
        let (nt, st) := type_actor ctx.store actor.name
        let (_, tbl) := symbol_define { ctx with store := st }.symbols
          actor.name SymbolKind.actorSym (some nt)
        (nt, { ctx with store := st, symbols := tbl })
    | none =>
      let (nt, st) := type_actor ctx.store actor.name
      let (_, tbl) := symbol_define { ctx with store := st }.symbols
        actor.name SymbolKind.actorSym (some nt)
      (nt, { ctx with store := st, symbols := tbl })
  let c2 :=
    if actor.fields.length > 0 then
      let (fieldList, ca) := actor.fields.foldl
        (fun (acc : List (List Nat × Nat) × SemaContext) f =>
          let (tv, c') := ctxTypeVar acc.2
          let (ftype, c'') :=
            if f.2.1 then
              match f.2.2 with
              | some e => sema_infer_expr fuel c' e
              | none => (TYPE_I32_ID, c')
            else
              match f.2.2 with
              | some e => sema_infer_expr fuel c' e
              | none => (tv, c')
          (acc.1 ++ [(f.1, ftype)], c''))
        ([], c1)
      { ca with store := populateFields ca.store actorType fieldList }
    else c1
  let wasInActor := c2.inActor
  let wasCurActor := c2.curActor
  let c3 := { c2 with inActor := true, curActor := some actorType }
  let actorNameBuf := actor.name.take 127
  let c4 := actor.methods.foldl
    (fun c m => check_function fuel c m (some (actorNameBuf ++ [95] ++ m.name)))
    c3
  let c5 :=
    match actor.receiveBlock with
    | some arms => sema_check_stmt fuel c4 (AstStmt.receiveS arms)
    | none => c4
  { c5 with inActor := wasInActor, curActor := wasCurActor }

/-- `check_struct_decl`: reuse (or create) the struct type and give every
field a fresh type variable (no annotation resolver exists). -/
def check_struct_decl (ctx : SemaContext) (decl : AstStructDecl) : SemaContext :=
  let (structType, c1) :=
    match symbol_lookup ctx.symbols decl.name with
    | some sym =>
      (match sym.type with
       | some t =>
         if (getNode ctx.store t).map kindTag = some 16 then (t, ctx)
         else
           let (nt, st) := type_struct ctx.store decl.name
           let c' := { ctx with
             store := st,
             symbols := (update_symbol_current ctx.symbols decl.name
               (fun sy => { sy with type := some nt })) }
           (nt, c')
       | none =>
         let (nt, st) := type_struct ctx.store decl.name
         let c' := { ctx with
           store := st,
           symbols := (update_symbol_current ctx.symbols decl.name
             (fun sy => { sy with type := some nt })) }
         (nt, c'))
    | none =>
      let (nt, st) := type_struct ctx.store decl.name
      let (_, tbl) := symbol_define { ctx with store := st }.symbols
        decl.name SymbolKind.varSym (some nt)
      (nt, { ctx with store := st, symbols := tbl })
  if decl.fields.length > 0 then
    let (fieldList, ca) := decl.fields.foldl
      (fun (acc : List (List Nat × Nat) × SemaContext) f =>
        let (tv, c') := ctxTypeVar acc.2
        (acc.1 ++ [(f.name, tv)], c'))
      ([], c1)
    { ca with store := populateFields ca.store structType fieldList }
  else c1

def sema_check_decl (fuel : Nat) (ctx : SemaContext) : AstDecl → SemaContext
  | AstDecl.fnD d => check_function fuel ctx d none
  | AstDecl.actorD d => check_actor fuel ctx d
  | AstDecl.structD d => check_struct_decl ctx d

def declNameKind : AstDecl → List Nat × SymbolKind
  | AstDecl.fnD d => (d.name, SymbolKind.fnSym)
  | AstDecl.actorD d => (d.name, SymbolKind.actorSym)
  | AstDecl.structD d => (d.name, SymbolKind.varSym)

/-- `sema_analyze`: pass 1 forward-declares every top-level name with a
fresh type-variable placeholder and `is_defined = false`, then the `print`
intrinsic is injected, then pass 2 checks every declaration.  Returns
`!had_error`. -/
def sema_analyze (fuel : Nat) (ctx : SemaContext) (program : List AstDecl) :
    Bool × SemaContext :=
  let c1 := program.foldl
    (fun c d =>
      let (name, kind) := declNameKind d
      let (tv, ca) := ctxTypeVar c
      let (symOpt, tbl) := symbol_define ca.symbols name kind (some tv)
      let cb := { ca with symbols := tbl }
      match symOpt with
      | some _ =>
        { cb with symbols := (update_symbol_current cb.symbols name
            (fun sy => { sy with isDefined := false })) }
      | none => cb)
    ctx
  let (printT, st) := type_fn c1.store [TYPE_I32_ID] TYPE_UNIT_ID
  let (_, tbl) := symbol_define { c1 with store := st }.symbols
    (strBytes "print") SymbolKind.fnSym (some printT)
  let c2 := { c1 with store := st, symbols := tbl }
  let c3 := program.foldl (fun c d => sema_check_decl fuel c d) c2
  (¬ c3.hadError, c3)

/-- C2 (demonstration).  A send expression `target ! msg` is parsed into a
dedicated `AST_SEND_EXPR` node, and `infer_send` performs no validation at
all: inferring a send adds exactly the diagnostics of its two operands and
returns `unit` (first conjunct, definitional for every context and operand);
in particular the concrete send `true ! 1`, whose target resolves to `Bool`
— neither `Process`, nor an unresolved `Var`, nor `Error` — is accepted
with zero diagnostics recorded (second conjunct).  The `BINARY_SEND` check
of `infer_binary` is unreachable from the parser's output. -/
theorem c2_send_target_never_checked :
    (∀ (fuel : Nat) (ctx : SemaContext) (t m : AstExpr),
      sema_infer_expr (fuel + 1) ctx (AstExpr.send t m) =
        (TYPE_UNIT_ID,
         (sema_infer_expr fuel (sema_infer_expr fuel ctx t).2 m).2)) ∧
    ((sema_infer_expr 5 sema_init
        (AstExpr.send (AstExpr.boolLit true) (AstExpr.intLit 1))).2.errorCount
        = 0 ∧
     (sema_infer_expr 5 sema_init
        (AstExpr.send (AstExpr.boolLit true) (AstExpr.intLit 1))).2.hadError
        = false ∧
     (sema_infer_expr 5 sema_init (AstExpr.boolLit true)).1 = TYPE_BOOL_ID ∧
     getNode sema_init.store (type_resolve sema_init.store TYPE_BOOL_ID)
        = some TypeNode.bool) := by
  refine ⟨fun fuel ctx t m => rfl, ?_, ?_, ?_, ?_⟩ <;> decide

/-- C3 (demonstration at the failing input).  Analyzing the program
`fn f() { }`: pass 1 forward-declares `f` with a placeholder type variable;
`check_function` opens a scope, checks the body against a fresh return
variable, closes the scope, builds the `Fn` type — and then its final
`symbol_define` collides with the pass-1 entry (duplicate in the global
scope) and silently fails, so the symbol for `f` still carries the unbound
placeholder variable (cell 16, `Var 0`), not the built `Fn` type. -/
theorem c3_fn_type_not_published :
    (symbol_lookup
        (sema_analyze 20 sema_init
          [AstDecl.fnD { name := strBytes "f", params := [],
                         hasReturnType := false, body := some [] }]).2.symbols
        (strBytes "f")).map Symbol.type = some (some 16) ∧
    getNode
        (sema_analyze 20 sema_init
          [AstDecl.fnD { name := strBytes "f", params := [],
                         hasReturnType := false, body := some [] }]).2.store
        (type_resolve
          (sema_analyze 20 sema_init
            [AstDecl.fnD { name := strBytes "f", params := [],
                           hasReturnType := false, body := some [] }]).2.store
          16)
      = some (TypeNode.var 0 none) := by
  constructor <;> decide

/-! ## IR model

Embedding of `src/arnm-lang/compiler/include/ir.h` and `src/.../src/ir.c`.
Basic blocks are identified by their dense per-function id; the doubly-linked
instruction list is the `instrs` list in order; `prev`/`next` pointers are
implicit.  `ir_build_sub`, `ir_build_mul`, `ir_build_div`, `ir_build_mod`,
`ir_build_and`, `ir_build_or` and `ir_val_const_bool` are declared in `ir.h`
and used by `irgen.c` but their definitions are not in the `ir.c` under
`src/`; `Modelled from the spec:` they are embedded following the
specification's IR table (each is a two-operand instruction producing a
fresh value, exactly like `ir_build_add`; the bool constant holds 0/1). -/

inductive IrType where
  | void | bool | i8 | i32 | i64 | f64 | ptr | process | bad
  deriving Repr, DecidableEq

inductive IrValueKind where
  | valVar | valConst | valGlobal | valUndef
  deriving Repr, DecidableEq

/-- `IrValue`: the C tagged union as one record; only the fields of the
active `kind` are meaningful, the others stay at their zero defaults exactly
as the zero-initialized C storage does. -/
structure IrValue where
  kind : IrValueKind
  ty : IrType := IrType.void
  id : Nat := 0
  bits : Nat := 0
  gname : List Nat := []
  deriving Repr, DecidableEq

def undefVal : IrValue := { kind := IrValueKind.valUndef }

inductive IrOpcode where
  | alloca | load | store | fieldPtr
  | add | sub | mul | div | mod
  | eqOp | neOp | ltOp | leOp | gtOp | geOp
  | andOp | orOp
  | ret | br | jmp | callOp
  | spawnOp | sendOp | receiveOp | selfOp
  | mov
  deriving Repr, DecidableEq

structure IrInstr where
  op : IrOpcode
  ty : IrType := IrType.void
  result : IrValue := undefVal
  op1 : IrValue := undefVal
  op2 : IrValue := undefVal
  args : List IrValue := []
  target1 : Option Nat := none
  target2 : Option Nat := none
  deriving Repr, DecidableEq

structure IrBlock where
  id : Nat
  label : String
  instrs : List IrInstr
  deriving Repr, DecidableEq

structure IrFunState where
  name : List Nat
  retType : IrType
  paramTypes : List IrType
  blocks : List IrBlock
  vregCounter : Nat
  blockCounter : Nat
  deriving Repr, DecidableEq

def wrapInt32 (v : Int) : Int := ((v + 2 ^ 31) % 2 ^ 32) - 2 ^ 31

/-- `(uint64_t)(int32_t)i` — the stored constant bits. -/
def u64OfInt (v : Int) : Nat := (v % (2 ^ 64 : Int)).toNat

def ir_val_var (id : Nat) (ty : IrType) : IrValue :=
  { kind := IrValueKind.valVar, ty := ty, id := id }

def ir_val_const_i32 (i : Int) : IrValue :=
  { kind := IrValueKind.valConst, ty := IrType.i32, bits := u64OfInt (wrapInt32 i) }

def ir_val_const_bool (b : Bool) : IrValue :=
  { kind := IrValueKind.valConst, ty := IrType.bool, bits := if b then 1 else 0 }

/-- A block terminator is a `Ret`, `Br` or `Jmp`. -/
def isTerminator (i : IrInstr) : Bool :=
  i.op = IrOpcode.ret || i.op = IrOpcode.br || i.op = IrOpcode.jmp

/-- The block invariant of the specification: non-empty, the last
instruction is a terminator, and no other instruction is one. -/
def blockWellTerminated (b : IrBlock) : Prop :=
  b.instrs ≠ [] ∧
  (∃ i, b.instrs.getLast? = some i ∧ isTerminator i = true) ∧
  (b.instrs.countP (fun i => isTerminator i) = 1)

instance (b : IrBlock) : Decidable (blockWellTerminated b) := by
  unfold blockWellTerminated
  infer_instance

/-! ## IR generator

Embedding of `src/arnm-lang/compiler/src/irgen.c`.  The generation context
carries the analyzer's symbol table and type store (read-only here), the
functions already appended to the module (`done`), the function under
construction (`curFn`), and the current block id.  The builders are no-ops
when `cur_fn`/`cur_block` is unset — in C that state is guarded by the
`IRGEN_ASSERT` contract macros and unreachable from `ir_generate`.  The
recursions take a call-stack fuel as in the analyzer. -/

structure GenContext where
  symbols : SymbolTable
  store : TypeStore
  done : List IrFunState
  curFn : Option IrFunState
  curBlock : Option Nat
  curActorType : Option Nat
  breakBb : Option Nat
  continueBb : Option Nat
  locals : List (List Nat × IrValue × IrType)

def lookup_local (ctx : GenContext) (name : List Nat) :
    Option (IrValue × IrType) :=
  (ctx.locals.find? (fun l => l.1 = name)).map (fun l => (l.2.1, l.2.2))

/-- `add_local`: the flat environment holds at most 256 entries. -/
def add_local (ctx : GenContext) (name : List Nat) (val : IrValue)
    (ty : IrType) : GenContext :=
  if ctx.locals.length < 256 then
    { ctx with locals := ctx.locals ++ [(name, val, ty)] }
  else ctx

def free_locals (ctx : GenContext) : GenContext := { ctx with locals := [] }

/-- `ir_function_create` on the module + switching `cur_fn`: the previous
current function is already part of the module (list `done`). -/
def ir_function_create (ctx : GenContext) (name : List Nat) (ret : IrType)
    (paramTypes : List IrType) : GenContext :=
  { ctx with
    done := ctx.done ++ ctx.curFn.toList,
    curFn := some
      { name := name, retType := ret, paramTypes := paramTypes,
        blocks := [], vregCounter := paramTypes.length, blockCounter := 0 } }

/-- `ir_block_create` on the current function; returns the new block's id. -/
def ir_block_create (ctx : GenContext) (label : String) : Nat × GenContext :=
  match ctx.curFn with
  | none => (0, ctx)
  | some fn =>
    let bid := fn.blockCounter
    let fn' : IrFunState :=
      { fn with
        blocks := fn.blocks ++ [⟨bid, label, []⟩],
        blockCounter := bid + 1 }
    (bid, { ctx with curFn := some fn' })

def blockAppend (fn : IrFunState) (bid : Nat) (instr : IrInstr) : IrFunState :=
  { fn with blocks := (fn.blocks.map
      (fun b => if b.id = bid then { b with instrs := b.instrs ++ [instr] } else b)) }

/-- `block_append` on the current block. -/
def emit (ctx : GenContext) (instr : IrInstr) : GenContext :=
  match ctx.curFn, ctx.curBlock with
  | some fn, some bid => { ctx with curFn := some (blockAppend fn bid instr) }
  | _, _ => ctx

/-- Allocate the next virtual register of the current function. -/
def freshVreg (ctx : GenContext) : Nat × GenContext :=
  match ctx.curFn with
  | none => (0, ctx)
  | some fn =>
    (fn.vregCounter,
     { ctx with curFn := some { fn with vregCounter := fn.vregCounter + 1 } })

def ir_build_binop (ctx : GenContext) (op : IrOpcode) (lhs rhs : IrValue) :
    IrValue × GenContext :=
  let (v, c1) := freshVreg ctx
  let res := ir_val_var v lhs.ty
  (res, emit c1 { op := op, ty := lhs.ty, result := res, op1 := lhs, op2 := rhs })

def ir_build_cmp (ctx : GenContext) (op : IrOpcode) (lhs rhs : IrValue) :
    IrValue × GenContext :=
  let (v, c1) := freshVreg ctx
  let res := ir_val_var v IrType.bool
  (res, emit c1 { op := op, ty := IrType.bool, result := res, op1 := lhs, op2 := rhs })

def ir_build_alloca (ctx : GenContext) (ty : IrType) : IrValue × GenContext :=
  let (v, c1) := freshVreg ctx
  let res := ir_val_var v IrType.ptr
  (res, emit c1 { op := IrOpcode.alloca, ty := IrType.ptr, result := res,
                  op1 := { undefVal with ty := ty } })

def ir_build_store (ctx : GenContext) (val ptr : IrValue) : GenContext :=
  emit ctx { op := IrOpcode.store, op1 := val, op2 := ptr }

def ir_build_load (ctx : GenContext) (ty : IrType) (ptr : IrValue) :
    IrValue × GenContext :=
  let (v, c1) := freshVreg ctx
  let res := ir_val_var v ty
  (res, emit c1 { op := IrOpcode.load, ty := ty, result := res, op1 := ptr })

def ir_build_field_ptr (ctx : GenContext) (ptr : IrValue) (index : Int) :
    IrValue × GenContext :=
  let (v, c1) := freshVreg ctx
  let res := ir_val_var v IrType.ptr
  (res, emit c1 { op := IrOpcode.fieldPtr, ty := IrType.ptr, result := res,
                  op1 := ptr, op2 := ir_val_const_i32 index })

def ir_build_call (ctx : GenContext) (calleeName : List Nat)
    (args : List IrValue) (retType : IrType) : IrValue × GenContext :=
  let (res, c1) :=
    if retType ≠ IrType.void then
      let (v, c') := freshVreg ctx
      (ir_val_var v retType, c')
    else (undefVal, ctx)
  (res, emit c1
    { op := IrOpcode.callOp, ty := retType, result := res,
      op1 := { kind := IrValueKind.valGlobal, ty := retType, gname := calleeName },
      args := args })

def ir_build_br (ctx : GenContext) (cond : IrValue) (thenBb elseBb : Nat) :
    GenContext :=
  emit ctx { op := IrOpcode.br, op1 := cond,
             target1 := some thenBb, target2 := some elseBb }

def ir_build_jmp (ctx : GenContext) (dest : Nat) : GenContext :=
  emit ctx { op := IrOpcode.jmp, target1 := some dest }

def ir_build_ret (ctx : GenContext) (val : IrValue) : GenContext :=
  emit ctx { op := IrOpcode.ret, op1 := val }

def ir_build_ret_void (ctx : GenContext) : GenContext :=
  emit ctx { op := IrOpcode.ret, op1 := undefVal }

/-- The last instruction of the current block (`ctx->cur_block->tail`). -/
def curBlockTail (ctx : GenContext) : Option IrInstr :=
  match ctx.curFn, ctx.curBlock with
  | some fn, some bid =>
    match fn.blocks.find? (fun b => b.id = bid) with
    | some b => b.instrs.getLast?
    | none => none
  | _, _ => none

/-- The fall-through check the generator performs before synthesizing a
`Jmp`: the current block has no tail or its tail is not a terminator. -/
def needsJmp (ctx : GenContext) : Bool :=
  match curBlockTail ctx with
  | none => true
  | some i => ¬ (isTerminator i)

def unwrapGroups : AstExpr → AstExpr
  | AstExpr.group inner => unwrapGroups inner
  | e => e

/-- The field-index scan shared by the field-read and field-assign paths:
linear scan of the struct/actor field table by name. -/
def fieldIndexOf : Option TypeNode → List Nat → Option (Nat × Nat)
  | some (TypeNode.structT _ fields), name =>
    (fieldScan fields name 0)
  | some (TypeNode.actor _ fields), name =>
    (fieldScan fields name 0)
  | _, _ => none
where
  fieldScan : List (List Nat × Nat) → List Nat → Nat → Option (Nat × Nat)
    | [], _, _ => none
    | f :: rest, name, i =>
      if f.1 = name then some (i, f.2) else fieldScan rest name (i + 1)

/-- Kind tag (0 = struct, 1 = actor) of the resolved object type, used to
decide whether the state pointer must be loaded through the handle. -/
def objKindOf : Option TypeNode → Option Nat
  | some (TypeNode.structT _ _) => some 0
  | some (TypeNode.actor _ _) => some 1
  | _ => none

/-- The target-name/state-size computation at the head of `gen_spawn_call`:
which global the spawned process starts in, and how many bytes of actor
state `arnm_spawn` must allocate. -/
def spawnTargetInfo (ctx : GenContext) (callee : AstExpr) :
    Option (List Nat × Nat) :=
  match callee with
    | AstExpr.ident name _ =>
      (match symbol_lookup ctx.symbols name with
       | some sym =>
         if sym.kind = SymbolKind.actorSym then
           some (name ++ strBytes "_init",
             match sym.type with
             | some t => (actorFieldsOf (getNode ctx.store t)).length * 8
             | none => 0)
         else some (name, 0)
       | none => some (name, 0))
    | AstExpr.field obj fname _ =>
      (match obj with
       | AstExpr.ident objName _ =>
         some (objName ++ [95] ++ fname,
           match symbol_lookup ctx.symbols objName with
           | some sym =>
             if sym.kind = SymbolKind.actorSym then
               match sym.type with
               | some t => (actorFieldsOf (getNode ctx.store t)).length * 8
               | none => 0
             else 0
           | none => 0)
       | _ => none)
    | _ => none

/-- `gen_spawn_call`, parameterized by the expression generator for the
first user argument (`genE` is `gen_expr` at the caller's remaining fuel).
Computes the target symbol name and the state size, then emits the single
`Call arnm_spawn(fn, arg, state_size)`. -/
def genSpawnCallWith (genE : GenContext → AstExpr → IrValue × GenContext)
    (ctx : GenContext) (callee : AstExpr) (args : List AstExpr) :
    IrValue × GenContext :=
  match spawnTargetInfo ctx callee with
  | none => (undefVal, ctx)
  | some (targetName, stateSize) =>
    let arg0 : IrValue :=
      { kind := IrValueKind.valGlobal, ty := IrType.ptr, gname := targetName }
    let (arg1, c1) :=
      match args with
      | a :: _ =>
        let (v, c') := genE ctx a
        ({ v with ty := IrType.ptr }, c')
      | [] => ({ ir_val_const_i32 0 with ty := IrType.ptr }, ctx)
    let arg2 : IrValue :=
      { ir_val_const_i32 (Int.ofNat stateSize) with ty := IrType.i64 }
    ir_build_call c1 (strBytes "arnm_spawn") [arg0, arg1, arg2] IrType.ptr

/-- `gen_expr` with `gen_binary`, `gen_identifier`, `gen_send` and
`gen_call` inlined at their call sites (the C splits them into `static`
helpers with identical control flow).  Expression generation never creates
or switches basic blocks: it only appends to the current block. -/
def gen_expr : Nat → GenContext → AstExpr → IrValue × GenContext
  | 0, ctx, _ => (undefVal, ctx)
  | fuel + 1, ctx, e =>
    match e with
    | AstExpr.binary op l r =>
      if op = BinaryOp.assign then
        -- the AST_BINARY_EXPR/BINARY_ASSIGN path inlined in gen_expr
        -- (gen_binary's own assignment branch is unreachable behind it)
        let (rhsVal, c1) := gen_expr fuel ctx r
        (match l with
         | AstExpr.ident name _ =>
           (match lookup_local c1 name with
            | some (ptr, _) => (rhsVal, ir_build_store c1 rhsVal ptr)
            | none => (rhsVal, c1))
         | AstExpr.field obj fname _ =>
           let (objVal, c2) := gen_expr fuel c1 obj
           let objType : Option Nat :=
             match obj with
             | AstExpr.selfE => c2.curActorType
             | AstExpr.ident _ st => st
             | AstExpr.field _ _ st => st
             | _ => none
           let objType :=
             match objType, obj with
             | none, AstExpr.selfE => c2.curActorType
             | t, _ => t
           (match objType with
            | none => (rhsVal, c2)
            | some ot =>
              let rot := type_resolve c2.store ot
              let node := getNode c2.store rot
              (match fieldIndexOf node fname with
               | none => (rhsVal, c2)
               | some (index, _) =>
                 let (base, c3) :=
                   if objKindOf node = some 1 then
                     ir_build_load c2 IrType.ptr objVal
                   else (objVal, c2)
                 let (fptr, c4) := ir_build_field_ptr c3 base (Int.ofNat index)
                 (rhsVal, ir_build_store c4 rhsVal fptr)))
         | _ => (rhsVal, c1))
      else
        -- gen_binary
        let (lhs, c1) := gen_expr fuel ctx l
        let (rhs, c2) := gen_expr fuel c1 r
        (match op with
         | BinaryOp.add => ir_build_binop c2 IrOpcode.add lhs rhs
         | BinaryOp.sub => ir_build_binop c2 IrOpcode.sub lhs rhs
         | BinaryOp.mul => ir_build_binop c2 IrOpcode.mul lhs rhs
         | BinaryOp.div => ir_build_binop c2 IrOpcode.div lhs rhs
         | BinaryOp.mod => ir_build_binop c2 IrOpcode.mod lhs rhs
         | BinaryOp.eq => ir_build_cmp c2 IrOpcode.eqOp lhs rhs
         | BinaryOp.ne => ir_build_cmp c2 IrOpcode.neOp lhs rhs
         | BinaryOp.lt => ir_build_cmp c2 IrOpcode.ltOp lhs rhs
         | BinaryOp.gt => ir_build_cmp c2 IrOpcode.gtOp lhs rhs
         | BinaryOp.le => ir_build_cmp c2 IrOpcode.leOp lhs rhs
         | BinaryOp.ge => ir_build_cmp c2 IrOpcode.geOp lhs rhs
         | BinaryOp.andOp => ir_build_binop c2 IrOpcode.andOp lhs rhs
         | BinaryOp.orOp => ir_build_binop c2 IrOpcode.orOp lhs rhs
         | _ => (undefVal, c2))
    | AstExpr.intLit v => (ir_val_const_i32 v, ctx)
    | AstExpr.boolLit b => (ir_val_const_bool b, ctx)
    | AstExpr.stringLit sid =>
      ({ kind := IrValueKind.valConst, ty := IrType.ptr, bits := sid }, ctx)
    | AstExpr.ident name _ =>
      -- gen_identifier
      (match lookup_local ctx name with
       | some (ptr, ty) => ir_build_load ctx ty ptr
       | none => (undefVal, ctx))
    | AstExpr.call callee args =>
      -- gen_call: only direct calls through an identifier are supported
      (match callee with
       | AstExpr.ident name _ =>
         let (argVals, c1) := args.foldl
           (fun (acc : List IrValue × GenContext) a =>
             let (v, c') := gen_expr fuel acc.2 a
             (acc.1 ++ [v], c'))
           ([], ctx)
         let retType :=
           if name = strBytes "print" then IrType.void else IrType.i32
         ir_build_call c1 name argVals retType
       | _ => (undefVal, ctx))
    | AstExpr.field obj fname _ =>
      let (objVal, c1) := gen_expr fuel ctx obj
      let objType : Option Nat :=
        match obj with
        | AstExpr.selfE => c1.curActorType
        | AstExpr.ident _ st => st
        | AstExpr.field _ _ st => st
        | _ => none
      (match objType with
       | none => (undefVal, c1)
       | some ot =>
         let rot := type_resolve c1.store ot
         let node := getNode c1.store rot
         (match fieldIndexOf node fname with
          | none => (undefVal, c1)
          | some (index, _) =>
            let (base, c2) :=
              if objKindOf node = some 1 then
                ir_build_load c1 IrType.ptr objVal
              else (objVal, c1)
            let (fptr, c3) := ir_build_field_ptr c2 base (Int.ofNat index)
            ir_build_load c3 IrType.i32 fptr))
    | AstExpr.send target message =>
      -- gen_send: arnm_send(target, tag, NULL, 0)
      let (tv, c1) := gen_expr fuel ctx target
      let (mv, c2) := gen_expr fuel c1 message
      let nullArg := { ir_val_const_i32 0 with ty := IrType.ptr }
      let zeroArg := { ir_val_const_i32 0 with ty := IrType.i64 }
      let (_, c3) := ir_build_call c2 (strBytes "arnm_send")
        [tv, mv, nullArg, zeroArg] IrType.void
      (undefVal, c3)
    | AstExpr.spawnE inner =>
      (match unwrapGroups inner with
       | AstExpr.call callee args =>
         genSpawnCallWith (gen_expr fuel) ctx callee args
       | _ => (undefVal, ctx))
    | AstExpr.selfE =>
      ir_build_call ctx (strBytes "arnm_self") [] IrType.ptr
    | AstExpr.group inner => gen_expr fuel ctx inner
    | _ => (undefVal, ctx)

def gen_spawn_call (fuel : Nat) (ctx : GenContext) (callee : AstExpr)
    (args : List AstExpr) : IrValue × GenContext :=
  genSpawnCallWith (gen_expr fuel) ctx callee args

/-- The decimal value `atoi` reads from the leading digits of the pattern
(the C `int` overflow on absurdly long digit strings is undefined behaviour
and not modelled). -/
def atoiDigits (bs : List Nat) : Nat :=
  ((bs.takeWhile is_digit).foldl (fun acc c => acc * 10 + (c - 48)) 0)

/-- DJB2: seed 5381, `hash = hash * 33 + byte`, in 32-bit arithmetic. -/
def djb2 (bs : List Nat) : Nat :=
  bs.foldl (fun h c => (h * 33 + c % 256) % u32Mod) 5381

/-- The expected tag of a receive arm: the integer value when the pattern
starts with a digit, the DJB2 hash of the pattern bytes otherwise. -/
def expectedTagOf (pattern : List Nat) : Nat :=
  match pattern with
  | c :: _ => if is_digit c then atoiDigits pattern % u32Mod else djb2 pattern
  | [] => djb2 []

/-- `(int32_t)` view of a `uint32_t` value (the tag constant is built with
`ir_val_const_i32((int32_t)expected_tag)`). -/
def int32OfU32 (n : Nat) : Int :=
  if n < 2 ^ 31 then (n : Int) else (n : Int) - 2 ^ 32

/-- One iteration of the receive statement's block-allocation loop:
`arm_blocks[i] = ir_block_create(ctx->cur_fn, "recv.armI")`. -/
def recvArmCreate (acc : List Nat × GenContext)
    (_ : List Nat × Option (List AstStmt)) : List Nat × GenContext :=
  let (bid, c') :=
    ir_block_create acc.2 ("recv.arm" ++ toString acc.1.length)
  (acc.1 ++ [bid], c')

/-- One iteration of the receive statement's comparison-chain loop: compute
the arm's expected tag, compare it with the loaded tag, branch to the arm's
block on success and to the next check block (the no-match block after the
last arm) on failure, and move the current block to that next check. -/
def recvChainStep (tagVal : IrValue) (armsLen : Nat) (nomatchBb : Nat)
    (cc : GenContext)
    (p : Nat × ((List Nat × Option (List AstStmt)) × Nat)) : GenContext :=
  let tag := expectedTagOf p.2.1.1
  let (cmpV, ca) := ir_build_cmp cc IrOpcode.eqOp tagVal
    (ir_val_const_i32 (int32OfU32 tag))
  let (nextCheck, cb) :=
    if p.1 + 1 < armsLen then ir_block_create ca "recv.check"
    else (nomatchBb, ca)
  let cd := ir_build_br cb cmpV p.2.2 nextCheck
  { cd with curBlock := some nextCheck }

/-- One iteration of the receive statement's arm-body loop: move to the
arm's block, bind the pattern variable to the tag value through an alloca
slot, lower the body, and fall through to the merge block when the arm's
block is not already terminated. -/
def recvBodyStep (genStep : GenContext → AstStmt → GenContext)
    (tagVal : IrValue) (mergeBb : Nat) (cc : GenContext)
    (p : (List Nat × Option (List AstStmt)) × Nat) : GenContext :=
  let ca := { cc with curBlock := some p.2 }
  let (slot, cb) := ir_build_alloca ca IrType.i32
  let cd := ir_build_store cb tagVal slot
  let ce :=
    if p.1.1.length > 0 then add_local cd p.1.1 slot IrType.i32
    else cd
  let cf :=
    match p.1.2 with
    | some stmts => stmts.foldl (fun g st => genStep g st) ce
    | none => ce
  if needsJmp cf then ir_build_jmp cf mergeBb else cf

/-- `gen_stmt`, with `gen_block` inlined as a fold over the statement list.
Note the two C quirks modelled faithfully: `AST_BLOCK` statements (an
`else { … }` branch) have no case in the switch and generate nothing, and
the `loop` statement emits its back-jump unconditionally. -/
def gen_stmt : Nat → GenContext → AstStmt → GenContext
  | 0, ctx, _ => ctx
  | fuel + 1, ctx, stmt =>
    let genBlock : GenContext → List AstStmt → GenContext := fun c stmts =>
      stmts.foldl (fun cc st => gen_stmt fuel cc st) c
    match stmt with
    | AstStmt.letS name _ _ init =>
      let (initVal, c1) :=
        match init with
        | some e => gen_expr fuel ctx e
        | none => (ir_val_const_i32 0, ctx)
      let varType := if initVal.ty ≠ IrType.bad then initVal.ty else IrType.i32
      let (slot, c2) := ir_build_alloca c1 varType
      let c3 := ir_build_store c2 initVal slot
      add_local c3 name slot varType
    | AstStmt.returnS value =>
      (match value with
       | some e =>
         let (v, c1) := gen_expr fuel ctx e
         ir_build_ret c1 v
       | none => ir_build_ret_void ctx)
    | AstStmt.exprS e => (gen_expr fuel ctx e).2
    | AstStmt.loopS body =>
      let (bodyBb, c1) := ir_block_create ctx "loop.body"
      let (endBb, c2) := ir_block_create c1 "loop.end"
      let c3 := ir_build_jmp c2 bodyBb
      let prevBreak := c3.breakBb
      let prevContinue := c3.continueBb
      let c4 := { c3 with
        breakBb := some endBb,
        continueBb := some bodyBb,
        curBlock := some bodyBb }
      let c5 := genBlock c4 body
      let c6 := ir_build_jmp c5 bodyBb
      { c6 with
        breakBb := prevBreak,
        continueBb := prevContinue,
        curBlock := some endBb }
    | AstStmt.forS _ _ _ => ctx
    | AstStmt.spawnS e =>
      (match e with
       | AstExpr.call callee args =>
         (genSpawnCallWith (gen_expr fuel) ctx callee args).2
       | AstExpr.group _ =>
         (match unwrapGroups e with
          | AstExpr.call callee args =>
            (genSpawnCallWith (gen_expr fuel) ctx callee args).2
          | _ => ctx)
       | _ => ctx)
    | AstStmt.ifS cond thenB elseB =>
      let (condVal, c1) := gen_expr fuel ctx cond
      let (thenBb, c2) := ir_block_create c1 "then"
      let (elseBb, c3) := ir_block_create c2 "else"
      let (mergeBb, c4) := ir_block_create c3 "merge"
      let c5 :=
        match elseB with
        | some _ => ir_build_br c4 condVal thenBb elseBb
        | none => ir_build_br c4 condVal thenBb mergeBb
      let c6 := genBlock { c5 with curBlock := some thenBb } thenB
      let c7 := if needsJmp c6 then ir_build_jmp c6 mergeBb else c6
      let c8 :=
        match elseB with
        | some es =>
          let ca := gen_stmt fuel { c7 with curBlock := some elseBb } es
          if needsJmp ca then ir_build_jmp ca mergeBb else ca
        | none => c7
      { c8 with curBlock := some mergeBb }
    | AstStmt.whileS cond body =>
      let (condBb, c1) := ir_block_create ctx "while.cond"
      let (bodyBb, c2) := ir_block_create c1 "while.body"
      let (exitBb, c3) := ir_block_create c2 "while.exit"
      let prevBreak := c3.breakBb
      let prevContinue := c3.continueBb
      let c4 := { c3 with breakBb := some exitBb, continueBb := some condBb }
      let c5 := ir_build_jmp c4 condBb
      let c6 := { c5 with curBlock := some condBb }
      let (condVal, c7) := gen_expr fuel c6 cond
      let c8 := ir_build_br c7 condVal bodyBb exitBb
      let c9 := genBlock { c8 with curBlock := some bodyBb } body
      let c10 := if needsJmp c9 then ir_build_jmp c9 condBb else c9
      { c10 with
        breakBb := prevBreak,
        continueBb := prevContinue,
        curBlock := some exitBb }
    | AstStmt.receiveS arms =>
      let nullArg := { ir_val_const_i32 0 with ty := IrType.ptr }
      let (msgVal, c1) :=
        ir_build_call ctx (strBytes "arnm_receive") [nullArg] IrType.ptr
      let (fptr, c2) := ir_build_field_ptr c1 msgVal 0
      let (tagVal, c3) := ir_build_load c2 IrType.i64 fptr
      if arms.length = 0 then c3
      else
        let (mergeBb, c4) := ir_block_create c3 "recv.merge"
        let (nomatchBb, c5) := ir_block_create c4 "recv.nomatch"
        let (armIds, c6) := arms.foldl recvArmCreate ([], c5)
        let c7 := ((List.range' 0 arms.length).zip (arms.zip armIds)).foldl
          (recvChainStep tagVal arms.length nomatchBb) c6
        let c8 := { c7 with curBlock := some nomatchBb }
        let (_, c9) :=
          ir_build_call c8 (strBytes "arnm_panic_nomatch") [] IrType.void
        let c10 := ir_build_jmp c9 mergeBb
        let c11 := (arms.zip armIds).foldl
          (recvBodyStep (fun g st => gen_stmt fuel g st) tagVal mergeBb) c10
        { c11 with curBlock := some mergeBb }
    | AstStmt.breakS =>
      (match ctx.breakBb with
       | some b => ir_build_jmp ctx b
       | none => ctx)
    | AstStmt.continueS =>
      (match ctx.continueBb with
       | some b => ir_build_jmp ctx b
       | none => ctx)
    | AstStmt.blockS _ => ctx

/-- `gen_func`: create the function and its entry block, spill each
parameter into an `Alloca` slot, lower the body, and, for a void return
type only, synthesize the optional chained behavior call and a `RetVoid`
when the current block does not already end in a `Ret`. -/
def gen_func (fuel : Nat) (ctx : GenContext) (fn : AstFnDecl)
    (override : Option (List Nat)) (chainCall : Option (List Nat)) :
    GenContext :=
  let retType := if fn.hasReturnType then IrType.i32 else IrType.void
  let fnName := override.getD fn.name
  let paramTypes := fn.params.map (fun _ => IrType.i32)
  let c1 := ir_function_create ctx fnName retType paramTypes
  let (entryBb, c2) := ir_block_create c1 "entry"
  let c3 := { c2 with curBlock := some entryBb, locals := [] }
  let c4 := (fn.params.enum).foldl
    (fun cc p =>
      let argVal := ir_val_var p.1 IrType.i32
      let (slot, ca) := ir_build_alloca cc IrType.i32
      let cb := ir_build_store ca argVal slot
      add_local cb p.2.name slot IrType.i32)
    c3
  let c5 :=
    match fn.body with
    | some stmts => stmts.foldl (fun cc st => gen_stmt fuel cc st) c4
    | none => c4
  let c6 :=
    if retType = IrType.void then
      if (match curBlockTail c5 with
          | none => true
          | some i => i.op ≠ IrOpcode.ret) then
        let ca :=
          match chainCall with
          | some cn => (ir_build_call c5 cn [] IrType.void).2
          | none => c5
        ir_build_ret_void ca
      else c5
    else c5
  free_locals c6

/-- `gen_actor`: look the actor symbol up for the field table, synthesize
the `Actor_behavior` function (entry jumps into a forever loop holding the
lowered receive block), then lower every method under its mangled name,
chaining `init` into the behavior. -/
def gen_actor (fuel : Nat) (ctx : GenContext) (actor : AstActorDecl) :
    GenContext :=
  let c0 :=
    match symbol_lookup ctx.symbols actor.name with
    | some sym =>
      if sym.kind = SymbolKind.actorSym then { ctx with curActorType := sym.type }
      else { ctx with curActorType := none }
    | none => { ctx with curActorType := none }
  let actorNameBuf := actor.name.take 127
  let behaviorName := actorNameBuf ++ strBytes "_behavior"
  let c1 :=
    match actor.receiveBlock with
    | some arms =>
      let ca := ir_function_create c0 behaviorName IrType.void []
      let (entryBb, cb) := ir_block_create ca "entry"
      let cc := { cb with curBlock := some entryBb, locals := [] }
      let (loopBb, cd) := ir_block_create cc "loop"
      let ce := ir_build_jmp cd loopBb
      let cf := { ce with curBlock := some loopBb }
      let cg := gen_stmt fuel cf (AstStmt.receiveS arms)
      let ch := ir_build_jmp cg loopBb
      free_locals ch
    | none => c0
  actor.methods.foldl
    (fun cc m =>
      let mangled := actorNameBuf ++ [95] ++ m.name
      let chain :=
        if m.name = strBytes "init" ∧ actor.receiveBlock.isSome then
          some behaviorName
        else none
      gen_func fuel cc m (some mangled) chain)
    c1

def initGenContext (symbols : SymbolTable) (store : TypeStore) : GenContext :=
  { symbols := symbols, store := store, done := [], curFn := none,
    curBlock := none, curActorType := none, breakBb := none,
    continueBb := none, locals := [] }

/-- `ir_generate`: lower every function and actor declaration (struct
declarations generate nothing). -/
def ir_generate (fuel : Nat) (sctx : SemaContext) (program : List AstDecl) :
    GenContext :=
  program.foldl
    (fun c d =>
      match d with
      | AstDecl.fnD f => gen_func fuel c f none none
      | AstDecl.actorD a => gen_actor fuel c a
      | AstDecl.structD _ => c)
    (initGenContext sctx.symbols sctx.store)

/-- The function list of the generated module. -/
def irModuleOf (ctx : GenContext) : List IrFunState :=
  ctx.done ++ ctx.curFn.toList

/-! ## Block-graph evolution of the generator

Locality facts about `gen_expr`/`gen_stmt` used by the block-invariant
claims: lowering only appends instructions to the current block, creates
fresh blocks (with ids at and above the running `block_counter`), and moves
`cur_block` between the old current block and freshly created ones.
`Good` is the state contract the C `cur_fn`/`cur_block` pointers satisfy
throughout `gen_func`: a current function and a current block that exists
in it, with every block id below the counter. -/

def blocksFind (ctx : GenContext) (bid : Nat) : Option IrBlock :=
  match ctx.curFn with
  | some fn => fn.blocks.find? (fun b => b.id = bid)
  | none => none

def counterOf (ctx : GenContext) : Nat :=
  match ctx.curFn with
  | some fn => fn.blockCounter
  | none => 0

def goodCtx (ctx : GenContext) : Bool :=
  match ctx.curFn, ctx.curBlock with
  | some fn, some bid =>
    fn.blocks.all (fun b => b.id < fn.blockCounter) &&
    (fn.blocks.find? (fun b => b.id = bid)).isSome
  | _, _ => false

def Good (ctx : GenContext) : Prop := goodCtx ctx = true

instance (ctx : GenContext) : Decidable (Good ctx) :=
  inferInstanceAs (Decidable (goodCtx ctx = true))

/-- Ids the relation `EvolvesW S` allows to be modified; the current block
must always be one of them. -/
def CurIn (S : Nat → Prop) (ctx : GenContext) : Prop :=
  ∀ bid, ctx.curBlock = some bid → S bid

/-- Evolution of the generation context relative to a set `S` of
modifiable block ids: `Good` is preserved, the block counter is monotone,
every existing block only has instructions appended, and blocks outside
`S` are untouched. -/
def EvolvesW (S : Nat → Prop) (c c' : GenContext) : Prop :=
  (Good c → Good c') ∧
  counterOf c ≤ counterOf c' ∧
  (∀ bid blk, blocksFind c bid = some blk →
    ∃ ext, blocksFind c' bid = some { blk with instrs := blk.instrs ++ ext }) ∧
  (∀ bid blk, blocksFind c bid = some blk → ¬ S bid →
    blocksFind c' bid = some blk) ∧
  c'.curFn.isSome = c.curFn.isSome

lemma evolvesW_refl (S : Nat → Prop) (c : GenContext) : EvolvesW S c c := by
  refine ⟨fun h => h, le_refl _, ?_, ?_, rfl⟩
  · intro bid blk h
    refine ⟨[], ?_⟩
    rw [List.append_nil]
    exact h
  · intro bid blk h _
    exact h

lemma evolvesW_trans {S : Nat → Prop} {a b c : GenContext}
    (h1 : EvolvesW S a b) (h2 : EvolvesW S b c) : EvolvesW S a c := by
  obtain ⟨g1, n1, e1, x1, f1⟩ := h1
  obtain ⟨g2, n2, e2, x2, f2⟩ := h2
  refine ⟨fun h => g2 (g1 h), le_trans n1 n2, ?_, ?_, f2.trans f1⟩
  · intro bid blk h
    obtain ⟨ext1, h1'⟩ := e1 bid blk h
    obtain ⟨ext2, h2'⟩ := e2 bid _ h1'
    refine ⟨ext1 ++ ext2, ?_⟩
    rw [← List.append_assoc]
    exact h2'
  · intro bid blk h hs
    exact x2 bid blk (x1 bid blk h hs) hs

lemma evolvesW_mono {S T : Nat → Prop} {a b : GenContext}
    (hST : ∀ n, S n → T n) (h : EvolvesW S a b) : EvolvesW T a b := by
  obtain ⟨g, n, e, x, f⟩ := h
  exact ⟨g, n, e, fun bid blk hf hs => x bid blk hf (fun h' => hs (hST bid h')), f⟩

lemma evolvesW_find_isSome {S : Nat → Prop} {a b : GenContext}
    (h : EvolvesW S a b) (bid : Nat)
    (hf : (blocksFind a bid).isSome = true) : (blocksFind b bid).isSome = true := by
  cases hx : blocksFind a bid with
  | none => rw [hx] at hf; cases hf
  | some blk =>
    obtain ⟨ext, h'⟩ := h.2.2.1 bid blk hx
    rw [h']
    rfl

lemma good_iff {ctx : GenContext} {fn : IrFunState} {bid : Nat}
    (hf : ctx.curFn = some fn) (hb : ctx.curBlock = some bid) :
    Good ctx ↔ ((∀ b ∈ fn.blocks, b.id < fn.blockCounter) ∧
      (fn.blocks.find? (fun b => b.id = bid)).isSome = true) := by
  unfold Good goodCtx
  rw [hf, hb]
  simp [List.all_eq_true]

lemma good_elim {ctx : GenContext} (h : Good ctx) :
    ∃ fn bid, ctx.curFn = some fn ∧ ctx.curBlock = some bid ∧
      (∀ b ∈ fn.blocks, b.id < fn.blockCounter) ∧
      (fn.blocks.find? (fun b => b.id = bid)).isSome = true := by
  unfold Good goodCtx at h
  cases hf : ctx.curFn with
  | none => rw [hf] at h; cases h
  | some fn =>
    cases hb : ctx.curBlock with
    | none => rw [hf, hb] at h; cases h
    | some bid =>
      rw [hf, hb] at h
      refine ⟨fn, bid, rfl, rfl, ?_⟩
      simpa [List.all_eq_true] using h

lemma good_find {ctx : GenContext} (h : Good ctx) {bid : Nat}
    (hb : ctx.curBlock = some bid) : (blocksFind ctx bid).isSome = true := by
  obtain ⟨fn, bid', hf, hb', _, hfind⟩ := good_elim h
  rw [hb] at hb'
  cases hb'
  unfold blocksFind
  rw [hf]
  exact hfind

lemma good_curFn_isSome {ctx : GenContext} (h : Good ctx) :
    ctx.curFn.isSome = true := by
  obtain ⟨fn, bid, hf, _, _, _⟩ := good_elim h
  rw [hf]
  rfl

lemma find?_append_some {α : Type} (p : α → Bool) :
    ∀ (l1 l2 : List α) (x : α), l1.find? p = some x →
      (l1 ++ l2).find? p = some x := by
  intro l1
  induction l1 with
  | nil => intro l2 x h; cases h
  | cons a rest ih =>
    intro l2 x h
    rw [List.cons_append]
    cases hp : p a with
    | true =>
      rw [List.find?_cons_of_pos _ hp] at h ⊢
      exact h
    | false =>
      rw [List.find?_cons_of_neg _ (by simp [hp])] at h ⊢
      exact ih l2 x h

lemma find?_append_none {α : Type} (p : α → Bool) :
    ∀ (l1 l2 : List α), l1.find? p = none →
      (l1 ++ l2).find? p = l2.find? p := by
  intro l1
  induction l1 with
  | nil => intro l2 _; rfl
  | cons a rest ih =>
    intro l2 h
    rw [List.cons_append]
    cases hp : p a with
    | true =>
      rw [List.find?_cons_of_pos _ hp] at h
      cases h
    | false =>
      rw [List.find?_cons_of_neg _ (by simp [hp])] at h ⊢
      exact ih l2 h

lemma find?_map_pres {α : Type} (p : α → Bool) (g : α → α)
    (hg : ∀ a, p (g a) = p a) :
    ∀ l : List α, (l.map g).find? p = (l.find? p).map g := by
  intro l
  induction l with
  | nil => rfl
  | cons a rest ih =>
    rw [List.map_cons]
    cases hp : p a with
    | true =>
      have hpg : p (g a) = true := by rw [hg a]; exact hp
      rw [List.find?_cons_of_pos _ hpg, List.find?_cons_of_pos _ hp]
      rfl
    | false =>
      have hpg : p (g a) = false := by rw [hg a]; exact hp
      rw [List.find?_cons_of_neg _ (by simp [hpg]), List.find?_cons_of_neg _ (by simp [hp])]
      exact ih

lemma blockAppend_find (fn : IrFunState) (bid0 : Nat) (instr : IrInstr)
    (bid : Nat) :
    (blockAppend fn bid0 instr).blocks.find? (fun b => b.id = bid)
      = (fn.blocks.find? (fun b => b.id = bid)).map
          (fun b => if b.id = bid0
            then { b with instrs := b.instrs ++ [instr] } else b) := by
  unfold blockAppend
  refine find?_map_pres _ _ ?_ fn.blocks
  intro a
  by_cases h : a.id = bid0 <;> simp [h]

lemma emit_find_of_ne (ctx : GenContext) (instr : IrInstr) (bid : Nat)
    (h : ctx.curBlock ≠ some bid) :
    blocksFind (emit ctx instr) bid = blocksFind ctx bid := by
  cases hf : ctx.curFn with
  | none => simp only [blocksFind, emit, hf]
  | some fn =>
    cases hb : ctx.curBlock with
    | none => simp only [blocksFind, emit, hf, hb]
    | some bid0 =>
      simp only [blocksFind, emit, hf, hb]
      rw [blockAppend_find]
      cases hfind : fn.blocks.find? (fun b => b.id = bid) with
      | none => rfl
      | some blk =>
        have hid : blk.id = bid := by
          have := List.find?_some hfind
          exact of_decide_eq_true this
        have hne : ¬ (blk.id = bid0) := by
          intro hx
          exact h (by rw [hb, ← hid, hx])
        simp [hne]

lemma emit_find_cur (ctx : GenContext) (instr : IrInstr) (bid : Nat)
    (blk : IrBlock) (hb : ctx.curBlock = some bid)
    (h : blocksFind ctx bid = some blk) :
    blocksFind (emit ctx instr) bid
      = some { blk with instrs := blk.instrs ++ [instr] } := by
  cases hf : ctx.curFn with
  | none =>
    simp only [blocksFind, hf] at h
    cases h
  | some fn =>
    simp only [blocksFind, hf] at h
    simp only [blocksFind, emit, hf, hb]
    rw [blockAppend_find, h]
    have hid : blk.id = bid := by
      have := List.find?_some h
      exact of_decide_eq_true this
    simp [hid]

lemma emit_curBlock (ctx : GenContext) (instr : IrInstr) :
    (emit ctx instr).curBlock = ctx.curBlock := by
  cases hf : ctx.curFn with
  | none => simp only [emit, hf]
  | some fn =>
    cases hb : ctx.curBlock with
    | none => simp only [emit, hf, hb]
    | some bid0 => simp only [emit, hf, hb]

lemma emit_counterOf (ctx : GenContext) (instr : IrInstr) :
    counterOf (emit ctx instr) = counterOf ctx := by
  cases hf : ctx.curFn with
  | none => simp only [counterOf, emit, hf]
  | some fn =>
    cases hb : ctx.curBlock with
    | none => simp only [counterOf, emit, hf, hb]
    | some bid0 => simp only [counterOf, emit, hf, hb, blockAppend]

lemma emit_curFn_isSome (ctx : GenContext) (instr : IrInstr) :
    (emit ctx instr).curFn.isSome = ctx.curFn.isSome := by
  cases hf : ctx.curFn with
  | none => simp only [emit, hf]
  | some fn =>
    cases hb : ctx.curBlock with
    | none => simp only [emit, hf, hb]
    | some bid0 => simp only [emit, hf, hb, Option.isSome]

lemma emit_good (ctx : GenContext) (instr : IrInstr) (h : Good ctx) :
    Good (emit ctx instr) := by
  obtain ⟨fn, bid, hf, hb, hwf, hfind⟩ := good_elim h
  have hcf : (emit ctx instr).curFn = some (blockAppend fn bid instr) := by
    simp only [emit, hf, hb]
  have hcb : (emit ctx instr).curBlock = some bid := by
    simp only [emit, hf, hb]
  rw [good_iff hcf hcb]
  constructor
  · intro b hbmem
    unfold blockAppend at hbmem
    simp only [List.mem_map] at hbmem
    obtain ⟨b0, hb0, hbeq⟩ := hbmem
    have hlt := hwf b0 hb0
    by_cases hx : b0.id = bid
    · rw [if_pos hx] at hbeq
      rw [← hbeq]
      exact hlt
    · rw [if_neg hx] at hbeq
      rw [← hbeq]
      exact hlt
  · show ((blockAppend fn bid instr).blocks.find? (fun b => b.id = bid)).isSome = true
    rw [blockAppend_find]
    cases hx : fn.blocks.find? (fun b => b.id = bid) with
    | none => rw [hx] at hfind; cases hfind
    | some blk => rfl

lemma emit_w (S : Nat → Prop) (ctx : GenContext) (instr : IrInstr)
    (hS : CurIn S ctx) : EvolvesW S ctx (emit ctx instr) := by
  refine ⟨emit_good ctx instr, le_of_eq (emit_counterOf ctx instr).symm, ?_, ?_,
    emit_curFn_isSome ctx instr⟩
  · intro bid blk h
    by_cases hb : ctx.curBlock = some bid
    · exact ⟨[instr], emit_find_cur ctx instr bid blk hb h⟩
    · refine ⟨[], ?_⟩
      rw [List.append_nil, emit_find_of_ne ctx instr bid hb]
      exact h
  · intro bid blk h hs
    have hb : ctx.curBlock ≠ some bid := fun he => hs (hS bid he)
    rw [emit_find_of_ne ctx instr bid hb]
    exact h

lemma freshVreg_fields (ctx : GenContext) :
    blocksFind (freshVreg ctx).2 = blocksFind ctx ∧
    counterOf (freshVreg ctx).2 = counterOf ctx ∧
    (freshVreg ctx).2.curBlock = ctx.curBlock ∧
    (freshVreg ctx).2.curFn.isSome = ctx.curFn.isSome ∧
    (Good ctx → Good (freshVreg ctx).2) := by
  refine ⟨?_, ?_, ?_, ?_, ?_⟩
  · funext bid
    cases hf : ctx.curFn with
    | none => simp only [blocksFind, freshVreg, hf]
    | some fn => simp only [blocksFind, freshVreg, hf]
  · cases hf : ctx.curFn with
    | none => simp only [counterOf, freshVreg, hf]
    | some fn => simp only [counterOf, freshVreg, hf]
  · cases hf : ctx.curFn with
    | none => simp only [freshVreg, hf]
    | some fn => simp only [freshVreg, hf]
  · cases hf : ctx.curFn with
    | none => simp only [freshVreg, hf]
    | some fn => simp only [freshVreg, hf, Option.isSome]
  · intro h
    obtain ⟨fn0, bid, hf0, hb, hwf, hfind⟩ := good_elim h
    have hcf : (freshVreg ctx).2.curFn
        = some { fn0 with vregCounter := fn0.vregCounter + 1 } := by
      simp only [freshVreg, hf0]
    have hcb : (freshVreg ctx).2.curBlock = some bid := by
      simp only [freshVreg, hf0]
      exact hb
    rw [good_iff hcf hcb]
    exact ⟨hwf, hfind⟩

lemma freshVreg_w (S : Nat → Prop) (ctx : GenContext) :
    EvolvesW S ctx (freshVreg ctx).2 := by
  obtain ⟨hbf, hcnt, _, hfn, hg⟩ := freshVreg_fields ctx
  refine ⟨hg, le_of_eq hcnt.symm, ?_, ?_, hfn⟩
  · intro bid blk h
    refine ⟨[], ?_⟩
    rw [List.append_nil, hbf]
    exact h
  · intro bid blk h _
    rw [hbf]
    exact h

lemma block_create_fields (ctx : GenContext) (label : String) (fn : IrFunState)
    (hf : ctx.curFn = some fn) :
    (ir_block_create ctx label).1 = fn.blockCounter ∧
    counterOf (ir_block_create ctx label).2 = fn.blockCounter + 1 ∧
    (ir_block_create ctx label).2.curBlock = ctx.curBlock ∧
    (ir_block_create ctx label).2.curFn.isSome = true := by
  refine ⟨?_, ?_, ?_, ?_⟩
  · simp only [ir_block_create, hf]
  · simp only [counterOf, ir_block_create, hf]
  · simp only [ir_block_create, hf]
  · simp only [ir_block_create, hf, Option.isSome]

lemma block_create_find_old (ctx : GenContext) (label : String) (bid : Nat)
    (blk : IrBlock) (h : blocksFind ctx bid = some blk) :
    blocksFind (ir_block_create ctx label).2 bid = some blk := by
  cases hf : ctx.curFn with
  | none =>
    simp only [blocksFind, hf] at h
    cases h
  | some fn =>
    simp only [blocksFind, hf] at h
    simp only [blocksFind, ir_block_create, hf]
    exact find?_append_some _ _ _ _ h

lemma block_create_find_new (ctx : GenContext) (label : String)
    (fn : IrFunState) (hf : ctx.curFn = some fn)
    (hwf : ∀ b ∈ fn.blocks, b.id < fn.blockCounter) :
    blocksFind (ir_block_create ctx label).2 fn.blockCounter
      = some ⟨fn.blockCounter, label, []⟩ := by
  simp only [blocksFind, ir_block_create, hf]
  have hnone : fn.blocks.find? (fun b => b.id = fn.blockCounter) = none := by
    rw [List.find?_eq_none]
    intro b hb
    have := hwf b hb
    simp
    omega
  rw [find?_append_none _ _ _ hnone]
  simp [List.find?_cons]

lemma block_create_found (ctx : GenContext) (label : String) (fn : IrFunState)
    (hf : ctx.curFn = some fn) :
    (blocksFind (ir_block_create ctx label).2 fn.blockCounter).isSome
      = true := by
  simp only [blocksFind, ir_block_create, hf]
  cases hx : fn.blocks.find? (fun b => b.id = fn.blockCounter) with
  | none =>
    rw [find?_append_none _ _ _ hx]
    simp [List.find?_cons]
  | some blk =>
    rw [find?_append_some _ _ _ _ hx]
    rfl

lemma block_create_good (ctx : GenContext) (label : String) (h : Good ctx) :
    Good (ir_block_create ctx label).2 := by
  obtain ⟨fn, bid, hf, hb, hwf, hfind⟩ := good_elim h
  have hcf : (ir_block_create ctx label).2.curFn
      = some { fn with
          blocks := fn.blocks ++ [⟨fn.blockCounter, label, []⟩],
          blockCounter := fn.blockCounter + 1 } := by
    simp only [ir_block_create, hf]
  have hcb : (ir_block_create ctx label).2.curBlock = some bid := by
    simp only [ir_block_create, hf]
    exact hb
  rw [good_iff hcf hcb]
  constructor
  · intro b hbmem
    simp only [List.mem_append, List.mem_singleton] at hbmem
    rcases hbmem with hbm | hbm
    · exact Nat.lt_succ_of_lt (hwf b hbm)
    · rw [hbm]
      exact Nat.lt_succ_self _
  · show ((fn.blocks ++ [(⟨fn.blockCounter, label, []⟩ : IrBlock)]).find?
        (fun b => b.id = bid)).isSome = true
    cases hx : fn.blocks.find? (fun b => b.id = bid) with
    | none => rw [hx] at hfind; cases hfind
    | some blk =>
      rw [find?_append_some _ _ _ _ hx]
      rfl

lemma block_create_w (S : Nat → Prop) (ctx : GenContext) (label : String) :
    EvolvesW S ctx (ir_block_create ctx label).2 := by
  cases hf : ctx.curFn with
  | none =>
    have : (ir_block_create ctx label).2 = ctx := by
      simp only [ir_block_create, hf]
    rw [this]
    exact evolvesW_refl S ctx
  | some fn =>
    refine ⟨block_create_good ctx label, ?_, ?_, ?_, ?_⟩
    · rw [(block_create_fields ctx label fn hf).2.1]
      simp only [counterOf, hf]
      exact Nat.le_succ _
    · intro bid blk h
      refine ⟨[], ?_⟩
      rw [List.append_nil]
      exact block_create_find_old ctx label bid blk h
    · intro bid blk h _
      exact block_create_find_old ctx label bid blk h
    · rw [(block_create_fields ctx label fn hf).2.2.2]
      rw [hf]
      rfl

/-- Evolution step for a context transformation that keeps the current
function and only moves `cur_block` to a block that exists. -/
lemma retarget_w (S : Nat → Prop) (c c' : GenContext) (nb : Nat)
    (hfn : c'.curFn = c.curFn) (hcb : c'.curBlock = some nb)
    (hfound : (blocksFind c nb).isSome = true) :
    EvolvesW S c c' := by
  have hbf : ∀ bid, blocksFind c' bid = blocksFind c bid := by
    intro bid
    unfold blocksFind
    rw [hfn]
  refine ⟨?_, ?_, ?_, ?_, ?_⟩
  · intro h
    obtain ⟨fn, bid, hf, hb, hwf, hfind⟩ := good_elim h
    have hcf : c'.curFn = some fn := by rw [hfn]; exact hf
    rw [good_iff hcf hcb]
    refine ⟨hwf, ?_⟩
    have := hfound
    unfold blocksFind at this
    rw [hf] at this
    exact this
  · unfold counterOf
    rw [hfn]
  · intro bid blk h
    refine ⟨[], ?_⟩
    rw [List.append_nil, hbf]
    exact h
  · intro bid blk h _
    rw [hbf]
    exact h
  · rw [hfn]

/-- Evolution step for a context transformation that keeps the current
function and current block (e.g. restoring `break`/`continue` targets or
changing the locals). -/
lemma sameBlocks_w (S : Nat → Prop) (c c' : GenContext)
    (hfn : c'.curFn = c.curFn) (hcb : c'.curBlock = c.curBlock) :
    EvolvesW S c c' := by
  have hbf : ∀ bid, blocksFind c' bid = blocksFind c bid := by
    intro bid
    unfold blocksFind
    rw [hfn]
  refine ⟨?_, ?_, ?_, ?_, ?_⟩
  · intro h
    obtain ⟨fn, bid, hf, hb, hwf, hfind⟩ := good_elim h
    have hcf : c'.curFn = some fn := by rw [hfn]; exact hf
    have hcb' : c'.curBlock = some bid := by rw [hcb]; exact hb
    rw [good_iff hcf hcb']
    exact ⟨hwf, hfind⟩
  · unfold counterOf
    rw [hfn]
  · intro bid blk h
    refine ⟨[], ?_⟩
    rw [List.append_nil, hbf]
    exact h
  · intro bid blk h _
    rw [hbf]
    exact h
  · rw [hfn]

/-- A generation step that can only append to the current block: the
current block and the block counter are preserved, and the step evolves
the block graph relative to any id set containing the current block. -/
def EmitsInPlace (c c' : GenContext) : Prop :=
  c'.curBlock = c.curBlock ∧ counterOf c' = counterOf c ∧
  ∀ S : Nat → Prop, CurIn S c → EvolvesW S c c'

lemma emitsInPlace_refl (c : GenContext) : EmitsInPlace c c :=
  ⟨rfl, rfl, fun S _ => evolvesW_refl S c⟩

lemma emitsInPlace_trans {a b c : GenContext}
    (h1 : EmitsInPlace a b) (h2 : EmitsInPlace b c) : EmitsInPlace a c := by
  refine ⟨h2.1.trans h1.1, h2.2.1.trans h1.2.1, ?_⟩
  intro S hS
  refine evolvesW_trans (h1.2.2 S hS) (h2.2.2 S ?_)
  intro bid hb
  rw [h1.1] at hb
  exact hS bid hb

lemma emitsInPlace_of_eq {c c1 c2 : GenContext} (h : EmitsInPlace c c1)
    (he : c2 = c1) : EmitsInPlace c c2 := by
  rw [he]
  exact h

lemma emit_inPlace (c : GenContext) (instr : IrInstr) :
    EmitsInPlace c (emit c instr) :=
  ⟨emit_curBlock c instr, emit_counterOf c instr, fun S hS => emit_w S c instr hS⟩

lemma freshVreg_inPlace (c : GenContext) : EmitsInPlace c (freshVreg c).2 :=
  ⟨(freshVreg_fields c).2.2.1, (freshVreg_fields c).2.1,
   fun S _ => freshVreg_w S c⟩

lemma ir_build_binop_inPlace (ctx : GenContext) (op : IrOpcode)
    (lhs rhs : IrValue) : EmitsInPlace ctx (ir_build_binop ctx op lhs rhs).2 := by
  cases hfv : freshVreg ctx with
  | mk v c1 =>
    have h1 : EmitsInPlace ctx c1 := by
      have := freshVreg_inPlace ctx
      rw [hfv] at this
      exact this
    simp only [ir_build_binop, hfv]
    exact emitsInPlace_trans h1 (emit_inPlace c1 _)

lemma ir_build_cmp_inPlace (ctx : GenContext) (op : IrOpcode)
    (lhs rhs : IrValue) : EmitsInPlace ctx (ir_build_cmp ctx op lhs rhs).2 := by
  cases hfv : freshVreg ctx with
  | mk v c1 =>
    have h1 : EmitsInPlace ctx c1 := by
      have := freshVreg_inPlace ctx
      rw [hfv] at this
      exact this
    simp only [ir_build_cmp, hfv]
    exact emitsInPlace_trans h1 (emit_inPlace c1 _)

lemma ir_build_alloca_inPlace (ctx : GenContext) (ty : IrType) :
    EmitsInPlace ctx (ir_build_alloca ctx ty).2 := by
  cases hfv : freshVreg ctx with
  | mk v c1 =>
    have h1 : EmitsInPlace ctx c1 := by
      have := freshVreg_inPlace ctx
      rw [hfv] at this
      exact this
    simp only [ir_build_alloca, hfv]
    exact emitsInPlace_trans h1 (emit_inPlace c1 _)

lemma ir_build_store_inPlace (ctx : GenContext) (val ptr : IrValue) :
    EmitsInPlace ctx (ir_build_store ctx val ptr) :=
  emit_inPlace ctx _

lemma ir_build_load_inPlace (ctx : GenContext) (ty : IrType) (ptr : IrValue) :
    EmitsInPlace ctx (ir_build_load ctx ty ptr).2 := by
  cases hfv : freshVreg ctx with
  | mk v c1 =>
    have h1 : EmitsInPlace ctx c1 := by
      have := freshVreg_inPlace ctx
      rw [hfv] at this
      exact this
    simp only [ir_build_load, hfv]
    exact emitsInPlace_trans h1 (emit_inPlace c1 _)

lemma ir_build_field_ptr_inPlace (ctx : GenContext) (ptr : IrValue)
    (index : Int) : EmitsInPlace ctx (ir_build_field_ptr ctx ptr index).2 := by
  cases hfv : freshVreg ctx with
  | mk v c1 =>
    have h1 : EmitsInPlace ctx c1 := by
      have := freshVreg_inPlace ctx
      rw [hfv] at this
      exact this
    simp only [ir_build_field_ptr, hfv]
    exact emitsInPlace_trans h1 (emit_inPlace c1 _)

lemma ir_build_call_inPlace (ctx : GenContext) (calleeName : List Nat)
    (args : List IrValue) (retType : IrType) :
    EmitsInPlace ctx (ir_build_call ctx calleeName args retType).2 := by
  by_cases hr : retType = IrType.void
  · simp only [ir_build_call, hr]
    simp only [ne_eq, not_true_eq_false, if_false]
    exact emit_inPlace ctx _
  · cases hfv : freshVreg ctx with
    | mk v c1 =>
      have h1 : EmitsInPlace ctx c1 := by
        have := freshVreg_inPlace ctx
        rw [hfv] at this
        exact this
      simp only [ir_build_call, ne_eq, hr, not_false_eq_true, if_true, hfv]
      exact emitsInPlace_trans h1 (emit_inPlace c1 _)

lemma ir_build_br_inPlace (ctx : GenContext) (cond : IrValue)
    (thenBb elseBb : Nat) :
    EmitsInPlace ctx (ir_build_br ctx cond thenBb elseBb) :=
  emit_inPlace ctx _

lemma ir_build_jmp_inPlace (ctx : GenContext) (dest : Nat) :
    EmitsInPlace ctx (ir_build_jmp ctx dest) :=
  emit_inPlace ctx _

lemma ir_build_ret_inPlace (ctx : GenContext) (val : IrValue) :
    EmitsInPlace ctx (ir_build_ret ctx val) :=
  emit_inPlace ctx _

lemma ir_build_ret_void_inPlace (ctx : GenContext) :
    EmitsInPlace ctx (ir_build_ret_void ctx) :=
  emit_inPlace ctx _

lemma add_local_inPlace (ctx : GenContext) (name : List Nat) (val : IrValue)
    (ty : IrType) : EmitsInPlace ctx (add_local ctx name val ty) := by
  unfold add_local
  split
  · exact ⟨rfl, rfl, fun S _ => sameBlocks_w S ctx _ rfl rfl⟩
  · exact emitsInPlace_refl ctx

lemma foldl_inPlace_acc {α β : Type} (f : β × GenContext → α → β × GenContext)
    (hf : ∀ s a, EmitsInPlace s.2 (f s a).2) :
    ∀ (l : List α) (s : β × GenContext), EmitsInPlace s.2 (l.foldl f s).2 := by
  intro l
  induction l with
  | nil => intro s; exact emitsInPlace_refl s.2
  | cons a rest ih =>
    intro s
    exact emitsInPlace_trans (hf s a) (ih (f s a))

lemma assign_field_tail_inPlace (c2 : GenContext) (rhsVal objVal : IrValue)
    (node : Option TypeNode) (index : Nat) :
    EmitsInPlace c2
      ((let (base, c3) :=
          if objKindOf node = some 1 then ir_build_load c2 IrType.ptr objVal
          else (objVal, c2)
        let (fptr, c4) := ir_build_field_ptr c3 base (Int.ofNat index)
        (rhsVal, ir_build_store c4 rhsVal fptr)) : IrValue × GenContext).2 := by
  by_cases hk : objKindOf node = some 1
  · rw [if_pos hk]
    cases hl : ir_build_load c2 IrType.ptr objVal with
    | mk base c3 =>
      simp only [hl]
      have h3 : EmitsInPlace c2 c3 := by
        have := ir_build_load_inPlace c2 IrType.ptr objVal
        rw [hl] at this
        exact this
      cases hf : ir_build_field_ptr c3 base (Int.ofNat index) with
      | mk fptr c4 =>
        simp only [hf]
        have h4 : EmitsInPlace c3 c4 := by
          have := ir_build_field_ptr_inPlace c3 base (Int.ofNat index)
          rw [hf] at this
          exact this
        exact emitsInPlace_trans h3 (emitsInPlace_trans h4
          (ir_build_store_inPlace c4 rhsVal fptr))
  · rw [if_neg hk]
    cases hf : ir_build_field_ptr c2 objVal (Int.ofNat index) with
    | mk fptr c4 =>
      simp only [hf]
      have h4 : EmitsInPlace c2 c4 := by
        have := ir_build_field_ptr_inPlace c2 objVal (Int.ofNat index)
        rw [hf] at this
        exact this
      exact emitsInPlace_trans h4 (ir_build_store_inPlace c4 rhsVal fptr)

lemma read_field_tail_inPlace (c1 : GenContext) (objVal : IrValue)
    (node : Option TypeNode) (index : Nat) :
    EmitsInPlace c1
      ((let (base, c2) :=
          if objKindOf node = some 1 then ir_build_load c1 IrType.ptr objVal
          else (objVal, c1)
        let (fptr, c3) := ir_build_field_ptr c2 base (Int.ofNat index)
        ir_build_load c3 IrType.i32 fptr) : IrValue × GenContext).2 := by
  by_cases hk : objKindOf node = some 1
  · rw [if_pos hk]
    cases hl : ir_build_load c1 IrType.ptr objVal with
    | mk base c2 =>
      simp only [hl]
      have h2 : EmitsInPlace c1 c2 := by
        have := ir_build_load_inPlace c1 IrType.ptr objVal
        rw [hl] at this
        exact this
      cases hf : ir_build_field_ptr c2 base (Int.ofNat index) with
      | mk fptr c3 =>
        simp only [hf]
        have h3 : EmitsInPlace c2 c3 := by
          have := ir_build_field_ptr_inPlace c2 base (Int.ofNat index)
          rw [hf] at this
          exact this
        exact emitsInPlace_trans h2 (emitsInPlace_trans h3
          (by have := ir_build_load_inPlace c3 IrType.i32 fptr; exact this))
  · rw [if_neg hk]
    cases hf : ir_build_field_ptr c1 objVal (Int.ofNat index) with
    | mk fptr c3 =>
      simp only [hf]
      have h3 : EmitsInPlace c1 c3 := by
        have := ir_build_field_ptr_inPlace c1 objVal (Int.ofNat index)
        rw [hf] at this
        exact this
      exact emitsInPlace_trans h3
        (by have := ir_build_load_inPlace c3 IrType.i32 fptr; exact this)

lemma genSpawnCallWith_inPlace
    (genE : GenContext → AstExpr → IrValue × GenContext)
    (hgenE : ∀ c a, EmitsInPlace c (genE c a).2)
    (ctx : GenContext) (callee : AstExpr) (args : List AstExpr) :
    EmitsInPlace ctx (genSpawnCallWith genE ctx callee args).2 := by
  cases hT : spawnTargetInfo ctx callee with
  | none =>
    simp only [genSpawnCallWith, hT]
    exact emitsInPlace_refl ctx
  | some ts =>
    cases ts with
    | mk targetName stateSize =>
      simp only [genSpawnCallWith, hT]
      cases args with
      | nil =>
        exact ir_build_call_inPlace ctx _ _ _
      | cons a rest =>
        cases hga : genE ctx a with
        | mk v c1 =>
          simp only [hga]
          have h1 : EmitsInPlace ctx c1 := by
            have := hgenE ctx a
            rw [hga] at this
            exact this
          exact emitsInPlace_trans h1 (ir_build_call_inPlace c1 _ _ _)


/-- `gen_expr` only appends to the current block: it never creates or
switches basic blocks. -/
lemma gen_expr_inPlace : ∀ (fuel : Nat) (e : AstExpr) (ctx : GenContext),
    EmitsInPlace ctx (gen_expr fuel ctx e).2 := by
  intro fuel
  induction fuel with
  | zero => intro e ctx; exact emitsInPlace_refl ctx
  | succ fuel ih =>
    intro e ctx
    cases e with
    | intLit v => exact emitsInPlace_refl ctx
    | floatLit => exact emitsInPlace_refl ctx
    | stringLit sid => exact emitsInPlace_refl ctx
    | charLit c => exact emitsInPlace_refl ctx
    | boolLit b => exact emitsInPlace_refl ctx
    | nilE => exact emitsInPlace_refl ctx
    | selfE => exact ir_build_call_inPlace ctx _ _ _
    | unary op inner => exact emitsInPlace_refl ctx
    | index obj idx => exact emitsInPlace_refl ctx
    | group inner => exact ih inner ctx
    | ident name st =>
      simp only [gen_expr]
      cases hll : lookup_local ctx name with
      | none =>
        simp only [hll]
        exact emitsInPlace_refl ctx
      | some pr =>
        cases pr with
        | mk ptr ty =>
          simp only [hll]
          exact ir_build_load_inPlace ctx ty ptr
    | send target message =>
      simp only [gen_expr]
      cases hg1 : gen_expr fuel ctx target with
      | mk tv c1 =>
        simp only [hg1]
        have h1 : EmitsInPlace ctx c1 := by
          have := ih target ctx; rw [hg1] at this; exact this
        cases hg2 : gen_expr fuel c1 message with
        | mk mv c2 =>
          simp only [hg2]
          have h2 : EmitsInPlace ctx c2 := by
            refine emitsInPlace_trans h1 ?_
            have := ih message c1; rw [hg2] at this; exact this
          cases hc : ir_build_call c2 (strBytes "arnm_send")
              [tv, mv, { ir_val_const_i32 0 with ty := IrType.ptr },
               { ir_val_const_i32 0 with ty := IrType.i64 }] IrType.void with
          | mk cv c3 =>
            simp only [hc]
            refine emitsInPlace_trans h2 ?_
            have := ir_build_call_inPlace c2 (strBytes "arnm_send")
              [tv, mv, { ir_val_const_i32 0 with ty := IrType.ptr },
               { ir_val_const_i32 0 with ty := IrType.i64 }] IrType.void
            rw [hc] at this
            exact this
    | spawnE inner =>
      simp only [gen_expr]
      split
      · exact genSpawnCallWith_inPlace (gen_expr fuel)
          (fun c a => ih a c) ctx _ _
      · exact emitsInPlace_refl ctx
    | call callee args =>
      simp only [gen_expr]
      cases callee with
      | ident name st =>
        cases hfold : args.foldl
            (fun (acc : List IrValue × GenContext) a =>
              let (v, c') := gen_expr fuel acc.2 a
              (acc.1 ++ [v], c'))
            ([], ctx) with
        | mk argVals c1 =>
          simp only [hfold]
          have h1 : EmitsInPlace ctx c1 := by
            have := foldl_inPlace_acc
              (fun (acc : List IrValue × GenContext) a =>
                let (v, c') := gen_expr fuel acc.2 a
                (acc.1 ++ [v], c'))
              (fun s a => by
                cases hge : gen_expr fuel s.2 a with
                | mk v c' =>
                  simp only [hge]
                  have := ih a s.2
                  rw [hge] at this
                  exact this)
              args ([], ctx)
            rw [hfold] at this
            exact this
          exact emitsInPlace_trans h1 (ir_build_call_inPlace c1 _ _ _)
      | intLit v => exact emitsInPlace_refl ctx
      | floatLit => exact emitsInPlace_refl ctx
      | stringLit sid => exact emitsInPlace_refl ctx
      | charLit c => exact emitsInPlace_refl ctx
      | boolLit b => exact emitsInPlace_refl ctx
      | nilE => exact emitsInPlace_refl ctx
      | selfE => exact emitsInPlace_refl ctx
      | binary op l r => exact emitsInPlace_refl ctx
      | unary op inner => exact emitsInPlace_refl ctx
      | call c2 a2 => exact emitsInPlace_refl ctx
      | index obj idx => exact emitsInPlace_refl ctx
      | field obj fname st => exact emitsInPlace_refl ctx
      | send t m => exact emitsInPlace_refl ctx
      | spawnE inner => exact emitsInPlace_refl ctx
      | group inner => exact emitsInPlace_refl ctx
    | field obj fname st =>
      simp only [gen_expr]
      cases hg1 : gen_expr fuel ctx obj with
      | mk objVal c1 =>
        simp only [hg1]
        have h1 : EmitsInPlace ctx c1 := by
          have := ih obj ctx; rw [hg1] at this; exact this
        cases obj with
        | selfE =>
          cases hca : c1.curActorType with
          | none =>
            simp only [hca]
            exact h1
          | some ot =>
            simp only [hca]
            cases hfi : fieldIndexOf
                (getNode c1.store (type_resolve c1.store ot)) fname with
            | none =>
              simp only [hfi]
              exact h1
            | some pr =>
              cases pr with
              | mk index k =>
                simp only [hfi]
                exact emitsInPlace_trans h1 (read_field_tail_inPlace _ _ _ _)
        | ident oname ost =>
          cases ost with
          | none => exact h1
          | some ot =>
            cases hfi : fieldIndexOf
                (getNode c1.store (type_resolve c1.store ot)) fname with
            | none =>
              simp only [hfi]
              exact h1
            | some pr =>
              cases pr with
              | mk index k =>
                simp only [hfi]
                exact emitsInPlace_trans h1 (read_field_tail_inPlace _ _ _ _)
        | field o2 f2 ost =>
          cases ost with
          | none => exact h1
          | some ot =>
            cases hfi : fieldIndexOf
                (getNode c1.store (type_resolve c1.store ot)) fname with
            | none =>
              simp only [hfi]
              exact h1
            | some pr =>
              cases pr with
              | mk index k =>
                simp only [hfi]
                exact emitsInPlace_trans h1 (read_field_tail_inPlace _ _ _ _)
        | intLit v => exact h1
        | floatLit => exact h1
        | stringLit sid => exact h1
        | charLit c => exact h1
        | boolLit b => exact h1
        | nilE => exact h1
        | binary op l r => exact h1
        | unary op inner => exact h1
        | call c2 a2 => exact h1
        | index o2 i2 => exact h1
        | send t m => exact h1
        | spawnE inner => exact h1
        | group inner => exact h1
    | binary op l r =>
      simp only [gen_expr]
      by_cases hop : op = BinaryOp.assign
      · rw [if_pos hop]
        cases hg1 : gen_expr fuel ctx r with
        | mk rhsVal c1 =>
          simp only [hg1]
          have h1 : EmitsInPlace ctx c1 := by
            have := ih r ctx; rw [hg1] at this; exact this
          cases l with
          | ident name st2 =>
            cases hll : lookup_local c1 name with
            | none =>
              simp only [hll]
              exact h1
            | some pr =>
              cases pr with
              | mk ptr ty =>
                simp only [hll]
                exact emitsInPlace_trans h1 (ir_build_store_inPlace c1 rhsVal ptr)
          | field obj fname st2 =>
            cases hg2 : gen_expr fuel c1 obj with
            | mk objVal c2 =>
              simp only [hg2]
              have h2 : EmitsInPlace ctx c2 := by
                refine emitsInPlace_trans h1 ?_
                have := ih obj c1; rw [hg2] at this; exact this
              cases obj with
              | selfE =>
                cases hca : c2.curActorType with
                | none =>
                  simp only [hca]
                  exact h2
                | some ot =>
                  simp only [hca]
                  cases hfi : fieldIndexOf
                      (getNode c2.store (type_resolve c2.store ot)) fname with
                  | none =>
                    simp only [hfi]
                    exact h2
                  | some pr =>
                    cases pr with
                    | mk index k =>
                      simp only [hfi]
                      exact emitsInPlace_trans h2
                        (assign_field_tail_inPlace _ _ _ _ _)
              | ident oname ost =>
                cases ost with
                | none => exact h2
                | some ot =>
                  cases hfi : fieldIndexOf
                      (getNode c2.store (type_resolve c2.store ot)) fname with
                  | none =>
                    simp only [hfi]
                    exact h2
                  | some pr =>
                    cases pr with
                    | mk index k =>
                      simp only [hfi]
                      exact emitsInPlace_trans h2
                        (assign_field_tail_inPlace _ _ _ _ _)
              | field o2 f2 ost =>
                cases ost with
                | none => exact h2
                | some ot =>
                  cases hfi : fieldIndexOf
                      (getNode c2.store (type_resolve c2.store ot)) fname with
                  | none =>
                    simp only [hfi]
                    exact h2
                  | some pr =>
                    cases pr with
                    | mk index k =>
                      simp only [hfi]
                      exact emitsInPlace_trans h2
                        (assign_field_tail_inPlace _ _ _ _ _)
              | intLit v => exact h2
              | floatLit => exact h2
              | stringLit sid => exact h2
              | charLit c => exact h2
              | boolLit b => exact h2
              | nilE => exact h2
              | binary op2 l2 r2 => exact h2
              | unary op2 inner => exact h2
              | call c3 a3 => exact h2
              | index o2 i2 => exact h2
              | send t m => exact h2
              | spawnE inner => exact h2
              | group inner => exact h2
          | intLit v => exact h1
          | floatLit => exact h1
          | stringLit sid => exact h1
          | charLit c => exact h1
          | boolLit b => exact h1
          | nilE => exact h1
          | selfE => exact h1
          | binary op2 l2 r2 => exact h1
          | unary op2 inner => exact h1
          | call c2 a2 => exact h1
          | index o2 i2 => exact h1
          | send t m => exact h1
          | spawnE inner => exact h1
          | group inner => exact h1
      · rw [if_neg hop]
        cases hg1 : gen_expr fuel ctx l with
        | mk lhs c1 =>
          simp only [hg1]
          have h1 : EmitsInPlace ctx c1 := by
            have := ih l ctx; rw [hg1] at this; exact this
          cases hg2 : gen_expr fuel c1 r with
          | mk rhs c2 =>
            simp only [hg2]
            have h2 : EmitsInPlace ctx c2 := by
              refine emitsInPlace_trans h1 ?_
              have := ih r c1; rw [hg2] at this; exact this
            cases op <;>
              first
                | exact h2
                | exact emitsInPlace_trans h2 (ir_build_binop_inPlace c2 _ _ _)
                | exact emitsInPlace_trans h2 (ir_build_cmp_inPlace c2 _ _ _)

lemma inPlace_result {S : Nat → Prop} {ctx c' : GenContext}
    (h : EmitsInPlace ctx c') (h1 : ctx.curFn.isSome = true)
    (h3 : CurIn S ctx) :
    EvolvesW S ctx c' ∧ c'.curFn.isSome = true ∧ CurIn S c' := by
  have hw := h.2.2 S h3
  refine ⟨hw, ?_, ?_⟩
  · rw [hw.2.2.2.2]
    exact h1
  · intro bid hb
    rw [h.1] at hb
    exact h3 bid hb

lemma inPlace_find_isSome {c c' : GenContext} (h : EmitsInPlace c c')
    (bid : Nat) (hf : (blocksFind c bid).isSome = true) :
    (blocksFind c' bid).isSome = true :=
  evolvesW_find_isSome (h.2.2 (fun _ => True) (fun _ _ => trivial)) bid hf

lemma block_create_curBlock_eq (ctx : GenContext) (label : String) :
    (ir_block_create ctx label).2.curBlock = ctx.curBlock := by
  cases hf : ctx.curFn with
  | none => simp only [ir_block_create, hf]
  | some fn => simp only [ir_block_create, hf]

lemma block_create_isSome_eq (ctx : GenContext) (label : String) :
    (ir_block_create ctx label).2.curFn.isSome = ctx.curFn.isSome := by
  cases hf : ctx.curFn with
  | none => simp only [ir_block_create, hf]
  | some fn => simp only [ir_block_create, hf, Option.isSome]

lemma block_create_counter_mono (ctx : GenContext) (label : String) :
    counterOf ctx ≤ counterOf (ir_block_create ctx label).2 := by
  cases hf : ctx.curFn with
  | none =>
    simp only [ir_block_create, hf]
    exact le_refl _
  | some fn =>
    simp only [counterOf, ir_block_create, hf]
    exact Nat.le_succ _

lemma foldl_stmt_w {α : Type} (f : GenContext → α → GenContext)
    (S : Nat → Prop)
    (hf : ∀ c a, c.curFn.isSome = true → (∀ n, counterOf c ≤ n → S n) →
      CurIn S c →
      EvolvesW S c (f c a) ∧ (f c a).curFn.isSome = true ∧ CurIn S (f c a)) :
    ∀ (l : List α) (c : GenContext), c.curFn.isSome = true →
      (∀ n, counterOf c ≤ n → S n) → CurIn S c →
      EvolvesW S c (l.foldl f c) ∧ (l.foldl f c).curFn.isSome = true ∧
      CurIn S (l.foldl f c) := by
  intro l
  induction l with
  | nil =>
    intro c h1 _ h3
    exact ⟨evolvesW_refl S c, h1, h3⟩
  | cons a rest ihl =>
    intro c h1 h2 h3
    obtain ⟨hw, hfn, hcur⟩ := hf c a h1 h2 h3
    have h2' : ∀ n, counterOf (f c a) ≤ n → S n :=
      fun n hn => h2 n (le_trans hw.2.1 hn)
    obtain ⟨hw2, hfn2, hcur2⟩ := ihl (f c a) hfn h2' hcur
    exact ⟨evolvesW_trans hw hw2, hfn2, hcur2⟩

lemma block_create_find_isSome_old (ctx : GenContext) (label : String)
    (bid : Nat) (hf : (blocksFind ctx bid).isSome = true) :
    (blocksFind (ir_block_create ctx label).2 bid).isSome = true := by
  cases hx : blocksFind ctx bid with
  | none => rw [hx] at hf; cases hf
  | some blk =>
    rw [block_create_find_old ctx label bid blk hx]
    rfl

/-- The receive statement's block-allocation loop: evolves the context,
keeps the current block and function, and every id it returns is either
carried in or freshly created and present afterwards. -/
lemma recvArmCreate_fold_facts (S : Nat → Prop) :
    ∀ (l : List (List Nat × Option (List AstStmt)))
      (s : List Nat × GenContext), s.2.curFn.isSome = true →
      EvolvesW S s.2 (l.foldl recvArmCreate s).2 ∧
      (l.foldl recvArmCreate s).2.curBlock = s.2.curBlock ∧
      (l.foldl recvArmCreate s).2.curFn.isSome = true ∧
      counterOf s.2 ≤ counterOf (l.foldl recvArmCreate s).2 ∧
      (∀ id, id ∈ (l.foldl recvArmCreate s).1 →
        (id ∈ s.1 ∧ (blocksFind s.2 id).isSome = true →
          (blocksFind (l.foldl recvArmCreate s).2 id).isSome = true) ∧
        (id ∈ s.1 ∨ (counterOf s.2 ≤ id ∧
          (blocksFind (l.foldl recvArmCreate s).2 id).isSome = true))) := by
  intro l
  induction l with
  | nil =>
    intro s h1
    refine ⟨evolvesW_refl S s.2, rfl, h1, le_refl _, ?_⟩
    intro id hid
    exact ⟨fun h => h.2, Or.inl hid⟩
  | cons a rest ihl =>
    intro s h1
    obtain ⟨fn, hfn⟩ := Option.isSome_iff_exists.mp h1
    have hstep : recvArmCreate s a
        = (s.1 ++ [(ir_block_create s.2 ("recv.arm" ++ toString s.1.length)).1],
           (ir_block_create s.2 ("recv.arm" ++ toString s.1.length)).2) := rfl
    have hfold : (a :: rest).foldl recvArmCreate s
        = rest.foldl recvArmCreate (recvArmCreate s a) := rfl
    have hcf := block_create_fields s.2 ("recv.arm" ++ toString s.1.length)
      fn hfn
    have h1' : (recvArmCreate s a).2.curFn.isSome = true := by
      rw [hstep]
      exact hcf.2.2.2
    obtain ⟨hw2, hcb2, hfn2, hcnt2, hids2⟩ := ihl (recvArmCreate s a) h1'
    have hwc : EvolvesW S s.2 (recvArmCreate s a).2 := by
      rw [hstep]
      exact block_create_w S s.2 _
    have hcnt1 : counterOf s.2 ≤ counterOf (recvArmCreate s a).2 := by
      rw [hstep]
      exact block_create_counter_mono s.2 _
    have hcntv : counterOf s.2 = fn.blockCounter := by
      simp only [counterOf, hfn]
    rw [hfold]
    refine ⟨evolvesW_trans hwc hw2, ?_, hfn2, le_trans hcnt1 hcnt2, ?_⟩
    · rw [hcb2, hstep]
      exact block_create_curBlock_eq s.2 _
    · intro id hid
      obtain ⟨hkeep, horig⟩ := hids2 id hid
      constructor
      · intro hpre
        refine hkeep ⟨?_, ?_⟩
        · rw [hstep]
          exact List.mem_append_left _ hpre.1
        · rw [hstep]
          exact block_create_find_isSome_old s.2 _ id hpre.2
      · rcases horig with hin | ⟨hge, hfound⟩
        · rw [hstep] at hin
          rcases List.mem_append.mp hin with hin | hin
          · exact Or.inl hin
          · simp only [List.mem_singleton] at hin
            refine Or.inr ⟨?_, ?_⟩
            · rw [hin, hcf.1, hcntv]
            · refine hkeep ⟨?_, ?_⟩
              · rw [hstep, hin]
                exact List.mem_append_right _ (List.mem_singleton.mpr rfl)
              · rw [hstep, hin, hcf.1]
                exact block_create_found s.2 _ fn hfn
        · refine Or.inr ⟨le_trans hcnt1 hge, hfound⟩

lemma inPlace_isSome_eq {c c' : GenContext} (h : EmitsInPlace c c') :
    c'.curFn.isSome = c.curFn.isSome :=
  (h.2.2 (fun _ => True) (fun _ _ => trivial)).2.2.2.2

lemma blocksFind_update_curBlock (cd : GenContext) (x : Option Nat)
    (bid : Nat) : blocksFind { cd with curBlock := x } bid = blocksFind cd bid :=
  rfl

/-- One comparison-chain step of the receive lowering, relative to any id
set `S` that contains the no-match block and everything at or above the
counter. -/
lemma recvChainStep_w (S : Nat → Prop) (tagVal : IrValue)
    (armsLen nomatchBb : Nat) (hnmS : S nomatchBb)
    (cc : GenContext) (p : Nat × ((List Nat × Option (List AstStmt)) × Nat))
    (h1 : cc.curFn.isSome = true) (h2 : ∀ n, counterOf cc ≤ n → S n)
    (h3 : CurIn S cc)
    (hnmF : (blocksFind cc nomatchBb).isSome = true) :
    EvolvesW S cc (recvChainStep tagVal armsLen nomatchBb cc p) ∧
    (recvChainStep tagVal armsLen nomatchBb cc p).curFn.isSome = true ∧
    CurIn S (recvChainStep tagVal armsLen nomatchBb cc p) ∧
    (blocksFind (recvChainStep tagVal armsLen nomatchBb cc p)
      nomatchBb).isSome = true := by
  simp only [recvChainStep]
  cases hcmp : ir_build_cmp cc IrOpcode.eqOp tagVal
      (ir_val_const_i32 (int32OfU32 (expectedTagOf p.2.1.1))) with
  | mk cmpV ca =>
    simp only [hcmp]
    have hca : EmitsInPlace cc ca := by
      have := ir_build_cmp_inPlace cc IrOpcode.eqOp tagVal
        (ir_val_const_i32 (int32OfU32 (expectedTagOf p.2.1.1)))
      rw [hcmp] at this
      exact this
    have hcaFn : ca.curFn.isSome = true := by
      rw [inPlace_isSome_eq hca]
      exact h1
    have hcaCnt : counterOf ca = counterOf cc := hca.2.1
    have hcaCur : ca.curBlock = cc.curBlock := hca.1
    have hcaW : EvolvesW S cc ca := hca.2.2 S h3
    have hcaCurIn : CurIn S ca := by
      intro bid hb
      rw [hcaCur] at hb
      exact h3 bid hb
    have hcaNm : (blocksFind ca nomatchBb).isSome = true :=
      inPlace_find_isSome hca nomatchBb hnmF
    by_cases hlt : p.1 + 1 < armsLen
    · rw [if_pos hlt]
      obtain ⟨fnA, hfnA⟩ := Option.isSome_iff_exists.mp hcaFn
      cases hbc : ir_block_create ca "recv.check" with
      | mk nc cb =>
        simp only [hbc]
        have hcfields := block_create_fields ca "recv.check" fnA hfnA
        rw [hbc] at hcfields
        have hncv : nc = fnA.blockCounter := hcfields.1
        have hccnt : counterOf ca = fnA.blockCounter := by
          simp only [counterOf, hfnA]
        have hSnc : S nc := by
          refine h2 nc ?_
          rw [hncv, ← hccnt, hcaCnt]
        have hbw : EvolvesW S ca cb := by
          have := block_create_w S ca "recv.check"
          rw [hbc] at this
          exact this
        have hcbCur : cb.curBlock = ca.curBlock := hcfields.2.2.1
        have hcbFn : cb.curFn.isSome = true := hcfields.2.2.2
        have hncFound : (blocksFind cb nc).isSome = true := by
          have := block_create_found ca "recv.check" fnA hfnA
          rw [hbc, ← hncv] at this
          exact this
        have hcbCurIn : CurIn S cb := by
          intro bid hb
          rw [hcbCur, hcaCur] at hb
          exact h3 bid hb
        have hbrIn : EmitsInPlace cb (ir_build_br cb cmpV p.2.2 nc) :=
          ir_build_br_inPlace cb cmpV p.2.2 nc
        have hbrW : EvolvesW S cb (ir_build_br cb cmpV p.2.2 nc) :=
          hbrIn.2.2 S hcbCurIn
        have hfoundBr : (blocksFind (ir_build_br cb cmpV p.2.2 nc) nc).isSome
            = true := inPlace_find_isSome hbrIn nc hncFound
        have hret : EvolvesW S (ir_build_br cb cmpV p.2.2 nc)
            { ir_build_br cb cmpV p.2.2 nc with curBlock := some nc } :=
          retarget_w S _ _ nc rfl rfl hfoundBr
        refine ⟨evolvesW_trans hcaW (evolvesW_trans hbw
          (evolvesW_trans hbrW hret)), ?_, ?_, ?_⟩
        · show (ir_build_br cb cmpV p.2.2 nc).curFn.isSome = true
          rw [inPlace_isSome_eq hbrIn]
          exact hcbFn
        · intro bid hb
          simp only [] at hb
          cases hb
          exact hSnc
        · rw [blocksFind_update_curBlock]
          refine inPlace_find_isSome hbrIn nomatchBb ?_
          exact evolvesW_find_isSome hbw nomatchBb hcaNm
    · rw [if_neg hlt]
      have hbrIn : EmitsInPlace ca (ir_build_br ca cmpV p.2.2 nomatchBb) :=
        ir_build_br_inPlace ca cmpV p.2.2 nomatchBb
      have hbrW : EvolvesW S ca (ir_build_br ca cmpV p.2.2 nomatchBb) :=
        hbrIn.2.2 S hcaCurIn
      have hfoundBr : (blocksFind (ir_build_br ca cmpV p.2.2 nomatchBb)
          nomatchBb).isSome = true := inPlace_find_isSome hbrIn nomatchBb hcaNm
      have hret : EvolvesW S (ir_build_br ca cmpV p.2.2 nomatchBb)
          { ir_build_br ca cmpV p.2.2 nomatchBb with
              curBlock := some nomatchBb } :=
        retarget_w S _ _ nomatchBb rfl rfl hfoundBr
      refine ⟨evolvesW_trans hcaW (evolvesW_trans hbrW hret), ?_, ?_, ?_⟩
      · show (ir_build_br ca cmpV p.2.2 nomatchBb).curFn.isSome = true
        rw [inPlace_isSome_eq hbrIn]
        exact hcaFn
      · intro bid hb
        simp only [] at hb
        cases hb
        exact hnmS
      · rw [blocksFind_update_curBlock]
        exact hfoundBr

/-- The whole comparison chain evolves the context within `S`. -/
lemma recvChain_fold_w (S : Nat → Prop) (tagVal : IrValue)
    (armsLen nomatchBb : Nat) (hnmS : S nomatchBb) :
    ∀ (l : List (Nat × ((List Nat × Option (List AstStmt)) × Nat)))
      (c : GenContext),
      c.curFn.isSome = true → (∀ n, counterOf c ≤ n → S n) → CurIn S c →
      (blocksFind c nomatchBb).isSome = true →
      EvolvesW S c (l.foldl (recvChainStep tagVal armsLen nomatchBb) c) ∧
      (l.foldl (recvChainStep tagVal armsLen nomatchBb) c).curFn.isSome
        = true ∧
      CurIn S (l.foldl (recvChainStep tagVal armsLen nomatchBb) c) ∧
      (blocksFind (l.foldl (recvChainStep tagVal armsLen nomatchBb) c)
        nomatchBb).isSome = true := by
  intro l
  induction l with
  | nil =>
    intro c h1 _ h3 h4
    exact ⟨evolvesW_refl S c, h1, h3, h4⟩
  | cons a rest ihl =>
    intro c h1 h2 h3 h4
    obtain ⟨hw, hfn, hcur, hnm⟩ :=
      recvChainStep_w S tagVal armsLen nomatchBb hnmS c a h1 h2 h3 h4
    have h2' : ∀ n, counterOf (recvChainStep tagVal armsLen nomatchBb c a)
        ≤ n → S n := fun n hn => h2 n (le_trans hw.2.1 hn)
    obtain ⟨hw2, hfn2, hcur2, hnm2⟩ :=
      ihl (recvChainStep tagVal armsLen nomatchBb c a) hfn h2' hcur hnm
    exact ⟨evolvesW_trans hw hw2, hfn2, hcur2, hnm2⟩

/-- One arm-body step of the receive lowering, for any statement lowering
`genStep` that itself evolves contexts within `S`. -/
lemma recvBodyStep_w (S : Nat → Prop)
    (genStep : GenContext → AstStmt → GenContext)
    (hgen : ∀ c st, c.curFn.isSome = true → (∀ n, counterOf c ≤ n → S n) →
      CurIn S c → EvolvesW S c (genStep c st) ∧
        (genStep c st).curFn.isSome = true ∧ CurIn S (genStep c st))
    (tagVal : IrValue) (mergeBb : Nat) (cc : GenContext)
    (p : (List Nat × Option (List AstStmt)) × Nat)
    (h1 : cc.curFn.isSome = true) (h2 : ∀ n, counterOf cc ≤ n → S n)
    (hpS : S p.2) (hpF : (blocksFind cc p.2).isSome = true) :
    EvolvesW S cc (recvBodyStep genStep tagVal mergeBb cc p) ∧
    (recvBodyStep genStep tagVal mergeBb cc p).curFn.isSome = true := by
  have hca : EvolvesW S cc { cc with curBlock := some p.2 } :=
    retarget_w S cc _ p.2 rfl rfl hpF
  have hcaFn : ({ cc with curBlock := some p.2 } : GenContext).curFn.isSome
      = true := h1
  have hcaCurIn : CurIn S ({ cc with curBlock := some p.2 } : GenContext) := by
    intro bid hb
    simp only [] at hb
    cases hb
    exact hpS
  have hcaCnt : counterOf ({ cc with curBlock := some p.2 } : GenContext)
      = counterOf cc := rfl
  simp only [recvBodyStep]
  cases halloc : ir_build_alloca { cc with curBlock := some p.2 }
      IrType.i32 with
  | mk slot cb =>
    simp only [halloc]
    have hcbIn : EmitsInPlace { cc with curBlock := some p.2 } cb := by
      have := ir_build_alloca_inPlace { cc with curBlock := some p.2 }
        IrType.i32
      rw [halloc] at this
      exact this
    have hcbW : EvolvesW S { cc with curBlock := some p.2 } cb :=
      hcbIn.2.2 S hcaCurIn
    have hcbFn : cb.curFn.isSome = true := by
      rw [inPlace_isSome_eq hcbIn]
      exact hcaFn
    have hcbCurIn : CurIn S cb := by
      intro bid hb
      rw [hcbIn.1] at hb
      exact hcaCurIn bid hb
    have hcbCnt : counterOf cb = counterOf cc := by
      rw [hcbIn.2.1]
      exact hcaCnt
    have hcdIn : EmitsInPlace cb (ir_build_store cb tagVal slot) :=
      ir_build_store_inPlace cb tagVal slot
    have hcdW : EvolvesW S cb (ir_build_store cb tagVal slot) :=
      hcdIn.2.2 S hcbCurIn
    have hcdFn : (ir_build_store cb tagVal slot).curFn.isSome = true := by
      rw [inPlace_isSome_eq hcdIn]
      exact hcbFn
    have hcdCurIn : CurIn S (ir_build_store cb tagVal slot) := by
      intro bid hb
      rw [hcdIn.1] at hb
      exact hcbCurIn bid hb
    have hcdCnt : counterOf (ir_build_store cb tagVal slot) = counterOf cc := by
      rw [hcdIn.2.1]
      exact hcbCnt
    have hce : EvolvesW S (ir_build_store cb tagVal slot)
        (if p.1.1.length > 0
         then add_local (ir_build_store cb tagVal slot) p.1.1 slot IrType.i32
         else ir_build_store cb tagVal slot) ∧
        (if p.1.1.length > 0
         then add_local (ir_build_store cb tagVal slot) p.1.1 slot IrType.i32
         else ir_build_store cb tagVal slot).curFn.isSome = true ∧
        CurIn S (if p.1.1.length > 0
         then add_local (ir_build_store cb tagVal slot) p.1.1 slot IrType.i32
         else ir_build_store cb tagVal slot) ∧
        counterOf (if p.1.1.length > 0
         then add_local (ir_build_store cb tagVal slot) p.1.1 slot IrType.i32
         else ir_build_store cb tagVal slot) = counterOf cc := by
      by_cases hpl : p.1.1.length > 0
      · rw [if_pos hpl]
        have hal := add_local_inPlace (ir_build_store cb tagVal slot)
          p.1.1 slot IrType.i32
        refine ⟨hal.2.2 S hcdCurIn, ?_, ?_, ?_⟩
        · rw [inPlace_isSome_eq hal]
          exact hcdFn
        · intro bid hb
          rw [hal.1] at hb
          exact hcdCurIn bid hb
        · rw [hal.2.1]
          exact hcdCnt
      · rw [if_neg hpl]
        exact ⟨evolvesW_refl S _, hcdFn, hcdCurIn, hcdCnt⟩
    obtain ⟨hceW, hceFn, hceCurIn, hceCnt⟩ := hce
    have h2ce : ∀ n, counterOf (if p.1.1.length > 0
        then add_local (ir_build_store cb tagVal slot) p.1.1 slot IrType.i32
        else ir_build_store cb tagVal slot) ≤ n → S n := by
      rw [hceCnt]
      exact h2
    have hcf : EvolvesW S
        (if p.1.1.length > 0
         then add_local (ir_build_store cb tagVal slot) p.1.1 slot IrType.i32
         else ir_build_store cb tagVal slot)
        (match p.1.2 with
         | some stmts => stmts.foldl (fun g st => genStep g st)
             (if p.1.1.length > 0
              then add_local (ir_build_store cb tagVal slot) p.1.1 slot
                IrType.i32
              else ir_build_store cb tagVal slot)
         | none =>
             (if p.1.1.length > 0
              then add_local (ir_build_store cb tagVal slot) p.1.1 slot
                IrType.i32
              else ir_build_store cb tagVal slot)) ∧
        (match p.1.2 with
         | some stmts => stmts.foldl (fun g st => genStep g st)
             (if p.1.1.length > 0
              then add_local (ir_build_store cb tagVal slot) p.1.1 slot
                IrType.i32
              else ir_build_store cb tagVal slot)
         | none =>
             (if p.1.1.length > 0
              then add_local (ir_build_store cb tagVal slot) p.1.1 slot
                IrType.i32
              else ir_build_store cb tagVal slot)).curFn.isSome = true ∧
        CurIn S (match p.1.2 with
         | some stmts => stmts.foldl (fun g st => genStep g st)
             (if p.1.1.length > 0
              then add_local (ir_build_store cb tagVal slot) p.1.1 slot
                IrType.i32
              else ir_build_store cb tagVal slot)
         | none =>
             (if p.1.1.length > 0
              then add_local (ir_build_store cb tagVal slot) p.1.1 slot
                IrType.i32
              else ir_build_store cb tagVal slot)) := by
      cases hb2 : p.1.2 with
      | none =>
        exact ⟨evolvesW_refl S _, hceFn, hceCurIn⟩
      | some stmts =>
        have := foldl_stmt_w (fun g st => genStep g st) S
          (fun c st hc1 hc2 hc3 => hgen c st hc1 hc2 hc3) stmts _
          hceFn h2ce hceCurIn
        exact this
    obtain ⟨hcfW, hcfFn, hcfCurIn⟩ := hcf
    have hcomp : EvolvesW S cc
        (match p.1.2 with
         | some stmts => stmts.foldl (fun g st => genStep g st)
             (if p.1.1.length > 0
              then add_local (ir_build_store cb tagVal slot) p.1.1 slot
                IrType.i32
              else ir_build_store cb tagVal slot)
         | none =>
             (if p.1.1.length > 0
              then add_local (ir_build_store cb tagVal slot) p.1.1 slot
                IrType.i32
              else ir_build_store cb tagVal slot)) :=
      evolvesW_trans hca (evolvesW_trans hcbW (evolvesW_trans hcdW
        (evolvesW_trans hceW hcfW)))
    by_cases hnj : needsJmp (match p.1.2 with
         | some stmts => stmts.foldl (fun g st => genStep g st)
             (if p.1.1.length > 0
              then add_local (ir_build_store cb tagVal slot) p.1.1 slot
                IrType.i32
              else ir_build_store cb tagVal slot)
         | none =>
             (if p.1.1.length > 0
              then add_local (ir_build_store cb tagVal slot) p.1.1 slot
                IrType.i32
              else ir_build_store cb tagVal slot)) = true
    · rw [if_pos hnj]
      have hjIn := ir_build_jmp_inPlace (match p.1.2 with
         | some stmts => stmts.foldl (fun g st => genStep g st)
             (if p.1.1.length > 0
              then add_local (ir_build_store cb tagVal slot) p.1.1 slot
                IrType.i32
              else ir_build_store cb tagVal slot)
         | none =>
             (if p.1.1.length > 0
              then add_local (ir_build_store cb tagVal slot) p.1.1 slot
                IrType.i32
              else ir_build_store cb tagVal slot)) mergeBb
      refine ⟨evolvesW_trans hcomp (hjIn.2.2 S hcfCurIn), ?_⟩
      rw [inPlace_isSome_eq hjIn]
      exact hcfFn
    · rw [if_neg hnj]
      exact ⟨hcomp, hcfFn⟩

/-- The whole arm-body loop of the receive lowering evolves within `S`. -/
lemma recvBody_fold_w (S : Nat → Prop)
    (genStep : GenContext → AstStmt → GenContext)
    (hgen : ∀ c st, c.curFn.isSome = true → (∀ n, counterOf c ≤ n → S n) →
      CurIn S c → EvolvesW S c (genStep c st) ∧
        (genStep c st).curFn.isSome = true ∧ CurIn S (genStep c st))
    (tagVal : IrValue) (mergeBb : Nat) :
    ∀ (l : List ((List Nat × Option (List AstStmt)) × Nat)) (c : GenContext),
      c.curFn.isSome = true → (∀ n, counterOf c ≤ n → S n) →
      (∀ p, p ∈ l → S p.2 ∧ (blocksFind c p.2).isSome = true) →
      EvolvesW S c
        (l.foldl (recvBodyStep genStep tagVal mergeBb) c) ∧
      (l.foldl (recvBodyStep genStep tagVal mergeBb) c).curFn.isSome
        = true := by
  intro l
  induction l with
  | nil =>
    intro c h1 _ _
    exact ⟨evolvesW_refl S c, h1⟩
  | cons a rest ihl =>
    intro c h1 h2 h3
    obtain ⟨hw, hfn⟩ := recvBodyStep_w S genStep hgen tagVal mergeBb c a h1 h2
      (h3 a (List.mem_cons_self a rest)).1 (h3 a (List.mem_cons_self a rest)).2
    have h2' : ∀ n, counterOf (recvBodyStep genStep tagVal mergeBb c a) ≤ n →
        S n := fun n hn => h2 n (le_trans hw.2.1 hn)
    have h3' : ∀ p, p ∈ rest →
        S p.2 ∧ (blocksFind (recvBodyStep genStep tagVal mergeBb c a)
          p.2).isSome = true := by
      intro q hq
      have hqf := h3 q (List.mem_cons_of_mem a hq)
      exact ⟨hqf.1, evolvesW_find_isSome hw q.2 hqf.2⟩
    obtain ⟨hw2, hfn2⟩ := ihl (recvBodyStep genStep tagVal mergeBb c a)
      hfn h2' h3'
    exact ⟨evolvesW_trans hw hw2, hfn2⟩

lemma letS_tail_inPlace (c1 : GenContext) (v : IrValue) (name : List Nat)
    (T : IrType) :
    EmitsInPlace c1
      (let (slot, c2) := ir_build_alloca c1 T
       let c3 := ir_build_store c2 v slot
       add_local c3 name slot T) := by
  cases hal : ir_build_alloca c1 T with
  | mk slot c2 =>
    simp only [hal]
    have h2 : EmitsInPlace c1 c2 := by
      have := ir_build_alloca_inPlace c1 T
      rw [hal] at this
      exact this
    exact emitsInPlace_trans h2 (emitsInPlace_trans
      (ir_build_store_inPlace c2 v slot) (add_local_inPlace _ name slot T))

lemma evolvesW_isSome_eq {S : Nat → Prop} {a b : GenContext}
    (h : EvolvesW S a b) : b.curFn.isSome = a.curFn.isSome := h.2.2.2.2

/-- The retarget/lower/fall-through pattern shared by the `if` and `while`
lowerings: move to block `bb`, lower the statements, and append a `Jmp` to
`jmpTarget` when the block is not already terminated. -/
lemma branch_w (S : Nat → Prop) (genStep : GenContext → AstStmt → GenContext)
    (hgen : ∀ c st, c.curFn.isSome = true → (∀ n, counterOf c ≤ n → S n) →
      CurIn S c → EvolvesW S c (genStep c st) ∧
        (genStep c st).curFn.isSome = true ∧ CurIn S (genStep c st))
    (c5 : GenContext) (bb jmpTarget : Nat) (stmts : List AstStmt)
    (h1 : c5.curFn.isSome = true) (h2 : ∀ n, counterOf c5 ≤ n → S n)
    (hS : S bb) (hF : (blocksFind c5 bb).isSome = true) :
    EvolvesW S c5
      (if needsJmp (stmts.foldl (fun cc st => genStep cc st)
          { c5 with curBlock := some bb })
       then ir_build_jmp (stmts.foldl (fun cc st => genStep cc st)
          { c5 with curBlock := some bb }) jmpTarget
       else stmts.foldl (fun cc st => genStep cc st)
          { c5 with curBlock := some bb }) ∧
    (if needsJmp (stmts.foldl (fun cc st => genStep cc st)
        { c5 with curBlock := some bb })
     then ir_build_jmp (stmts.foldl (fun cc st => genStep cc st)
        { c5 with curBlock := some bb }) jmpTarget
     else stmts.foldl (fun cc st => genStep cc st)
        { c5 with curBlock := some bb }).curFn.isSome = true ∧
    CurIn S
      (if needsJmp (stmts.foldl (fun cc st => genStep cc st)
          { c5 with curBlock := some bb })
       then ir_build_jmp (stmts.foldl (fun cc st => genStep cc st)
          { c5 with curBlock := some bb }) jmpTarget
       else stmts.foldl (fun cc st => genStep cc st)
          { c5 with curBlock := some bb }) := by
  have hret : EvolvesW S c5 { c5 with curBlock := some bb } :=
    retarget_w S c5 _ bb rfl rfl hF
  have hfnr : ({ c5 with curBlock := some bb } : GenContext).curFn.isSome
      = true := h1
  have hsupr : ∀ n, counterOf ({ c5 with curBlock := some bb } : GenContext)
      ≤ n → S n := h2
  have hcurr : CurIn S ({ c5 with curBlock := some bb } : GenContext) := by
    intro bid hb
    simp only [] at hb
    cases hb
    exact hS
  obtain ⟨hWf, hfnf, hcurf⟩ := foldl_stmt_w (fun cc st => genStep cc st) S
    (fun c a hc1 hc2 hc3 => hgen c a hc1 hc2 hc3) stmts _ hfnr hsupr hcurr
  by_cases hnj : needsJmp (stmts.foldl (fun cc st => genStep cc st)
      { c5 with curBlock := some bb }) = true
  · rw [if_pos hnj]
    have hjIn := ir_build_jmp_inPlace
      (stmts.foldl (fun cc st => genStep cc st)
        { c5 with curBlock := some bb }) jmpTarget
    refine ⟨evolvesW_trans hret (evolvesW_trans hWf (hjIn.2.2 S hcurf)),
      ?_, ?_⟩
    · rw [inPlace_isSome_eq hjIn]
      exact hfnf
    · intro bid hb
      rw [hjIn.1] at hb
      exact hcurf bid hb
  · rw [if_neg hnj]
    exact ⟨evolvesW_trans hret hWf, hfnf, hcurf⟩

set_option maxHeartbeats 2000000 in
/-- `gen_stmt` evolves the context within any id set `S` that contains the
current block and everything at or above the block counter: existing blocks
only get appended to (and blocks outside `S` are untouched), the `Good`
contract is preserved, and the current block stays inside `S`. -/
lemma gen_stmt_w : ∀ (fuel : Nat) (stmt : AstStmt) (S : Nat → Prop)
    (ctx : GenContext), ctx.curFn.isSome = true →
    (∀ n, counterOf ctx ≤ n → S n) → CurIn S ctx →
    EvolvesW S ctx (gen_stmt fuel ctx stmt) ∧
    (gen_stmt fuel ctx stmt).curFn.isSome = true ∧
    CurIn S (gen_stmt fuel ctx stmt) := by
  intro fuel
  induction fuel with
  | zero =>
    intro stmt S ctx h1 h2 h3
    exact ⟨evolvesW_refl S ctx, h1, h3⟩
  | succ fuel ih =>
    intro stmt S ctx h1 h2 h3
    cases stmt with
    | letS name isMut hasAnn init =>
      simp only [gen_stmt]
      cases init with
      | some e =>
        cases hg : gen_expr fuel ctx e with
        | mk v c1 =>
          simp only [hg]
          have hIn1 : EmitsInPlace ctx c1 := by
            have := gen_expr_inPlace fuel e ctx
            rw [hg] at this
            exact this
          exact inPlace_result
            (emitsInPlace_trans hIn1 (letS_tail_inPlace c1 v name _)) h1 h3
      | none =>
        exact inPlace_result (letS_tail_inPlace ctx _ name _) h1 h3
    | returnS value =>
      simp only [gen_stmt]
      cases value with
      | some e =>
        cases hg : gen_expr fuel ctx e with
        | mk v c1 =>
          simp only [hg]
          have hIn1 : EmitsInPlace ctx c1 := by
            have := gen_expr_inPlace fuel e ctx
            rw [hg] at this
            exact this
          exact inPlace_result
            (emitsInPlace_trans hIn1 (ir_build_ret_inPlace c1 v)) h1 h3
      | none =>
        exact inPlace_result (ir_build_ret_void_inPlace ctx) h1 h3
    | exprS e =>
      simp only [gen_stmt]
      exact inPlace_result (gen_expr_inPlace fuel e ctx) h1 h3
    | forS a b c =>
      simp only [gen_stmt]
      exact ⟨evolvesW_refl S ctx, h1, h3⟩
    | blockS stmts =>
      simp only [gen_stmt]
      exact ⟨evolvesW_refl S ctx, h1, h3⟩
    | breakS =>
      simp only [gen_stmt]
      cases hbb : ctx.breakBb with
      | some b =>
        exact inPlace_result (ir_build_jmp_inPlace ctx b) h1 h3
      | none =>
        exact ⟨evolvesW_refl S ctx, h1, h3⟩
    | continueS =>
      simp only [gen_stmt]
      cases hbb : ctx.continueBb with
      | some b =>
        exact inPlace_result (ir_build_jmp_inPlace ctx b) h1 h3
      | none =>
        exact ⟨evolvesW_refl S ctx, h1, h3⟩
    | spawnS e =>
      simp only [gen_stmt]
      cases e with
      | call callee args =>
        exact inPlace_result
          (genSpawnCallWith_inPlace (gen_expr fuel)
            (fun c a => gen_expr_inPlace fuel a c) ctx callee args) h1 h3
      | group inner =>
        cases hu : unwrapGroups (AstExpr.group inner) with
        | call callee args =>
          simp only [hu]
          exact inPlace_result
            (genSpawnCallWith_inPlace (gen_expr fuel)
              (fun c a => gen_expr_inPlace fuel a c) ctx callee args) h1 h3
        | intLit v => simp only [hu]; exact ⟨evolvesW_refl S ctx, h1, h3⟩
        | floatLit => simp only [hu]; exact ⟨evolvesW_refl S ctx, h1, h3⟩
        | stringLit sid => simp only [hu]; exact ⟨evolvesW_refl S ctx, h1, h3⟩
        | charLit c => simp only [hu]; exact ⟨evolvesW_refl S ctx, h1, h3⟩
        | boolLit b => simp only [hu]; exact ⟨evolvesW_refl S ctx, h1, h3⟩
        | nilE => simp only [hu]; exact ⟨evolvesW_refl S ctx, h1, h3⟩
        | selfE => simp only [hu]; exact ⟨evolvesW_refl S ctx, h1, h3⟩
        | ident n st => simp only [hu]; exact ⟨evolvesW_refl S ctx, h1, h3⟩
        | binary op l r => simp only [hu]; exact ⟨evolvesW_refl S ctx, h1, h3⟩
        | unary op i2 => simp only [hu]; exact ⟨evolvesW_refl S ctx, h1, h3⟩
        | index o2 i2 => simp only [hu]; exact ⟨evolvesW_refl S ctx, h1, h3⟩
        | field o2 f2 st => simp only [hu]; exact ⟨evolvesW_refl S ctx, h1, h3⟩
        | send t m => simp only [hu]; exact ⟨evolvesW_refl S ctx, h1, h3⟩
        | spawnE i2 => simp only [hu]; exact ⟨evolvesW_refl S ctx, h1, h3⟩
        | group i2 => simp only [hu]; exact ⟨evolvesW_refl S ctx, h1, h3⟩
      | intLit v => exact ⟨evolvesW_refl S ctx, h1, h3⟩
      | floatLit => exact ⟨evolvesW_refl S ctx, h1, h3⟩
      | stringLit sid => exact ⟨evolvesW_refl S ctx, h1, h3⟩
      | charLit c => exact ⟨evolvesW_refl S ctx, h1, h3⟩
      | boolLit b => exact ⟨evolvesW_refl S ctx, h1, h3⟩
      | nilE => exact ⟨evolvesW_refl S ctx, h1, h3⟩
      | selfE => exact ⟨evolvesW_refl S ctx, h1, h3⟩
      | ident n st => exact ⟨evolvesW_refl S ctx, h1, h3⟩
      | binary op l r => exact ⟨evolvesW_refl S ctx, h1, h3⟩
      | unary op i2 => exact ⟨evolvesW_refl S ctx, h1, h3⟩
      | index o2 i2 => exact ⟨evolvesW_refl S ctx, h1, h3⟩
      | field o2 f2 st => exact ⟨evolvesW_refl S ctx, h1, h3⟩
      | send t m => exact ⟨evolvesW_refl S ctx, h1, h3⟩
      | spawnE i2 => exact ⟨evolvesW_refl S ctx, h1, h3⟩
    | loopS body =>
      obtain ⟨fn, hfn⟩ := Option.isSome_iff_exists.mp h1
      have hcntx : counterOf ctx = fn.blockCounter := by
        simp only [counterOf, hfn]
      simp only [gen_stmt]
      cases hc1 : ir_block_create ctx "loop.body" with
      | mk bodyBb c1 =>
        simp only [hc1]
        have hf1 := block_create_fields ctx "loop.body" fn hfn
        rw [hc1] at hf1
        have hbodyId : bodyBb = fn.blockCounter := hf1.1
        have hcntc1 : counterOf c1 = fn.blockCounter + 1 := hf1.2.1
        have hcurc1 : c1.curBlock = ctx.curBlock := hf1.2.2.1
        have hsomec1 : c1.curFn.isSome = true := hf1.2.2.2
        obtain ⟨fn1, hfn1⟩ := Option.isSome_iff_exists.mp hsomec1
        cases hc2 : ir_block_create c1 "loop.end" with
        | mk endBb c2 =>
          simp only [hc2]
          have hf2 := block_create_fields c1 "loop.end" fn1 hfn1
          rw [hc2] at hf2
          have hendId : endBb = fn1.blockCounter := hf2.1
          have hcntc2 : counterOf c2 = fn1.blockCounter + 1 := hf2.2.1
          have hcurc2 : c2.curBlock = c1.curBlock := hf2.2.2.1
          have hsomec2 : c2.curFn.isSome = true := hf2.2.2.2
          have hcnt1 : counterOf c1 = fn1.blockCounter := by
            simp only [counterOf, hfn1]
          have hbodyv : bodyBb = counterOf ctx := by
            rw [hbodyId, hcntx]
          have hendv : endBb = counterOf ctx + 1 := by
            rw [hendId, ← hcnt1, hcntc1, hcntx]
          have hcnt2 : counterOf c2 = counterOf ctx + 2 := by
            rw [hcntc2, ← hcnt1, hcntc1, hcntx]
          have hSbody : S bodyBb := h2 bodyBb (le_of_eq hbodyv.symm)
          have hSend : S endBb := by
            refine h2 endBb ?_
            rw [hendv]
            exact Nat.le_succ _
          have hfound1 : (blocksFind c1 bodyBb).isSome = true := by
            have := block_create_found ctx "loop.body" fn hfn
            rw [hc1] at this
            rw [hbodyId]
            exact this
          have hfound2b : (blocksFind c2 bodyBb).isSome = true := by
            have := block_create_find_isSome_old c1 "loop.end" bodyBb hfound1
            rw [hc2] at this
            exact this
          have hfound2e : (blocksFind c2 endBb).isSome = true := by
            have := block_create_found c1 "loop.end" fn1 hfn1
            rw [hc2] at this
            rw [hendId]
            exact this
          have hW1 : EvolvesW S ctx c1 := by
            have := block_create_w S ctx "loop.body"
            rw [hc1] at this
            exact this
          have hW2 : EvolvesW S c1 c2 := by
            have := block_create_w S c1 "loop.end"
            rw [hc2] at this
            exact this
          have hcur2 : c2.curBlock = ctx.curBlock := by
            rw [hcurc2, hcurc1]
          have hCurIn2 : CurIn S c2 := by
            intro bid hb
            rw [hcur2] at hb
            exact h3 bid hb
          have hjIn := ir_build_jmp_inPlace c2 bodyBb
          have hW3 : EvolvesW S c2 (ir_build_jmp c2 bodyBb) :=
            hjIn.2.2 S hCurIn2
          have hfound3b : (blocksFind (ir_build_jmp c2 bodyBb) bodyBb).isSome
              = true := inPlace_find_isSome hjIn bodyBb hfound2b
          have hfound3e : (blocksFind (ir_build_jmp c2 bodyBb) endBb).isSome
              = true := inPlace_find_isSome hjIn endBb hfound2e
          have hW4 : EvolvesW S (ir_build_jmp c2 bodyBb)
              { ir_build_jmp c2 bodyBb with
                  breakBb := some endBb, continueBb := some bodyBb,
                  curBlock := some bodyBb } :=
            retarget_w S _ _ bodyBb rfl rfl hfound3b
          have hfn4 : ({ ir_build_jmp c2 bodyBb with
              breakBb := some endBb, continueBb := some bodyBb,
              curBlock := some bodyBb } : GenContext).curFn.isSome = true := by
            show (ir_build_jmp c2 bodyBb).curFn.isSome = true
            rw [inPlace_isSome_eq hjIn, hsomec2]
          have hcnt4 : counterOf ({ ir_build_jmp c2 bodyBb with
              breakBb := some endBb, continueBb := some bodyBb,
              curBlock := some bodyBb } : GenContext) = counterOf ctx + 2 := by
            show counterOf (ir_build_jmp c2 bodyBb) = counterOf ctx + 2
            rw [hjIn.2.1, hcnt2]
          have hsup4 : ∀ n, counterOf ({ ir_build_jmp c2 bodyBb with
              breakBb := some endBb, continueBb := some bodyBb,
              curBlock := some bodyBb } : GenContext) ≤ n → S n := by
            rw [hcnt4]
            intro n hn
            exact h2 n (by omega)
          have hcur4 : CurIn S ({ ir_build_jmp c2 bodyBb with
              breakBb := some endBb, continueBb := some bodyBb,
              curBlock := some bodyBb } : GenContext) := by
            intro bid hb
            simp only [] at hb
            cases hb
            exact hSbody
          obtain ⟨hW5, hfn5, hcur5⟩ := foldl_stmt_w
            (fun cc st => gen_stmt fuel cc st) S
            (fun c a hc1 hc2 hc3 => ih a S c hc1 hc2 hc3) body _
            hfn4 hsup4 hcur4
          have hjIn6 := ir_build_jmp_inPlace
            (body.foldl (fun cc st => gen_stmt fuel cc st)
              { ir_build_jmp c2 bodyBb with
                  breakBb := some endBb, continueBb := some bodyBb,
                  curBlock := some bodyBb }) bodyBb
          have hW6 : EvolvesW S _ _ := hjIn6.2.2 S hcur5
          have hfound6e : (blocksFind (ir_build_jmp
              (body.foldl (fun cc st => gen_stmt fuel cc st)
                { ir_build_jmp c2 bodyBb with
                    breakBb := some endBb, continueBb := some bodyBb,
                    curBlock := some bodyBb }) bodyBb) endBb).isSome
              = true := by
            refine inPlace_find_isSome hjIn6 endBb ?_
            refine evolvesW_find_isSome hW5 endBb ?_
            exact hfound3e
          have hW7 : EvolvesW S (ir_build_jmp
              (body.foldl (fun cc st => gen_stmt fuel cc st)
                { ir_build_jmp c2 bodyBb with
                    breakBb := some endBb, continueBb := some bodyBb,
                    curBlock := some bodyBb }) bodyBb)
              { ir_build_jmp
                (body.foldl (fun cc st => gen_stmt fuel cc st)
                  { ir_build_jmp c2 bodyBb with
                      breakBb := some endBb, continueBb := some bodyBb,
                      curBlock := some bodyBb }) bodyBb with
                breakBb := c2.breakBb, continueBb := c2.continueBb,
                curBlock := some endBb } :=
            retarget_w S _ _ endBb rfl rfl hfound6e
          refine ⟨evolvesW_trans hW1 (evolvesW_trans hW2 (evolvesW_trans hW3
            (evolvesW_trans hW4 (evolvesW_trans hW5 (evolvesW_trans hW6
              hW7))))), ?_, ?_⟩
          · show (ir_build_jmp
              (body.foldl (fun cc st => gen_stmt fuel cc st)
                { ir_build_jmp c2 bodyBb with
                    breakBb := some endBb, continueBb := some bodyBb,
                    curBlock := some bodyBb }) bodyBb).curFn.isSome = true
            rw [inPlace_isSome_eq hjIn6]
            exact hfn5
          · intro bid hb
            simp only [] at hb
            cases hb
            exact hSend
    | ifS cond thenB elseB =>
      simp only [gen_stmt]
      cases hg : gen_expr fuel ctx cond with
      | mk condVal c1 =>
        simp only [hg]
        have hIn1 : EmitsInPlace ctx c1 := by
          have := gen_expr_inPlace fuel cond ctx
          rw [hg] at this
          exact this
        have hW1 : EvolvesW S ctx c1 := hIn1.2.2 S h3
        have hsome1 : c1.curFn.isSome = true := by
          rw [inPlace_isSome_eq hIn1]
          exact h1
        have hcnt1 : counterOf c1 = counterOf ctx := hIn1.2.1
        have hcur1 : c1.curBlock = ctx.curBlock := hIn1.1
        obtain ⟨fn1, hfn1⟩ := Option.isSome_iff_exists.mp hsome1
        have hcntx1 : counterOf c1 = fn1.blockCounter := by
          simp only [counterOf, hfn1]
        cases hc2 : ir_block_create c1 "then" with
        | mk thenBb c2 =>
          simp only [hc2]
          have hf2 := block_create_fields c1 "then" fn1 hfn1
          rw [hc2] at hf2
          have hthenId : thenBb = fn1.blockCounter := hf2.1
          have hcntc2 : counterOf c2 = fn1.blockCounter + 1 := hf2.2.1
          have hcurc2 : c2.curBlock = c1.curBlock := hf2.2.2.1
          have hsome2 : c2.curFn.isSome = true := hf2.2.2.2
          obtain ⟨fn2, hfn2⟩ := Option.isSome_iff_exists.mp hsome2
          have hcntx2 : counterOf c2 = fn2.blockCounter := by
            simp only [counterOf, hfn2]
          cases hc3 : ir_block_create c2 "else" with
          | mk elseBb c3 =>
            simp only [hc3]
            have hf3 := block_create_fields c2 "else" fn2 hfn2
            rw [hc3] at hf3
            have helseId : elseBb = fn2.blockCounter := hf3.1
            have hcntc3 : counterOf c3 = fn2.blockCounter + 1 := hf3.2.1
            have hcurc3 : c3.curBlock = c2.curBlock := hf3.2.2.1
            have hsome3 : c3.curFn.isSome = true := hf3.2.2.2
            obtain ⟨fn3, hfn3⟩ := Option.isSome_iff_exists.mp hsome3
            have hcntx3 : counterOf c3 = fn3.blockCounter := by
              simp only [counterOf, hfn3]
            cases hc4 : ir_block_create c3 "merge" with
            | mk mergeBb c4 =>
              simp only [hc4]
              have hf4 := block_create_fields c3 "merge" fn3 hfn3
              rw [hc4] at hf4
              have hmergeId : mergeBb = fn3.blockCounter := hf4.1
              have hcntc4 : counterOf c4 = fn3.blockCounter + 1 := hf4.2.1
              have hcurc4 : c4.curBlock = c3.curBlock := hf4.2.2.1
              have hsome4 : c4.curFn.isSome = true := hf4.2.2.2
              have e1 : counterOf c2 = counterOf ctx + 1 := by
                rw [hcntc2, ← hcntx1, hcnt1]
              have e2 : counterOf c3 = counterOf ctx + 2 := by
                rw [hcntc3, ← hcntx2, e1]
              have e3 : counterOf c4 = counterOf ctx + 3 := by
                rw [hcntc4, ← hcntx3, e2]
              have hthenv : thenBb = counterOf ctx := by
                rw [hthenId, ← hcntx1, hcnt1]
              have helsev : elseBb = counterOf ctx + 1 := by
                rw [helseId, ← hcntx2, e1]
              have hmergev : mergeBb = counterOf ctx + 2 := by
                rw [hmergeId, ← hcntx3, e2]
              have hSthen : S thenBb := h2 thenBb (le_of_eq hthenv.symm)
              have hSelse : S elseBb := by
                refine h2 elseBb ?_
                rw [helsev]
                omega
              have hSmerge : S mergeBb := by
                refine h2 mergeBb ?_
                rw [hmergev]
                omega
              have hFt2 : (blocksFind c2 thenBb).isSome = true := by
                have := block_create_found c1 "then" fn1 hfn1
                rw [hc2] at this
                rw [hthenId]
                exact this
              have hFt3 : (blocksFind c3 thenBb).isSome = true := by
                have := block_create_find_isSome_old c2 "else" thenBb hFt2
                rw [hc3] at this
                exact this
              have hFt4 : (blocksFind c4 thenBb).isSome = true := by
                have := block_create_find_isSome_old c3 "merge" thenBb hFt3
                rw [hc4] at this
                exact this
              have hFe3 : (blocksFind c3 elseBb).isSome = true := by
                have := block_create_found c2 "else" fn2 hfn2
                rw [hc3] at this
                rw [helseId]
                exact this
              have hFe4 : (blocksFind c4 elseBb).isSome = true := by
                have := block_create_find_isSome_old c3 "merge" elseBb hFe3
                rw [hc4] at this
                exact this
              have hFm4 : (blocksFind c4 mergeBb).isSome = true := by
                have := block_create_found c3 "merge" fn3 hfn3
                rw [hc4] at this
                rw [hmergeId]
                exact this
              have hW2 : EvolvesW S c1 c2 := by
                have := block_create_w S c1 "then"
                rw [hc2] at this
                exact this
              have hW3 : EvolvesW S c2 c3 := by
                have := block_create_w S c2 "else"
                rw [hc3] at this
                exact this
              have hW4 : EvolvesW S c3 c4 := by
                have := block_create_w S c3 "merge"
                rw [hc4] at this
                exact this
              have hcur4 : c4.curBlock = ctx.curBlock := by
                rw [hcurc4, hcurc3, hcurc2, hcur1]
              have hCurIn4 : CurIn S c4 := by
                intro bid hb
                rw [hcur4] at hb
                exact h3 bid hb
              cases elseB with
              | none =>
                set c5 := ir_build_br c4 condVal thenBb mergeBb with hc5
                have hbrIn : EmitsInPlace c4 c5 := by
                  rw [hc5]
                  exact ir_build_br_inPlace c4 condVal thenBb mergeBb
                have hW5 : EvolvesW S c4 c5 := hbrIn.2.2 S hCurIn4
                have hsome5 : c5.curFn.isSome = true := by
                  rw [inPlace_isSome_eq hbrIn]
                  exact hsome4
                have hcnt5 : counterOf c5 = counterOf ctx + 3 := by
                  rw [hbrIn.2.1, e3]
                have hsup5 : ∀ n, counterOf c5 ≤ n → S n := by
                  intro n hn
                  refine h2 n ?_
                  omega
                have hFt5 : (blocksFind c5 thenBb).isSome = true :=
                  inPlace_find_isSome hbrIn thenBb hFt4
                have hFm5 : (blocksFind c5 mergeBb).isSome = true :=
                  inPlace_find_isSome hbrIn mergeBb hFm4
                obtain ⟨hbW, hbFn, hbCur⟩ := branch_w S
                  (fun cc st => gen_stmt fuel cc st)
                  (fun c a hx1 hx2 hx3 => ih a S c hx1 hx2 hx3)
                  c5 thenBb mergeBb thenB hsome5 hsup5 hSthen hFt5
                set c6 := thenB.foldl (fun cc st => gen_stmt fuel cc st)
                  { c5 with curBlock := some thenBb } with hc6
                set c7 := (if needsJmp c6 then ir_build_jmp c6 mergeBb
                  else c6) with hc7
                have hFm7 : (blocksFind c7 mergeBb).isSome = true :=
                  evolvesW_find_isSome hbW mergeBb hFm5
                have hW8 : EvolvesW S c7
                    { c7 with curBlock := some mergeBb } :=
                  retarget_w S c7 _ mergeBb rfl rfl hFm7
                refine ⟨evolvesW_trans hW1 (evolvesW_trans hW2
                  (evolvesW_trans hW3 (evolvesW_trans hW4 (evolvesW_trans hW5
                    (evolvesW_trans hbW hW8))))), ?_, ?_⟩
                · show c7.curFn.isSome = true
                  exact hbFn
                · intro bid hb
                  simp only [] at hb
                  cases hb
                  exact hSmerge
              | some es =>
                set c5 := ir_build_br c4 condVal thenBb elseBb with hc5
                have hbrIn : EmitsInPlace c4 c5 := by
                  rw [hc5]
                  exact ir_build_br_inPlace c4 condVal thenBb elseBb
                have hW5 : EvolvesW S c4 c5 := hbrIn.2.2 S hCurIn4
                have hsome5 : c5.curFn.isSome = true := by
                  rw [inPlace_isSome_eq hbrIn]
                  exact hsome4
                have hcnt5 : counterOf c5 = counterOf ctx + 3 := by
                  rw [hbrIn.2.1, e3]
                have hsup5 : ∀ n, counterOf c5 ≤ n → S n := by
                  intro n hn
                  refine h2 n ?_
                  omega
                have hFt5 : (blocksFind c5 thenBb).isSome = true :=
                  inPlace_find_isSome hbrIn thenBb hFt4
                have hFe5 : (blocksFind c5 elseBb).isSome = true :=
                  inPlace_find_isSome hbrIn elseBb hFe4
                have hFm5 : (blocksFind c5 mergeBb).isSome = true :=
                  inPlace_find_isSome hbrIn mergeBb hFm4
                obtain ⟨hbW, hbFn, hbCur⟩ := branch_w S
                  (fun cc st => gen_stmt fuel cc st)
                  (fun c a hx1 hx2 hx3 => ih a S c hx1 hx2 hx3)
                  c5 thenBb mergeBb thenB hsome5 hsup5 hSthen hFt5
                set c6 := thenB.foldl (fun cc st => gen_stmt fuel cc st)
                  { c5 with curBlock := some thenBb } with hc6
                set c7 := (if needsJmp c6 then ir_build_jmp c6 mergeBb
                  else c6) with hc7
                have hsup7 : ∀ n, counterOf c7 ≤ n → S n := by
                  intro n hn
                  have hmono := hbW.2.1
                  refine h2 n ?_
                  omega
                have hFe7 : (blocksFind c7 elseBb).isSome = true :=
                  evolvesW_find_isSome hbW elseBb hFe5
                have hFm7 : (blocksFind c7 mergeBb).isSome = true :=
                  evolvesW_find_isSome hbW mergeBb hFm5
                obtain ⟨hbeW, hbeFn, hbeCur⟩ := branch_w S
                  (fun cc st => gen_stmt fuel cc st)
                  (fun c a hx1 hx2 hx3 => ih a S c hx1 hx2 hx3)
                  c7 elseBb mergeBb [es] hbFn hsup7 hSelse hFe7
                simp only [List.foldl_cons, List.foldl_nil] at hbeW hbeFn hbeCur
                set ca := gen_stmt fuel { c7 with curBlock := some elseBb }
                  es with hca
                set c8 := (if needsJmp ca then ir_build_jmp ca mergeBb
                  else ca) with hc8
                have hFm8 : (blocksFind c8 mergeBb).isSome = true :=
                  evolvesW_find_isSome hbeW mergeBb hFm7
                have hW9 : EvolvesW S c8
                    { c8 with curBlock := some mergeBb } :=
                  retarget_w S c8 _ mergeBb rfl rfl hFm8
                refine ⟨evolvesW_trans hW1 (evolvesW_trans hW2
                  (evolvesW_trans hW3 (evolvesW_trans hW4 (evolvesW_trans hW5
                    (evolvesW_trans hbW (evolvesW_trans hbeW hW9)))))),
                  ?_, ?_⟩
                · show c8.curFn.isSome = true
                  exact hbeFn
                · intro bid hb
                  simp only [] at hb
                  cases hb
                  exact hSmerge
    | whileS cond body =>
      obtain ⟨fn, hfn⟩ := Option.isSome_iff_exists.mp h1
      have hcntx : counterOf ctx = fn.blockCounter := by
        simp only [counterOf, hfn]
      simp only [gen_stmt]
      cases hc1 : ir_block_create ctx "while.cond" with
      | mk condBb c1 =>
        simp only [hc1]
        have hf1 := block_create_fields ctx "while.cond" fn hfn
        rw [hc1] at hf1
        have hcondId : condBb = fn.blockCounter := hf1.1
        have hcntc1 : counterOf c1 = fn.blockCounter + 1 := hf1.2.1
        have hcurc1 : c1.curBlock = ctx.curBlock := hf1.2.2.1
        have hsome1 : c1.curFn.isSome = true := hf1.2.2.2
        obtain ⟨fn1, hfn1⟩ := Option.isSome_iff_exists.mp hsome1
        have hcntx1 : counterOf c1 = fn1.blockCounter := by
          simp only [counterOf, hfn1]
        cases hc2 : ir_block_create c1 "while.body" with
        | mk bodyBb c2 =>
          simp only [hc2]
          have hf2 := block_create_fields c1 "while.body" fn1 hfn1
          rw [hc2] at hf2
          have hbodyId : bodyBb = fn1.blockCounter := hf2.1
          have hcntc2 : counterOf c2 = fn1.blockCounter + 1 := hf2.2.1
          have hcurc2 : c2.curBlock = c1.curBlock := hf2.2.2.1
          have hsome2 : c2.curFn.isSome = true := hf2.2.2.2
          obtain ⟨fn2, hfn2⟩ := Option.isSome_iff_exists.mp hsome2
          have hcntx2 : counterOf c2 = fn2.blockCounter := by
            simp only [counterOf, hfn2]
          cases hc3 : ir_block_create c2 "while.exit" with
          | mk exitBb c3 =>
            simp only [hc3]
            have hf3 := block_create_fields c2 "while.exit" fn2 hfn2
            rw [hc3] at hf3
            have hexitId : exitBb = fn2.blockCounter := hf3.1
            have hcntc3 : counterOf c3 = fn2.blockCounter + 1 := hf3.2.1
            have hcurc3 : c3.curBlock = c2.curBlock := hf3.2.2.1
            have hsome3 : c3.curFn.isSome = true := hf3.2.2.2
            have e0 : counterOf c1 = counterOf ctx + 1 := by
              rw [hcntc1, hcntx]
            have e1 : counterOf c2 = counterOf ctx + 2 := by
              rw [hcntc2, ← hcntx1, e0]
            have e2 : counterOf c3 = counterOf ctx + 3 := by
              rw [hcntc3, ← hcntx2, e1]
            have hcondv : condBb = counterOf ctx := by
              rw [hcondId, hcntx]
            have hbodyv : bodyBb = counterOf ctx + 1 := by
              rw [hbodyId, ← hcntx1, e0]
            have hexitv : exitBb = counterOf ctx + 2 := by
              rw [hexitId, ← hcntx2, e1]
            have hScond : S condBb := h2 condBb (le_of_eq hcondv.symm)
            have hSbody : S bodyBb := by
              refine h2 bodyBb ?_
              rw [hbodyv]
              omega
            have hSexit : S exitBb := by
              refine h2 exitBb ?_
              rw [hexitv]
              omega
            have hFc1 : (blocksFind c1 condBb).isSome = true := by
              have := block_create_found ctx "while.cond" fn hfn
              rw [hc1] at this
              rw [hcondId]
              exact this
            have hFc2 : (blocksFind c2 condBb).isSome = true := by
              have := block_create_find_isSome_old c1 "while.body" condBb hFc1
              rw [hc2] at this
              exact this
            have hFc3 : (blocksFind c3 condBb).isSome = true := by
              have := block_create_find_isSome_old c2 "while.exit" condBb hFc2
              rw [hc3] at this
              exact this
            have hFb2 : (blocksFind c2 bodyBb).isSome = true := by
              have := block_create_found c1 "while.body" fn1 hfn1
              rw [hc2] at this
              rw [hbodyId]
              exact this
            have hFb3 : (blocksFind c3 bodyBb).isSome = true := by
              have := block_create_find_isSome_old c2 "while.exit" bodyBb hFb2
              rw [hc3] at this
              exact this
            have hFx3 : (blocksFind c3 exitBb).isSome = true := by
              have := block_create_found c2 "while.exit" fn2 hfn2
              rw [hc3] at this
              rw [hexitId]
              exact this
            have hW1 : EvolvesW S ctx c1 := by
              have := block_create_w S ctx "while.cond"
              rw [hc1] at this
              exact this
            have hW2 : EvolvesW S c1 c2 := by
              have := block_create_w S c1 "while.body"
              rw [hc2] at this
              exact this
            have hW3 : EvolvesW S c2 c3 := by
              have := block_create_w S c2 "while.exit"
              rw [hc3] at this
              exact this
            set c4 := ({ c3 with
              breakBb := some exitBb,
              continueBb := some condBb } : GenContext) with hc4
            have hW4 : EvolvesW S c3 c4 := sameBlocks_w S c3 c4 rfl rfl
            have hsome4 : c4.curFn.isSome = true := hsome3
            have hcur4 : c4.curBlock = ctx.curBlock := by
              show c3.curBlock = ctx.curBlock
              rw [hcurc3, hcurc2, hcurc1]
            have hCurIn4 : CurIn S c4 := by
              intro bid hb
              rw [hcur4] at hb
              exact h3 bid hb
            set c5 := ir_build_jmp c4 condBb with hc5
            have hjIn : EmitsInPlace c4 c5 := by
              rw [hc5]
              exact ir_build_jmp_inPlace c4 condBb
            have hW5 : EvolvesW S c4 c5 := hjIn.2.2 S hCurIn4
            have hsome5 : c5.curFn.isSome = true := by
              rw [inPlace_isSome_eq hjIn]
              exact hsome4
            have hFc5 : (blocksFind c5 condBb).isSome = true := by
              refine inPlace_find_isSome hjIn condBb ?_
              exact hFc3
            have hFb5 : (blocksFind c5 bodyBb).isSome = true := by
              refine inPlace_find_isSome hjIn bodyBb ?_
              exact hFb3
            have hFx5 : (blocksFind c5 exitBb).isSome = true := by
              refine inPlace_find_isSome hjIn exitBb ?_
              exact hFx3
            set c6 := ({ c5 with curBlock := some condBb } : GenContext)
              with hc6
            have hW6 : EvolvesW S c5 c6 :=
              retarget_w S c5 c6 condBb rfl rfl hFc5
            have hsome6 : c6.curFn.isSome = true := hsome5
            have hCurIn6 : CurIn S c6 := by
              intro bid hb
              have : some condBb = some bid := hb
              cases this
              exact hScond
            cases hgc : gen_expr fuel c6 cond with
            | mk condVal c7 =>
              simp only [hgc]
              have hIn7 : EmitsInPlace c6 c7 := by
                have := gen_expr_inPlace fuel cond c6
                rw [hgc] at this
                exact this
              have hW7 : EvolvesW S c6 c7 := hIn7.2.2 S hCurIn6
              have hsome7 : c7.curFn.isSome = true := by
                rw [inPlace_isSome_eq hIn7]
                exact hsome6
              have hcnt7 : counterOf c7 = counterOf ctx + 3 := by
                rw [hIn7.2.1]
                show counterOf c5 = counterOf ctx + 3
                rw [hjIn.2.1]
                show counterOf c3 = counterOf ctx + 3
                exact e2
              have hsup7 : ∀ n, counterOf c7 ≤ n → S n := by
                intro n hn
                refine h2 n ?_
                omega
              have hcur7 : c7.curBlock = some condBb := by
                rw [hIn7.1]
              have hCurIn7 : CurIn S c7 := by
                intro bid hb
                rw [hcur7] at hb
                cases hb
                exact hScond
              have hFb6 : (blocksFind c6 bodyBb).isSome = true := hFb5
              have hFx6 : (blocksFind c6 exitBb).isSome = true := hFx5
              have hFb7 : (blocksFind c7 bodyBb).isSome = true :=
                inPlace_find_isSome hIn7 bodyBb hFb6
              have hFx7 : (blocksFind c7 exitBb).isSome = true :=
                inPlace_find_isSome hIn7 exitBb hFx6
              set c8 := ir_build_br c7 condVal bodyBb exitBb with hc8
              have hbrIn : EmitsInPlace c7 c8 := by
                rw [hc8]
                exact ir_build_br_inPlace c7 condVal bodyBb exitBb
              have hW8 : EvolvesW S c7 c8 := hbrIn.2.2 S hCurIn7
              have hsome8 : c8.curFn.isSome = true := by
                rw [inPlace_isSome_eq hbrIn]
                exact hsome7
              have hcnt8 : counterOf c8 = counterOf ctx + 3 := by
                rw [hbrIn.2.1]
                exact hcnt7
              have hsup8 : ∀ n, counterOf c8 ≤ n → S n := by
                intro n hn
                refine h2 n ?_
                omega
              have hFb8 : (blocksFind c8 bodyBb).isSome = true :=
                inPlace_find_isSome hbrIn bodyBb hFb7
              have hFx8 : (blocksFind c8 exitBb).isSome = true :=
                inPlace_find_isSome hbrIn exitBb hFx7
              obtain ⟨hbW, hbFn, hbCur⟩ := branch_w S
                (fun cc st => gen_stmt fuel cc st)
                (fun c a hx1 hx2 hx3 => ih a S c hx1 hx2 hx3)
                c8 bodyBb condBb body hsome8 hsup8 hSbody hFb8
              set c9 := body.foldl (fun cc st => gen_stmt fuel cc st)
                { c8 with curBlock := some bodyBb } with hc9
              set c10 := (if needsJmp c9 then ir_build_jmp c9 condBb
                else c9) with hc10
              have hFx10 : (blocksFind c10 exitBb).isSome = true :=
                evolvesW_find_isSome hbW exitBb hFx8
              have hW11 : EvolvesW S c10
                  { c10 with
                    breakBb := c3.breakBb,
                    continueBb := c3.continueBb,
                    curBlock := some exitBb } :=
                retarget_w S c10 _ exitBb rfl rfl hFx10
              refine ⟨evolvesW_trans hW1 (evolvesW_trans hW2
                (evolvesW_trans hW3 (evolvesW_trans hW4 (evolvesW_trans hW5
                  (evolvesW_trans hW6 (evolvesW_trans hW7 (evolvesW_trans hW8
                    (evolvesW_trans hbW hW11)))))))), ?_, ?_⟩
              · show c10.curFn.isSome = true
                exact hbFn
              · intro bid hb
                simp only [] at hb
                cases hb
                exact hSexit
    | receiveS arms =>
      simp only [gen_stmt]
      cases hcall : ir_build_call ctx (strBytes "arnm_receive")
          [{ ir_val_const_i32 0 with ty := IrType.ptr }] IrType.ptr with
      | mk msgVal c1 =>
        simp only [hcall]
        have hIn1 : EmitsInPlace ctx c1 := by
          have := ir_build_call_inPlace ctx (strBytes "arnm_receive")
            [{ ir_val_const_i32 0 with ty := IrType.ptr }] IrType.ptr
          rw [hcall] at this
          exact this
        cases hfp : ir_build_field_ptr c1 msgVal 0 with
        | mk fptr c2 =>
          simp only [hfp]
          have hIn2 : EmitsInPlace c1 c2 := by
            have := ir_build_field_ptr_inPlace c1 msgVal 0
            rw [hfp] at this
            exact this
          cases hload : ir_build_load c2 IrType.i64 fptr with
          | mk tagVal c3 =>
            simp only [hload]
            have hIn3 : EmitsInPlace c2 c3 := by
              have := ir_build_load_inPlace c2 IrType.i64 fptr
              rw [hload] at this
              exact this
            have hPre : EmitsInPlace ctx c3 :=
              emitsInPlace_trans hIn1 (emitsInPlace_trans hIn2 hIn3)
            by_cases harm : arms.length = 0
            · rw [if_pos harm]
              exact inPlace_result hPre h1 h3
            · rw [if_neg harm]
              have hWpre : EvolvesW S ctx c3 := hPre.2.2 S h3
              have hsome3 : c3.curFn.isSome = true := by
                rw [inPlace_isSome_eq hPre]
                exact h1
              have hcnt3 : counterOf c3 = counterOf ctx := hPre.2.1
              have hcur3 : c3.curBlock = ctx.curBlock := hPre.1
              obtain ⟨fn3, hfn3⟩ := Option.isSome_iff_exists.mp hsome3
              have hcntx3 : counterOf c3 = fn3.blockCounter := by
                simp only [counterOf, hfn3]
              cases hcm : ir_block_create c3 "recv.merge" with
              | mk mergeBb c4 =>
                simp only [hcm]
                have hf4 := block_create_fields c3 "recv.merge" fn3 hfn3
                rw [hcm] at hf4
                have hmergeId : mergeBb = fn3.blockCounter := hf4.1
                have hcntc4 : counterOf c4 = fn3.blockCounter + 1 := hf4.2.1
                have hcurc4 : c4.curBlock = c3.curBlock := hf4.2.2.1
                have hsome4 : c4.curFn.isSome = true := hf4.2.2.2
                obtain ⟨fn4, hfn4⟩ := Option.isSome_iff_exists.mp hsome4
                have hcntx4 : counterOf c4 = fn4.blockCounter := by
                  simp only [counterOf, hfn4]
                cases hcn : ir_block_create c4 "recv.nomatch" with
                | mk nomatchBb c5 =>
                  simp only [hcn]
                  have hf5 := block_create_fields c4 "recv.nomatch" fn4 hfn4
                  rw [hcn] at hf5
                  have hnmId : nomatchBb = fn4.blockCounter := hf5.1
                  have hcntc5 : counterOf c5 = fn4.blockCounter + 1 := hf5.2.1
                  have hcurc5 : c5.curBlock = c4.curBlock := hf5.2.2.1
                  have hsome5 : c5.curFn.isSome = true := hf5.2.2.2
                  have e0 : counterOf c4 = counterOf ctx + 1 := by
                    rw [hcntc4, ← hcntx3, hcnt3]
                  have e1 : counterOf c5 = counterOf ctx + 2 := by
                    rw [hcntc5, ← hcntx4, e0]
                  have hmergev : mergeBb = counterOf ctx := by
                    rw [hmergeId, ← hcntx3, hcnt3]
                  have hnmv : nomatchBb = counterOf ctx + 1 := by
                    rw [hnmId, ← hcntx4, e0]
                  have hSmerge : S mergeBb :=
                    h2 mergeBb (le_of_eq hmergev.symm)
                  have hSnm : S nomatchBb := by
                    refine h2 nomatchBb ?_
                    rw [hnmv]
                    omega
                  have hFm4 : (blocksFind c4 mergeBb).isSome = true := by
                    have := block_create_found c3 "recv.merge" fn3 hfn3
                    rw [hcm] at this
                    rw [hmergeId]
                    exact this
                  have hFm5 : (blocksFind c5 mergeBb).isSome = true := by
                    have := block_create_find_isSome_old c4 "recv.nomatch"
                      mergeBb hFm4
                    rw [hcn] at this
                    exact this
                  have hFn5 : (blocksFind c5 nomatchBb).isSome = true := by
                    have := block_create_found c4 "recv.nomatch" fn4 hfn4
                    rw [hcn] at this
                    rw [hnmId]
                    exact this
                  have hW4 : EvolvesW S c3 c4 := by
                    have := block_create_w S c3 "recv.merge"
                    rw [hcm] at this
                    exact this
                  have hW5 : EvolvesW S c4 c5 := by
                    have := block_create_w S c4 "recv.nomatch"
                    rw [hcn] at this
                    exact this
                  cases hfold : arms.foldl recvArmCreate ([], c5) with
                  | mk armIds c6 =>
                    simp only [hfold]
                    have harmf := recvArmCreate_fold_facts S arms ([], c5)
                      hsome5
                    rw [hfold] at harmf
                    have hW6 : EvolvesW S c5 c6 := harmf.1
                    have hcur6 : c6.curBlock = c5.curBlock := harmf.2.1
                    have hsome6 : c6.curFn.isSome = true := harmf.2.2.1
                    have hcnt6 : counterOf c5 ≤ counterOf c6 :=
                      harmf.2.2.2.1
                    have hids : ∀ id, id ∈ armIds →
                        counterOf c5 ≤ id ∧
                        (blocksFind c6 id).isSome = true := by
                      intro id hid
                      have hor := (harmf.2.2.2.2 id hid).2
                      rcases hor with hin | hx
                      · exact absurd hin (List.not_mem_nil id)
                      · exact hx
                    have hsup6 : ∀ n, counterOf c6 ≤ n → S n := by
                      intro n hn
                      refine h2 n ?_
                      have := hcnt6
                      omega
                    have hCurIn6 : CurIn S c6 := by
                      intro bid hb
                      rw [hcur6, hcurc5, hcurc4, hcur3] at hb
                      exact h3 bid hb
                    have hnmF6 : (blocksFind c6 nomatchBb).isSome = true :=
                      evolvesW_find_isSome hW6 nomatchBb hFn5
                    obtain ⟨hW7, hsome7, hcur7, hnm7⟩ := recvChain_fold_w S
                      tagVal arms.length nomatchBb hSnm
                      ((List.range' 0 arms.length).zip (arms.zip armIds)) c6
                      hsome6 hsup6 hCurIn6 hnmF6
                    set c7 := ((List.range' 0 arms.length).zip
                      (arms.zip armIds)).foldl
                      (recvChainStep tagVal arms.length nomatchBb) c6 with hc7
                    have hW8 : EvolvesW S c7
                        { c7 with curBlock := some nomatchBb } :=
                      retarget_w S c7 _ nomatchBb rfl rfl hnm7
                    have hsome8 : ({ c7 with curBlock := some nomatchBb }
                        : GenContext).curFn.isSome = true := hsome7
                    have hCurIn8 : CurIn S ({ c7 with
                        curBlock := some nomatchBb } : GenContext) := by
                      intro bid hb
                      simp only [] at hb
                      cases hb
                      exact hSnm
                    cases hpc : ir_build_call
                        { c7 with curBlock := some nomatchBb }
                        (strBytes "arnm_panic_nomatch") [] IrType.void with
                    | mk pv c9 =>
                      simp only [hpc]
                      have hIn9 : EmitsInPlace
                          { c7 with curBlock := some nomatchBb } c9 := by
                        have := ir_build_call_inPlace
                          { c7 with curBlock := some nomatchBb }
                          (strBytes "arnm_panic_nomatch") [] IrType.void
                        rw [hpc] at this
                        exact this
                      have hW9 : EvolvesW S
                          { c7 with curBlock := some nomatchBb } c9 :=
                        hIn9.2.2 S hCurIn8
                      have hsome9 : c9.curFn.isSome = true := by
                        rw [inPlace_isSome_eq hIn9]
                        exact hsome8
                      have hCurIn9 : CurIn S c9 := by
                        intro bid hb
                        rw [hIn9.1] at hb
                        exact hCurIn8 bid hb
                      set c10 := ir_build_jmp c9 mergeBb with hc10
                      have hIn10 : EmitsInPlace c9 c10 := by
                        rw [hc10]
                        exact ir_build_jmp_inPlace c9 mergeBb
                      have hW10 : EvolvesW S c9 c10 := hIn10.2.2 S hCurIn9
                      have hsome10 : c10.curFn.isSome = true := by
                        rw [inPlace_isSome_eq hIn10]
                        exact hsome9
                      have hcnt10 : counterOf c6 ≤ counterOf c10 := by
                        have ha := hW7.2.1
                        have hb : counterOf ({ c7 with
                            curBlock := some nomatchBb } : GenContext)
                            = counterOf c7 := rfl
                        have hcn9 := hIn9.2.1
                        have hcn10 := hIn10.2.1
                        omega
                      have hsup10 : ∀ n, counterOf c10 ≤ n → S n := by
                        intro n hn
                        refine hsup6 n ?_
                        omega
                      have hfind10 : ∀ bid,
                          (blocksFind c6 bid).isSome = true →
                          (blocksFind c10 bid).isSome = true := by
                        intro bid hbf
                        refine inPlace_find_isSome hIn10 bid ?_
                        refine inPlace_find_isSome hIn9 bid ?_
                        show (blocksFind c7 bid).isSome = true
                        exact evolvesW_find_isSome hW7 bid hbf
                      obtain ⟨hW11, hsome11⟩ := recvBody_fold_w S
                        (fun g st => gen_stmt fuel g st)
                        (fun c a hx1 hx2 hx3 => ih a S c hx1 hx2 hx3)
                        tagVal mergeBb (arms.zip armIds) c10 hsome10 hsup10
                        (by
                          intro p hp
                          have hpin : p.2 ∈ armIds :=
                            (List.of_mem_zip hp).2
                          obtain ⟨hge, hfound⟩ := hids p.2 hpin
                          refine ⟨?_, hfind10 p.2 hfound⟩
                          refine h2 p.2 ?_
                          have := e1
                          omega)
                      set c11 := (arms.zip armIds).foldl
                        (recvBodyStep (fun g st => gen_stmt fuel g st)
                          tagVal mergeBb) c10 with hc11
                      have hFm11 : (blocksFind c11 mergeBb).isSome = true := by
                        refine evolvesW_find_isSome hW11 mergeBb ?_
                        refine hfind10 mergeBb ?_
                        exact evolvesW_find_isSome hW6 mergeBb hFm5
                      have hW12 : EvolvesW S c11
                          { c11 with curBlock := some mergeBb } :=
                        retarget_w S c11 _ mergeBb rfl rfl hFm11
                      refine ⟨evolvesW_trans hWpre (evolvesW_trans hW4
                        (evolvesW_trans hW5 (evolvesW_trans hW6
                          (evolvesW_trans hW7 (evolvesW_trans hW8
                            (evolvesW_trans hW9 (evolvesW_trans hW10
                              (evolvesW_trans hW11 hW12)))))))), ?_, ?_⟩
                      · show c11.curFn.isSome = true
                        exact hsome11
                      · intro bid hb
                        simp only [] at hb
                        cases hb
                        exact hSmerge

lemma foldl_inPlace {α : Type} (f : GenContext → α → GenContext)
    (hf : ∀ c a, EmitsInPlace c (f c a)) :
    ∀ (l : List α) (c : GenContext), EmitsInPlace c (l.foldl f c) := by
  intro l
  induction l with
  | nil => intro c; exact emitsInPlace_refl c
  | cons a rest ih =>
    intro c
    exact emitsInPlace_trans (hf c a) (ih (f c a))

lemma inPlace_good {c c' : GenContext} (h : EmitsInPlace c c') :
    Good c → Good c' :=
  (h.2.2 (fun _ => True) (fun _ _ => trivial)).1

lemma blocksFind_elim {c : GenContext} {bid : Nat} {blk : IrBlock}
    (h : blocksFind c bid = some blk) :
    ∃ fn, c.curFn = some fn ∧
      fn.blocks.find? (fun b => b.id = bid) = some blk := by
  unfold blocksFind at h
  cases hf : c.curFn with
  | none =>
    rw [hf] at h
    cases h
  | some fn =>
    rw [hf] at h
    exact ⟨fn, rfl, h⟩

/-- C1 (counterexample): the program `fn f() -> i32 {}` is lowered to a
function whose entry block is empty — it has no terminator at all, and
none is synthesized (the fall-through synthesis only runs for functions
with a void return type), so the claimed block invariant fails. -/
theorem c1_counterexample :
    ∃ fnS, fnS ∈ irModuleOf
        (ir_generate 5 (sema_analyze 20 sema_init
          [AstDecl.fnD { name := strBytes "f", params := [],
                         hasReturnType := true, body := some [] }]).2
          [AstDecl.fnD { name := strBytes "f", params := [],
                         hasReturnType := true, body := some [] }]) ∧
      ∃ b, b ∈ fnS.blocks ∧ ¬ blockWellTerminated b := by
  decide

/-- The fall-through tail of `gen_func` for a void return type: the chained
behavior call (if any) and the synthesized `RetVoid` leave the current
block ending in a `Ret`. -/
lemma gen_func_tail_ret (c5 : GenContext) (chain : Option (List Nat))
    (hGood : Good c5) :
    ∃ fnS bid blk i,
      (free_locals (ir_build_ret_void (match chain with
        | some cn => (ir_build_call c5 cn [] IrType.void).2
        | none => c5))).curFn = some fnS ∧
      (free_locals (ir_build_ret_void (match chain with
        | some cn => (ir_build_call c5 cn [] IrType.void).2
        | none => c5))).curBlock = some bid ∧
      fnS.blocks.find? (fun b => b.id = bid) = some blk ∧
      blk.instrs.getLast? = some i ∧ i.op = IrOpcode.ret := by
  have hca : ∃ ca, (match chain with
      | some cn => (ir_build_call c5 cn [] IrType.void).2
      | none => c5) = ca ∧ EmitsInPlace c5 ca := by
    cases chain with
    | none => exact ⟨c5, rfl, emitsInPlace_refl c5⟩
    | some cn =>
      exact ⟨(ir_build_call c5 cn [] IrType.void).2, rfl,
        ir_build_call_inPlace c5 cn [] IrType.void⟩
  obtain ⟨ca, hcaEq, hcaIn⟩ := hca
  rw [hcaEq]
  have hGoodCa : Good ca := inPlace_good hcaIn hGood
  obtain ⟨fnA, bidA, hfA, hbA, hwfA, hfindA⟩ := good_elim hGoodCa
  have hfindA' : (blocksFind ca bidA).isSome = true := by
    unfold blocksFind
    rw [hfA]
    exact hfindA
  cases hblk : blocksFind ca bidA with
  | none =>
    rw [hblk] at hfindA'
    cases hfindA'
  | some blkA =>
    have hemit := emit_find_cur ca { op := IrOpcode.ret, op1 := undefVal }
      bidA blkA hbA hblk
    have hemit2 : blocksFind (free_locals (ir_build_ret_void ca)) bidA
        = some { blkA with
            instrs :=
              blkA.instrs ++ [{ op := IrOpcode.ret, op1 := undefVal }] } :=
      hemit
    obtain ⟨fnR, hfnR, hfindR⟩ := blocksFind_elim hemit2
    refine ⟨fnR, bidA, _, { op := IrOpcode.ret, op1 := undefVal },
      hfnR, ?_, hfindR, ?_, rfl⟩
    · show (emit ca { op := IrOpcode.ret, op1 := undefVal }).curBlock
        = some bidA
      rw [emit_curBlock]
      exact hbA
    · exact List.getLast?_concat _

set_option maxHeartbeats 1000000 in
/-- C1 (amended): for every function without a declared return type (so
its IR return type is void), `gen_func` synthesizes the fall-through
terminator: the final current block exists in the generated function and
its last instruction is a `Ret`. -/
theorem c1_void_fallthrough_ret (fuel : Nat) (ctx : GenContext)
    (fn : AstFnDecl) (override chain : Option (List Nat))
    (hvoid : fn.hasReturnType = false) :
    ∃ fnS bid blk i,
      (gen_func fuel ctx fn override chain).curFn = some fnS ∧
      (gen_func fuel ctx fn override chain).curBlock = some bid ∧
      fnS.blocks.find? (fun b => b.id = bid) = some blk ∧
      blk.instrs.getLast? = some i ∧ i.op = IrOpcode.ret := by
  have hret : (if fn.hasReturnType then IrType.i32 else IrType.void)
      = IrType.void := by
    rw [hvoid]
    decide
  unfold gen_func
  rw [hret]
  dsimp only
  rw [if_pos rfl]
  have hc1fn : (ir_function_create ctx (override.getD fn.name) IrType.void
      (fn.params.map (fun _ => IrType.i32))).curFn
      = some { name := override.getD fn.name, retType := IrType.void,
               paramTypes := fn.params.map (fun _ => IrType.i32),
               blocks := [],
               vregCounter := (fn.params.map (fun _ => IrType.i32)).length,
               blockCounter := 0 } := rfl
  cases hc2 : ir_block_create (ir_function_create ctx
      (override.getD fn.name) IrType.void
      (fn.params.map (fun _ => IrType.i32))) "entry" with
  | mk entryBb c2 =>
    simp only [hc2]
    have hf2 := block_create_fields _ "entry" _ hc1fn
    rw [hc2] at hf2
    have hentryId : entryBb = 0 := hf2.1
    have hc2fn : c2.curFn = some
        { name := override.getD fn.name, retType := IrType.void,
          paramTypes := fn.params.map (fun _ => IrType.i32),
          blocks := [⟨0, "entry", []⟩],
          vregCounter := (fn.params.map (fun _ => IrType.i32)).length,
          blockCounter := 1 } := by
      have : (ir_block_create (ir_function_create ctx
          (override.getD fn.name) IrType.void
          (fn.params.map (fun _ => IrType.i32))) "entry").2.curFn = some
          { name := override.getD fn.name, retType := IrType.void,
            paramTypes := fn.params.map (fun _ => IrType.i32),
            blocks := [⟨0, "entry", []⟩],
            vregCounter := (fn.params.map (fun _ => IrType.i32)).length,
            blockCounter := 1 } := by
        simp only [ir_block_create, hc1fn]
        rfl
      rw [hc2] at this
      exact this
    have hGood3 : Good { c2 with curBlock := some entryBb, locals := [] } := by
      have hcf : ({ c2 with curBlock := some entryBb, locals := [] }
          : GenContext).curFn = some
          { name := override.getD fn.name, retType := IrType.void,
            paramTypes := fn.params.map (fun _ => IrType.i32),
            blocks := [⟨0, "entry", []⟩],
            vregCounter := (fn.params.map (fun _ => IrType.i32)).length,
            blockCounter := 1 } := hc2fn
      have hcb : ({ c2 with curBlock := some entryBb, locals := [] }
          : GenContext).curBlock = some entryBb := rfl
      rw [good_iff hcf hcb]
      constructor
      · intro b hb
        rw [List.mem_singleton] at hb
        rw [hb]
        exact Nat.zero_lt_one
      · rw [hentryId]
        rfl
    have hIn4 : EmitsInPlace
        { c2 with curBlock := some entryBb, locals := [] }
        ((fn.params.enum).foldl
          (fun cc p =>
            let argVal := ir_val_var p.1 IrType.i32
            let (slot, ca) := ir_build_alloca cc IrType.i32
            let cb := ir_build_store ca argVal slot
            add_local cb p.2.name slot IrType.i32)
          { c2 with curBlock := some entryBb, locals := [] }) := by
      refine foldl_inPlace _ ?_ _ _
      intro c a
      exact letS_tail_inPlace c (ir_val_var a.1 IrType.i32) a.2.name
        IrType.i32
    set c4 := (fn.params.enum).foldl
      (fun cc p =>
        let argVal := ir_val_var p.1 IrType.i32
        let (slot, ca) := ir_build_alloca cc IrType.i32
        let cb := ir_build_store ca argVal slot
        add_local cb p.2.name slot IrType.i32)
      { c2 with curBlock := some entryBb, locals := [] } with hc4
    have hGood4 : Good c4 := inPlace_good hIn4 hGood3
    have hsome4 : c4.curFn.isSome = true := by
      obtain ⟨f4, b4, hf4, _, _, _⟩ := good_elim hGood4
      rw [hf4]
      rfl
    have hc5 : ∃ c5, (match fn.body with
        | some stmts => stmts.foldl (fun cc st => gen_stmt fuel cc st) c4
        | none => c4) = c5 ∧ Good c5 := by
      cases fn.body with
      | none => exact ⟨c4, rfl, hGood4⟩
      | some stmts =>
        obtain ⟨hW, _, _⟩ := foldl_stmt_w (fun cc st => gen_stmt fuel cc st)
          (fun _ => True)
          (fun c a hx1 _ _ => by
            obtain ⟨hw, hfn', hcur⟩ := gen_stmt_w fuel a (fun _ => True) c
              hx1 (fun _ _ => trivial) (fun _ _ => trivial)
            exact ⟨hw, hfn', hcur⟩)
          stmts c4 hsome4 (fun _ _ => trivial) (fun _ _ => trivial)
        exact ⟨_, rfl, hW.1 hGood4⟩
    obtain ⟨c5, hc5Eq, hGood5⟩ := hc5
    rw [hc5Eq]
    obtain ⟨fn5, bid5, hf5, hb5, hwf5, hfind5⟩ := good_elim hGood5
    cases hfind : fn5.blocks.find? (fun b => b.id = bid5) with
    | none =>
      rw [hfind] at hfind5
      cases hfind5
    | some blk5 =>
      have htail : curBlockTail c5 = blk5.instrs.getLast? := by
        unfold curBlockTail
        rw [hf5, hb5]
        simp only [hfind]
      cases hlast : blk5.instrs.getLast? with
      | none =>
        have hct : curBlockTail c5 = none := by rw [htail, hlast]
        rw [hct, if_pos rfl]
        exact gen_func_tail_ret c5 chain hGood5
      | some i =>
        have hct : curBlockTail c5 = some i := by rw [htail, hlast]
        rw [hct]
        by_cases hop : i.op = IrOpcode.ret
        · rw [if_neg (by simp only [decide_eq_true_eq]; exact not_not_intro hop)]
          refine ⟨fn5, bid5, blk5, i, hf5, hb5, hfind, ?_, hop⟩
          rw [hlast]
        · rw [if_pos (decide_eq_true hop)]
          exact gen_func_tail_ret c5 chain hGood5

/-- Witness: the amended C1 theorem at a concrete void function. -/
theorem c1_void_fallthrough_ret_witness :
    ({ name := strBytes "g", params := [], hasReturnType := false,
       body := some [] } : AstFnDecl).hasReturnType = false ∧
    ∃ fnS bid blk i,
      (gen_func 5 (initGenContext sema_init.symbols sema_init.store)
        { name := strBytes "g", params := [], hasReturnType := false,
          body := some [] } none none).curFn = some fnS ∧
      (gen_func 5 (initGenContext sema_init.symbols sema_init.store)
        { name := strBytes "g", params := [], hasReturnType := false,
          body := some [] } none none).curBlock = some bid ∧
      fnS.blocks.find? (fun b => b.id = bid) = some blk ∧
      blk.instrs.getLast? = some i ∧ i.op = IrOpcode.ret :=
  ⟨rfl, c1_void_fallthrough_ret 5
    (initGenContext sema_init.symbols sema_init.store)
    { name := strBytes "g", params := [], hasReturnType := false,
      body := some [] } none none rfl⟩

set_option maxHeartbeats 1000000 in
/-- C5: whenever the spawn callee names a target (a bare identifier or an
`A.m` field of an identifier), `gen_spawn_call` appends to the current
block one `Call` to `arnm_spawn` with exactly three arguments — the
`Global` of the computed target name, the lowered first user argument (a
null pointer constant when there are none), and the computed state size as
an i64 constant — and the target name/state size follow the mangling and
`8 * field_count` rules of `spawn_target_info`. -/
theorem c5_spawn_call_shape (fuel : Nat) (ctx : GenContext)
    (callee : AstExpr) (args : List AstExpr)
    (targetName : List Nat) (stateSize : Nat)
    (hGood : Good ctx)
    (hT : spawnTargetInfo ctx callee = some (targetName, stateSize)) :
    ∃ bid blk arg1,
      ctx.curBlock = some bid ∧
      (gen_spawn_call fuel ctx callee args).2.curBlock = some bid ∧
      blocksFind (gen_spawn_call fuel ctx callee args).2 bid = some blk ∧
      blk.instrs.getLast? = some
        { op := IrOpcode.callOp, ty := IrType.ptr,
          result := (gen_spawn_call fuel ctx callee args).1,
          op1 := { kind := IrValueKind.valGlobal, ty := IrType.ptr,
                   gname := strBytes "arnm_spawn" },
          args := [{ kind := IrValueKind.valGlobal, ty := IrType.ptr,
                     gname := targetName }, arg1,
                   { ir_val_const_i32 (Int.ofNat stateSize) with
                     ty := IrType.i64 }] } ∧
      (args = [] → arg1 = { ir_val_const_i32 0 with ty := IrType.ptr }) ∧
      (∀ a rest, args = a :: rest →
        arg1 = { (gen_expr fuel ctx a).1 with ty := IrType.ptr }) ∧
      (∀ name st sym, callee = AstExpr.ident name st →
        symbol_lookup ctx.symbols name = some sym →
        sym.kind = SymbolKind.actorSym →
        targetName = name ++ strBytes "_init" ∧
        stateSize = (match sym.type with
          | some t => (actorFieldsOf (getNode ctx.store t)).length * 8
          | none => 0)) ∧
      (∀ name st sym, callee = AstExpr.ident name st →
        symbol_lookup ctx.symbols name = some sym →
        sym.kind ≠ SymbolKind.actorSym →
        targetName = name ∧ stateSize = 0) ∧
      (∀ name st, callee = AstExpr.ident name st →
        symbol_lookup ctx.symbols name = none →
        targetName = name ∧ stateSize = 0) ∧
      (∀ objName ost fname st,
        callee = AstExpr.field (AstExpr.ident objName ost) fname st →
        targetName = objName ++ [95] ++ fname) := by
  have hchar1 : ∀ name st sym, callee = AstExpr.ident name st →
      symbol_lookup ctx.symbols name = some sym →
      sym.kind = SymbolKind.actorSym →
      targetName = name ++ strBytes "_init" ∧
      stateSize = (match sym.type with
        | some t => (actorFieldsOf (getNode ctx.store t)).length * 8
        | none => 0) := by
    intro name st sym hc hl hk
    rw [hc] at hT
    simp only [spawnTargetInfo, hl] at hT
    rw [if_pos hk] at hT
    have := Option.some.inj hT
    exact ⟨(Prod.ext_iff.mp this).1.symm, (Prod.ext_iff.mp this).2.symm⟩
  have hchar2 : ∀ name st sym, callee = AstExpr.ident name st →
      symbol_lookup ctx.symbols name = some sym →
      sym.kind ≠ SymbolKind.actorSym →
      targetName = name ∧ stateSize = 0 := by
    intro name st sym hc hl hk
    rw [hc] at hT
    simp only [spawnTargetInfo, hl] at hT
    rw [if_neg hk] at hT
    have := Option.some.inj hT
    exact ⟨(Prod.ext_iff.mp this).1.symm, (Prod.ext_iff.mp this).2.symm⟩
  have hchar3 : ∀ name st, callee = AstExpr.ident name st →
      symbol_lookup ctx.symbols name = none →
      targetName = name ∧ stateSize = 0 := by
    intro name st hc hl
    rw [hc] at hT
    simp only [spawnTargetInfo, hl] at hT
    have := Option.some.inj hT
    exact ⟨(Prod.ext_iff.mp this).1.symm, (Prod.ext_iff.mp this).2.symm⟩
  have hchar4 : ∀ objName ost fname st,
      callee = AstExpr.field (AstExpr.ident objName ost) fname st →
      targetName = objName ++ [95] ++ fname := by
    intro objName ost fname st hc
    rw [hc] at hT
    simp only [spawnTargetInfo] at hT
    have := Option.some.inj hT
    exact (Prod.ext_iff.mp this).1.symm
  obtain ⟨fn0, bid, hf0, hb0, hwf0, hfind0⟩ := good_elim hGood
  have hfind0' : (blocksFind ctx bid).isSome = true := by
    unfold blocksFind
    rw [hf0]
    exact hfind0
  cases args with
  | nil =>
    cases hfv : freshVreg ctx with
    | mk v c1 =>
      have hbf1 : blocksFind c1 = blocksFind ctx := by
        have := (freshVreg_fields ctx).1
        rw [hfv] at this
        exact this
      have hcb1 : c1.curBlock = ctx.curBlock := by
        have := (freshVreg_fields ctx).2.2.1
        rw [hfv] at this
        exact this
      cases hblk : blocksFind ctx bid with
      | none =>
        rw [hblk] at hfind0'
        cases hfind0'
      | some blk0 =>
        have hEq : gen_spawn_call fuel ctx callee []
            = (ir_val_var v IrType.ptr,
               emit c1
                 { op := IrOpcode.callOp, ty := IrType.ptr,
                   result := ir_val_var v IrType.ptr,
                   op1 := { kind := IrValueKind.valGlobal,
                            ty := IrType.ptr,
                            gname := strBytes "arnm_spawn" },
                   args := [{ kind := IrValueKind.valGlobal,
                              ty := IrType.ptr, gname := targetName },
                            { ir_val_const_i32 0 with ty := IrType.ptr },
                            { ir_val_const_i32 (Int.ofNat stateSize) with
                              ty := IrType.i64 }] }) := by
          simp [gen_spawn_call, genSpawnCallWith, hT, ir_build_call, hfv]
        rw [hEq]
        have hfb : blocksFind c1 bid = some blk0 := by
          rw [hbf1]
          exact hblk
        have hcb1' : c1.curBlock = some bid := by
          rw [hcb1]
          exact hb0
        refine ⟨bid, _, { ir_val_const_i32 0 with ty := IrType.ptr },
          hb0, ?_, emit_find_cur c1 _ bid blk0 hcb1' hfb, ?_,
          fun _ => rfl, ?_, hchar1, hchar2, hchar3, hchar4⟩
        · rw [emit_curBlock]
          exact hcb1'
        · exact List.getLast?_concat _
        · intro a rest h
          exact List.noConfusion h
  | cons a rest =>
    cases hga : gen_expr fuel ctx a with
    | mk av c1 =>
      have hIn1 : EmitsInPlace ctx c1 := by
        have := gen_expr_inPlace fuel a ctx
        rw [hga] at this
        exact this
      have hGood1 : Good c1 := inPlace_good hIn1 hGood
      have hcb1 : c1.curBlock = some bid := by
        rw [hIn1.1]
        exact hb0
      have hfind1 : (blocksFind c1 bid).isSome = true :=
        inPlace_find_isSome hIn1 bid hfind0'
      cases hfv : freshVreg c1 with
      | mk v c2 =>
        have hbf2 : blocksFind c2 = blocksFind c1 := by
          have := (freshVreg_fields c1).1
          rw [hfv] at this
          exact this
        have hcb2 : c2.curBlock = c1.curBlock := by
          have := (freshVreg_fields c1).2.2.1
          rw [hfv] at this
          exact this
        cases hblk : blocksFind c1 bid with
        | none =>
          rw [hblk] at hfind1
          cases hfind1
        | some blk1 =>
          have hEq : gen_spawn_call fuel ctx callee (a :: rest)
              = (ir_val_var v IrType.ptr,
                 emit c2
                   { op := IrOpcode.callOp, ty := IrType.ptr,
                     result := ir_val_var v IrType.ptr,
                     op1 := { kind := IrValueKind.valGlobal,
                              ty := IrType.ptr,
                              gname := strBytes "arnm_spawn" },
                     args := [{ kind := IrValueKind.valGlobal,
                                ty := IrType.ptr, gname := targetName },
                              { av with ty := IrType.ptr },
                              { ir_val_const_i32 (Int.ofNat stateSize) with
                                ty := IrType.i64 }] }) := by
            simp [gen_spawn_call, genSpawnCallWith, hT, ir_build_call, hga,
              hfv]
          rw [hEq]
          have hfb : blocksFind c2 bid = some blk1 := by
            rw [hbf2]
            exact hblk
          have hcb2' : c2.curBlock = some bid := by
            rw [hcb2]
            exact hcb1
          refine ⟨bid, _, { av with ty := IrType.ptr },
            hb0, ?_, emit_find_cur c2 _ bid blk1 hcb2' hfb, ?_,
            ?_, ?_, hchar1, hchar2, hchar3, hchar4⟩
          · rw [emit_curBlock]
            exact hcb2'
          · exact List.getLast?_concat _
          · intro h
            exact List.noConfusion h
          · intro a' rest' h
            obtain ⟨h1, h2⟩ := List.cons.inj h
            subst h1
            rw [hga]

/-- A minimal well-formed generation context: one function under
construction with an empty entry block as current block. -/
def fnState0 : IrFunState :=
  { name := strBytes "main", retType := IrType.void, paramTypes := [],
    blocks := [⟨0, "entry", []⟩], vregCounter := 0, blockCounter := 1 }

def goodCtx0 : GenContext :=
  { symbols := symtab_init, store := initStore, done := [],
    curFn := some fnState0, curBlock := some 0, curActorType := none,
    breakBb := none, continueBb := none, locals := [] }

/-- Witness: C5 at a concrete spawn of a plain function with no
arguments. -/
theorem c5_spawn_call_shape_witness :
    Good goodCtx0 ∧
    spawnTargetInfo goodCtx0 (AstExpr.ident (strBytes "f") none)
      = some (strBytes "f", 0) ∧
    (∃ bid blk arg1,
      goodCtx0.curBlock = some bid ∧
      (gen_spawn_call 3 goodCtx0 (AstExpr.ident (strBytes "f") none)
        []).2.curBlock = some bid ∧
      blocksFind (gen_spawn_call 3 goodCtx0
        (AstExpr.ident (strBytes "f") none) []).2 bid = some blk ∧
      blk.instrs.getLast? = some
        { op := IrOpcode.callOp, ty := IrType.ptr,
          result := (gen_spawn_call 3 goodCtx0
            (AstExpr.ident (strBytes "f") none) []).1,
          op1 := { kind := IrValueKind.valGlobal, ty := IrType.ptr,
                   gname := strBytes "arnm_spawn" },
          args := [{ kind := IrValueKind.valGlobal, ty := IrType.ptr,
                     gname := strBytes "f" }, arg1,
                   { ir_val_const_i32 (Int.ofNat 0) with
                     ty := IrType.i64 }] } ∧
      (([] : List AstExpr) = [] →
        arg1 = { ir_val_const_i32 0 with ty := IrType.ptr }) ∧
      (∀ a rest, ([] : List AstExpr) = a :: rest →
        arg1 = { (gen_expr 3 goodCtx0 a).1 with ty := IrType.ptr }) ∧
      (∀ name st sym, AstExpr.ident (strBytes "f") none
          = AstExpr.ident name st →
        symbol_lookup goodCtx0.symbols name = some sym →
        sym.kind = SymbolKind.actorSym →
        strBytes "f" = name ++ strBytes "_init" ∧
        0 = (match sym.type with
          | some t => (actorFieldsOf (getNode goodCtx0.store t)).length * 8
          | none => 0)) ∧
      (∀ name st sym, AstExpr.ident (strBytes "f") none
          = AstExpr.ident name st →
        symbol_lookup goodCtx0.symbols name = some sym →
        sym.kind ≠ SymbolKind.actorSym →
        strBytes "f" = name ∧ (0 : Nat) = 0) ∧
      (∀ name st, AstExpr.ident (strBytes "f") none
          = AstExpr.ident name st →
        symbol_lookup goodCtx0.symbols name = none →
        strBytes "f" = name ∧ (0 : Nat) = 0) ∧
      (∀ objName ost fname st,
        AstExpr.ident (strBytes "f") none
          = AstExpr.field (AstExpr.ident objName ost) fname st →
        strBytes "f" = objName ++ [95] ++ fname)) :=
  ⟨by decide, by decide,
   c5_spawn_call_shape 3 goodCtx0 (AstExpr.ident (strBytes "f") none) []
     (strBytes "f") 0 (by decide) (by decide)⟩

set_option maxHeartbeats 2000000 in
/-- The comparison chain of the receive lowering, processed exactly: each
arm's chain block ends in the equality comparison against the arm's
expected tag constant followed by the branch to the arm's block (with the
next check block, or the no-match block after the last arm, as the false
target); untouched blocks — in particular the no-match block — keep their
contents verbatim. -/
lemma recvChain_fold_exact (tagVal : IrValue) (armsLen nomatchBb : Nat) :
    ∀ (pairs : List ((List Nat × Option (List AstStmt)) × Nat)) (i0 : Nat)
      (cc : GenContext) (curB : Nat) (curBlk nmBlk : IrBlock),
      Good cc → cc.curBlock = some curB →
      blocksFind cc curB = some curBlk →
      curB < counterOf cc →
      nomatchBb < counterOf cc →
      nomatchBb ≠ curB →
      blocksFind cc nomatchBb = some nmBlk →
      i0 + pairs.length = armsLen →
      ∃ (out : GenContext) (chainIds : List Nat),
        ((List.range' i0 pairs.length).zip pairs).foldl
          (recvChainStep tagVal armsLen nomatchBb) cc = out ∧
        chainIds.length = pairs.length ∧
        (pairs = [] → out = cc) ∧
        (pairs ≠ [] →
          out.curBlock = some nomatchBb ∧ chainIds[0]? = some curB) ∧
        Good out ∧
        counterOf cc ≤ counterOf out ∧
        blocksFind out nomatchBb = some nmBlk ∧
        (∀ bid blk, blocksFind cc bid = some blk → bid ≠ curB →
          bid < counterOf cc → blocksFind out bid = some blk) ∧
        (∀ id, id ∈ chainIds → id = curB ∨
          (counterOf cc ≤ id ∧ id < counterOf out)) ∧
        (∀ j pr, pairs[j]? = some pr →
          ∃ cid blk pre cv nxt,
            chainIds[j]? = some cid ∧
            blocksFind out cid = some blk ∧
            blk.instrs = pre ++
              [{ op := IrOpcode.eqOp, ty := IrType.bool, result := cv,
                 op1 := tagVal,
                 op2 := ir_val_const_i32 (int32OfU32
                   (expectedTagOf pr.1.1)) },
               { op := IrOpcode.br, op1 := cv, target1 := some pr.2,
                 target2 := some nxt }] ∧
            ((j + 1 < pairs.length ∧ chainIds[j + 1]? = some nxt) ∨
             (j + 1 = pairs.length ∧ nxt = nomatchBb))) := by
  intro pairs
  induction pairs with
  | nil =>
    intro i0 cc curB curBlk nmBlk hGood hcur hcblk hclt hnlt hne hnm hlen
    refine ⟨cc, [], rfl, rfl, fun _ => rfl, fun h => absurd rfl h, hGood,
      le_refl _, hnm, fun bid blk h _ _ => h, ?_, ?_⟩
    · intro id hid
      exact absurd hid (List.not_mem_nil id)
    · intro j pr hj
      simp at hj
  | cons pr rest ih =>
    intro i0 cc curB curBlk nmBlk hGood hcur hcblk hclt hnlt hne hnm hlen
    have hlist : ((List.range' i0 (pr :: rest).length).zip (pr :: rest))
        = (i0, pr) :: ((List.range' (i0 + 1) rest.length).zip rest) := by
      show ((List.range' i0 (rest.length + 1)).zip (pr :: rest)) = _
      rw [List.range'_succ]
      rfl
    cases hfv : freshVreg cc with
    | mk v c1 =>
      have hcmpEq : ir_build_cmp cc IrOpcode.eqOp tagVal
          (ir_val_const_i32 (int32OfU32 (expectedTagOf pr.1.1)))
          = (ir_val_var v IrType.bool,
             emit c1
               { op := IrOpcode.eqOp, ty := IrType.bool,
                 result := ir_val_var v IrType.bool, op1 := tagVal,
                 op2 := ir_val_const_i32 (int32OfU32
                   (expectedTagOf pr.1.1)) }) := by
        simp only [ir_build_cmp, hfv]
      have hstep : recvChainStep tagVal armsLen nomatchBb cc (i0, pr)
          = (let cmpV := ir_val_var v IrType.bool
             let ca := emit c1
               { op := IrOpcode.eqOp, ty := IrType.bool,
                 result := ir_val_var v IrType.bool, op1 := tagVal,
                 op2 := ir_val_const_i32 (int32OfU32
                   (expectedTagOf pr.1.1)) }
             let (nextCheck, cb) :=
               if i0 + 1 < armsLen then ir_block_create ca "recv.check"
               else (nomatchBb, ca)
             let cd := ir_build_br cb cmpV pr.2 nextCheck
             { cd with curBlock := some nextCheck }) := by
        simp only [recvChainStep, hcmpEq]
      have hc1bf : blocksFind c1 = blocksFind cc := by
        have := (freshVreg_fields cc).1
        rw [hfv] at this
        exact this
      have hc1cur : c1.curBlock = some curB := by
        have := (freshVreg_fields cc).2.2.1
        rw [hfv] at this
        rw [this]
        exact hcur
      have hc1cnt : counterOf c1 = counterOf cc := by
        have := (freshVreg_fields cc).2.1
        rw [hfv] at this
        exact this
      have hc1good : Good c1 := by
        have := (freshVreg_fields cc).2.2.2.2
        rw [hfv] at this
        exact this hGood
      set icmp : IrInstr :=
        { op := IrOpcode.eqOp, ty := IrType.bool,
          result := ir_val_var v IrType.bool, op1 := tagVal,
          op2 := ir_val_const_i32 (int32OfU32 (expectedTagOf pr.1.1)) }
        with hicmp
      have hcaGood : Good (emit c1 icmp) := emit_good c1 icmp hc1good
      have hcaCur : (emit c1 icmp).curBlock = some curB := by
        rw [emit_curBlock]
        exact hc1cur
      have hcaCnt : counterOf (emit c1 icmp) = counterOf cc := by
        rw [emit_counterOf]
        exact hc1cnt
      have hcaCurB : blocksFind (emit c1 icmp) curB
          = some { curBlk with instrs := curBlk.instrs ++ [icmp] } := by
        refine emit_find_cur c1 icmp curB curBlk hc1cur ?_
        rw [hc1bf]
        exact hcblk
      have hcaNm : blocksFind (emit c1 icmp) nomatchBb = some nmBlk := by
        rw [emit_find_of_ne c1 icmp nomatchBb ?_, hc1bf]
        · exact hnm
        · rw [hc1cur]
          intro hx
          exact hne (Option.some.inj hx).symm
      by_cases hlt : i0 + 1 < armsLen
      · -- not the last arm: a fresh check block is created
        have hrestne : rest ≠ [] := by
          intro hx
          rw [hx] at hlen
          simp at hlen
          omega
        obtain ⟨fnA, hfnA⟩ := Option.isSome_iff_exists.mp
          (good_curFn_isSome hcaGood)
        have hwfA : ∀ b ∈ fnA.blocks, b.id < fnA.blockCounter := by
          obtain ⟨fnX, bidX, hfX, hbX, hwfX, _⟩ := good_elim hcaGood
          rw [hfX] at hfnA
          cases hfnA
          exact hwfX
        have hcntA : counterOf (emit c1 icmp) = fnA.blockCounter := by
          simp only [counterOf, hfnA]
        cases hbc : ir_block_create (emit c1 icmp) "recv.check" with
        | mk nc cb =>
          have hcf := block_create_fields (emit c1 icmp) "recv.check"
            fnA hfnA
          rw [hbc] at hcf
          have hcf1 : nc = fnA.blockCounter := hcf.1
          have hcf2 : counterOf cb = fnA.blockCounter + 1 := hcf.2.1
          have hcf3 : cb.curBlock = (emit c1 icmp).curBlock := hcf.2.2.1
          have hncv : nc = counterOf cc := by
            rw [hcf1, ← hcntA, hcaCnt]
          have hcbCnt : counterOf cb = counterOf cc + 1 := by
            rw [hcf2, ← hcntA, hcaCnt]
          have hcbCur : cb.curBlock = some curB := by
            rw [hcf3]
            exact hcaCur
          have hcbGood : Good cb := by
            have := block_create_good (emit c1 icmp) "recv.check" hcaGood
            rw [hbc] at this
            exact this
          have hcbNew : blocksFind cb nc = some ⟨nc, "recv.check", []⟩ := by
            have := block_create_find_new (emit c1 icmp) "recv.check"
              fnA hfnA hwfA
            rw [hbc] at this
            rw [hncv, ← hcaCnt, hcntA]
            exact this
          have hcbCurB : blocksFind cb curB
              = some { curBlk with instrs := curBlk.instrs ++ [icmp] } := by
            have := block_create_find_old (emit c1 icmp) "recv.check"
              curB _ hcaCurB
            rw [hbc] at this
            exact this
          have hcbNm : blocksFind cb nomatchBb = some nmBlk := by
            have := block_create_find_old (emit c1 icmp) "recv.check"
              nomatchBb _ hcaNm
            rw [hbc] at this
            exact this
          set ibr : IrInstr :=
            { op := IrOpcode.br, op1 := ir_val_var v IrType.bool,
              target1 := some pr.2, target2 := some nc } with hibr
          have hcdCurB : blocksFind (emit cb ibr) curB
              = some { curBlk with
                  instrs := curBlk.instrs ++ [icmp, ibr] } := by
            have := emit_find_cur cb ibr curB _ hcbCur hcbCurB
            rw [this]
            simp [List.append_assoc]
          have hcdNew : blocksFind (emit cb ibr) nc
              = some ⟨nc, "recv.check", []⟩ := by
            rw [emit_find_of_ne cb ibr nc ?_]
            · exact hcbNew
            · rw [hcbCur]
              intro hx
              have := Option.some.inj hx
              omega
          have hcdNm : blocksFind (emit cb ibr) nomatchBb = some nmBlk := by
            rw [emit_find_of_ne cb ibr nomatchBb ?_]
            · exact hcbNm
            · rw [hcbCur]
              intro hx
              exact hne (Option.some.inj hx).symm
          have hcdGood : Good (emit cb ibr) := emit_good cb ibr hcbGood
          have hcdCnt : counterOf (emit cb ibr) = counterOf cc + 1 := by
            rw [emit_counterOf]
            exact hcbCnt
          have hcdCur : (emit cb ibr).curBlock = some curB := by
            rw [emit_curBlock]
            exact hcbCur
          set ccStep : GenContext :=
            { emit cb ibr with curBlock := some nc } with hccStep
          have hstepGood : Good ccStep := by
            obtain ⟨fnD, bidD, hfD, hbD, hwfD, hfindD⟩ := good_elim hcdGood
            have hcfD : ccStep.curFn = some fnD := hfD
            have hcbD : ccStep.curBlock = some nc := rfl
            rw [good_iff hcfD hcbD]
            refine ⟨hwfD, ?_⟩
            have h5 := hcdNew
            simp only [blocksFind, hfD] at h5
            rw [h5]
            rfl
          have hstepBf : blocksFind ccStep = blocksFind (emit cb ibr) :=
            funext (fun bid => rfl)
          have hstepCnt : counterOf ccStep = counterOf cc + 1 := hcdCnt
          obtain ⟨out, chainIdsR, houtEq, hlenR, hnilR, hneR, hGoodR,
            hcntR, hnmR, hprotR, hmemR, hfactsR⟩ :=
            ih (i0 + 1) ccStep nc ⟨nc, "recv.check", []⟩ nmBlk
              hstepGood rfl (by rw [hstepBf]; exact hcdNew)
              (by rw [hstepCnt, hncv]; omega)
              (by rw [hstepCnt]; omega)
              (by omega)
              (by rw [hstepBf]; exact hcdNm)
              (by simp at hlen ⊢; omega)
          refine ⟨out, curB :: chainIdsR, ?_, ?_, ?_, ?_, hGoodR, ?_, hnmR,
            ?_, ?_, ?_⟩
          · rw [hlist, List.foldl_cons, hstep]
            simp only []
            rw [if_pos hlt, hbc]
            exact houtEq
          · simp [hlenR]
          · intro hx
            exact absurd hx (by simp)
          · intro _
            refine ⟨(hneR hrestne).1, ?_⟩
            simp
          · calc counterOf cc ≤ counterOf ccStep := by rw [hstepCnt]; omega
              _ ≤ counterOf out := hcntR
          · intro bid blk hb hbne hblt
            refine hprotR bid blk ?_ ?_ ?_
            · rw [hstepBf]
              rw [emit_find_of_ne cb ibr bid ?_]
              · have := block_create_find_old (emit c1 icmp) "recv.check"
                  bid blk ?_
                · rw [hbc] at this
                  exact this
                · rw [emit_find_of_ne c1 icmp bid ?_, hc1bf]
                  · exact hb
                  · rw [hc1cur]
                    intro hx
                    exact hbne (Option.some.inj hx).symm
              · rw [hcbCur]
                intro hx
                exact hbne (Option.some.inj hx).symm
            · omega
            · rw [hstepCnt]
              omega
          · intro id hid
            rcases List.mem_cons.mp hid with hid | hid
            · exact Or.inl hid
            · rcases hmemR id hid with hid2 | ⟨hge, hltc⟩
              · exact Or.inr ⟨by omega, by omega⟩
              · refine Or.inr ⟨?_, hltc⟩
                rw [hstepCnt] at hge
                omega
          · intro j pq hj
            cases j with
            | zero =>
              simp only [List.getElem?_cons_zero] at hj
              cases hj
              refine ⟨curB, { curBlk with
                  instrs := curBlk.instrs ++ [icmp, ibr] },
                curBlk.instrs, ir_val_var v IrType.bool, nc, ?_, ?_, ?_, ?_⟩
              · simp
              · refine hprotR curB _ ?_ ?_ ?_
                · rw [hstepBf]
                  exact hcdCurB
                · omega
                · rw [hstepCnt]
                  omega
              · simp [hicmp, hibr]
              · left
                refine ⟨?_, ?_⟩
                · simp
                  exact List.length_pos.mpr hrestne
                · simp
                  exact (hneR hrestne).2
            | succ j' =>
              simp only [List.getElem?_cons_succ] at hj
              obtain ⟨cid, blk, pre, cv, nxt, hc1', hc2', hc3', hc4'⟩ :=
                hfactsR j' pq hj
              refine ⟨cid, blk, pre, cv, nxt, ?_, hc2', hc3', ?_⟩
              · simp [hc1']
              · rcases hc4' with ⟨hlt', hnx⟩ | ⟨heq', hnx⟩
                · left
                  refine ⟨by simp; omega, by simp [hnx]⟩
                · right
                  refine ⟨by simp; omega, hnx⟩
      · -- last arm: branch to the no-match block
        have hrest0 : rest = [] := by
          have := hlen
          simp at this
          have : rest.length = 0 := by omega
          exact List.length_eq_zero.mp this
        subst hrest0
        set ibr : IrInstr :=
          { op := IrOpcode.br, op1 := ir_val_var v IrType.bool,
            target1 := some pr.2, target2 := some nomatchBb } with hibr
        have hcdCurB : blocksFind (emit (emit c1 icmp) ibr) curB
            = some { curBlk with
                instrs := curBlk.instrs ++ [icmp, ibr] } := by
          have := emit_find_cur (emit c1 icmp) ibr curB _ hcaCur hcaCurB
          rw [this]
          simp [List.append_assoc]
        have hcdNm : blocksFind (emit (emit c1 icmp) ibr) nomatchBb
            = some nmBlk := by
          rw [emit_find_of_ne (emit c1 icmp) ibr nomatchBb ?_]
          · exact hcaNm
          · rw [hcaCur]
            intro hx
            exact hne (Option.some.inj hx).symm
        have hcdGood : Good (emit (emit c1 icmp) ibr) :=
          emit_good _ ibr hcaGood
        have hcdCnt : counterOf (emit (emit c1 icmp) ibr) = counterOf cc := by
          rw [emit_counterOf]
          exact hcaCnt
        set outF : GenContext :=
          { emit (emit c1 icmp) ibr with curBlock := some nomatchBb }
          with houtF
        have houtBf : blocksFind outF = blocksFind (emit (emit c1 icmp) ibr)
          := funext (fun bid => rfl)
        have houtGood : Good outF := by
          obtain ⟨fnD, bidD, hfD, hbD, hwfD, hfindD⟩ := good_elim hcdGood
          have hcfD : outF.curFn = some fnD := hfD
          have hcbD : outF.curBlock = some nomatchBb := rfl
          rw [good_iff hcfD hcbD]
          refine ⟨hwfD, ?_⟩
          have h5 := hcdNm
          simp only [blocksFind, hfD] at h5
          rw [h5]
          rfl
        refine ⟨outF, [curB], ?_, rfl, ?_, ?_, houtGood, ?_, ?_, ?_, ?_, ?_⟩
        · rw [hlist, List.foldl_cons, hstep]
          simp only []
          rw [if_neg hlt]
          rfl
        · intro hx
          exact absurd hx (by simp)
        · intro _
          exact ⟨rfl, by simp⟩
        · rw [houtF]
          show counterOf cc ≤ counterOf (emit (emit c1 icmp) ibr)
          rw [hcdCnt]
        · rw [houtBf]
          exact hcdNm
        · intro bid blk hb hbne hblt
          rw [houtBf]
          rw [emit_find_of_ne (emit c1 icmp) ibr bid ?_]
          · rw [emit_find_of_ne c1 icmp bid ?_, hc1bf]
            · exact hb
            · rw [hc1cur]
              intro hx
              exact hbne (Option.some.inj hx).symm
          · rw [hcaCur]
            intro hx
            exact hbne (Option.some.inj hx).symm
        · intro id hid
          rw [List.mem_singleton] at hid
          exact Or.inl hid
        · intro j pq hj
          cases j with
          | zero =>
            simp only [List.getElem?_cons_zero] at hj
            cases hj
            refine ⟨curB, { curBlk with
                instrs := curBlk.instrs ++ [icmp, ibr] },
              curBlk.instrs, ir_val_var v IrType.bool, nomatchBb,
              ?_, ?_, ?_, ?_⟩
            · simp
            · rw [houtBf]
              exact hcdCurB
            · simp [hicmp, hibr]
            · right
              exact ⟨rfl, rfl⟩
          | succ j' =>
            simp at hj

lemma good_wf {ctx : GenContext} {fn : IrFunState} (h : Good ctx)
    (hf : ctx.curFn = some fn) :
    ∀ b ∈ fn.blocks, b.id < fn.blockCounter := by
  obtain ⟨fnX, bidX, hfX, _, hwfX, _⟩ := good_elim h
  rw [hf] at hfX
  cases hfX
  exact hwfX

lemma good_find_cur {ctx : GenContext} {bid : Nat} (h : Good ctx)
    (hb : ctx.curBlock = some bid) : (blocksFind ctx bid).isSome = true := by
  obtain ⟨fnX, bidX, hfX, hbX, _, hfindX⟩ := good_elim h
  rw [hb] at hbX
  cases hbX
  simp only [blocksFind, hfX]
  exact hfindX

lemma good_curBlock_lt {ctx : GenContext} {bid : Nat} (h : Good ctx)
    (hb : ctx.curBlock = some bid) : bid < counterOf ctx := by
  obtain ⟨fn, bid', hf, hb', hwf, hfind⟩ := good_elim h
  rw [hb] at hb'
  cases hb'
  obtain ⟨blk, hblk⟩ := Option.isSome_iff_exists.mp hfind
  have hmem : blk ∈ fn.blocks := List.mem_of_find?_eq_some hblk
  have hid : blk.id = bid := by
    have := List.find?_some hblk
    exact of_decide_eq_true this
  have hlt := hwf blk hmem
  rw [hid] at hlt
  simp only [counterOf, hf]
  exact hlt

/-- Lengths and id bounds of the arm-block-allocation loop: one fresh block
per arm, every produced id below the final counter. -/
lemma recvArmCreate_fold_more :
    ∀ (l : List (List Nat × Option (List AstStmt)))
      (s : List Nat × GenContext), s.2.curFn.isSome = true →
      (l.foldl recvArmCreate s).1.length = s.1.length + l.length ∧
      (∀ id, id ∈ (l.foldl recvArmCreate s).1 →
        id ∈ s.1 ∨ id < counterOf (l.foldl recvArmCreate s).2) := by
  intro l
  induction l with
  | nil =>
    intro s _
    exact ⟨rfl, fun id hid => Or.inl hid⟩
  | cons a rest ihl =>
    intro s h1
    obtain ⟨fn, hfn⟩ := Option.isSome_iff_exists.mp h1
    have hstep : recvArmCreate s a
        = (s.1 ++ [(ir_block_create s.2 ("recv.arm" ++ toString s.1.length)).1],
           (ir_block_create s.2 ("recv.arm" ++ toString s.1.length)).2) := rfl
    have hfold : (a :: rest).foldl recvArmCreate s
        = rest.foldl recvArmCreate (recvArmCreate s a) := rfl
    have hcf := block_create_fields s.2 ("recv.arm" ++ toString s.1.length)
      fn hfn
    have h1' : (recvArmCreate s a).2.curFn.isSome = true := by
      rw [hstep]
      exact hcf.2.2.2
    obtain ⟨hlen2, hids2⟩ := ihl (recvArmCreate s a) h1'
    have hcnt2 : counterOf (recvArmCreate s a).2
        ≤ counterOf (rest.foldl recvArmCreate (recvArmCreate s a)).2 :=
      (recvArmCreate_fold_facts (fun _ => True) rest (recvArmCreate s a)
        h1').2.2.2.1
    have hlen1 : (recvArmCreate s a).1.length = s.1.length + 1 := by
      rw [hstep]
      simp
    have hbidv : (ir_block_create s.2 ("recv.arm" ++ toString s.1.length)).1
        = fn.blockCounter := hcf.1
    have hcnt1 : counterOf (recvArmCreate s a).2 = fn.blockCounter + 1 := by
      rw [hstep]
      exact hcf.2.1
    rw [hfold]
    refine ⟨?_, ?_⟩
    · rw [hlen2, hlen1, List.length_cons]
      omega
    · intro id hid
      rcases hids2 id hid with hin | hlt
      · rw [hstep] at hin
        rcases List.mem_append.mp hin with hin | hin
        · exact Or.inl hin
        · simp only [List.mem_singleton] at hin
          refine Or.inr ?_
          rw [hin, hbidv]
          omega
      · exact Or.inr hlt

set_option maxHeartbeats 2000000 in
/-- C4: for every receive statement with at least one arm, lowered from a
well-formed generator state, arm `j` is tested by a chain block ending in
exactly an equality comparison of the loaded tag against the arm's
expected tag constant — the pattern's integer value when the pattern
starts with a digit, its DJB2 hash (seed 5381, `hash = hash*33 + byte`)
otherwise — followed by a conditional branch whose true target is the
arm's block and whose false target is the next chain block (the no-match
block after the last arm); and the trailing no-match block consists of
exactly a `Call` to `arnm_panic_nomatch` followed by a `Jmp` to the merge
block. -/
theorem c4_receive_lowering (fuel : Nat) (ctx : GenContext)
    (arms : List (List Nat × Option (List AstStmt)))
    (hGood : Good ctx) (hne : arms ≠ []) :
    ∃ (tagVal : IrValue) (mergeBb nomatchBb : Nat)
      (armIds chainIds : List Nat),
      armIds.length = arms.length ∧
      chainIds.length = arms.length ∧
      (gen_stmt (fuel + 1) ctx (AstStmt.receiveS arms)).curBlock
        = some mergeBb ∧
      blocksFind (gen_stmt (fuel + 1) ctx (AstStmt.receiveS arms)) nomatchBb
        = some ⟨nomatchBb, "recv.nomatch",
            [{ op := IrOpcode.callOp, ty := IrType.void, result := undefVal,
               op1 := { kind := IrValueKind.valGlobal, ty := IrType.void,
                        gname := strBytes "arnm_panic_nomatch" },
               args := [] },
             { op := IrOpcode.jmp, target1 := some mergeBb }]⟩ ∧
      (∀ j arm armBb, arms[j]? = some arm → armIds[j]? = some armBb →
        ∃ cid blk pre cv nxt,
          chainIds[j]? = some cid ∧
          blocksFind (gen_stmt (fuel + 1) ctx (AstStmt.receiveS arms)) cid
            = some blk ∧
          blk.instrs = pre ++
            [{ op := IrOpcode.eqOp, ty := IrType.bool, result := cv,
               op1 := tagVal,
               op2 := ir_val_const_i32 (int32OfU32 (expectedTagOf arm.1)) },
             { op := IrOpcode.br, op1 := cv, target1 := some armBb,
               target2 := some nxt }] ∧
          ((j + 1 < arms.length ∧ chainIds[j + 1]? = some nxt) ∨
           (j + 1 = arms.length ∧ nxt = nomatchBb))) ∧
      (∀ c cs, expectedTagOf (c :: cs)
        = if is_digit c then atoiDigits (c :: cs) % u32Mod
          else djb2 (c :: cs)) := by
  obtain ⟨fn0, bid0, hfn0, hbid0, hwf0, hfind0⟩ := good_elim hGood
  have hbid0lt : bid0 < counterOf ctx := good_curBlock_lt hGood hbid0
  simp only [gen_stmt]
  cases hcall : ir_build_call ctx (strBytes "arnm_receive")
      [{ ir_val_const_i32 0 with ty := IrType.ptr }] IrType.ptr with
  | mk msgVal c1 =>
  simp only [hcall]
  have hIn1 : EmitsInPlace ctx c1 := by
    have := ir_build_call_inPlace ctx (strBytes "arnm_receive")
      [{ ir_val_const_i32 0 with ty := IrType.ptr }] IrType.ptr
    rw [hcall] at this
    exact this
  cases hfp : ir_build_field_ptr c1 msgVal 0 with
  | mk fptr c2 =>
  simp only [hfp]
  have hIn2 : EmitsInPlace c1 c2 := by
    have := ir_build_field_ptr_inPlace c1 msgVal 0
    rw [hfp] at this
    exact this
  cases hload : ir_build_load c2 IrType.i64 fptr with
  | mk tagVal c3 =>
  simp only [hload]
  have hIn3 : EmitsInPlace c2 c3 := by
    have := ir_build_load_inPlace c2 IrType.i64 fptr
    rw [hload] at this
    exact this
  have hPre : EmitsInPlace ctx c3 :=
    emitsInPlace_trans hIn1 (emitsInPlace_trans hIn2 hIn3)
  have harm : ¬ arms.length = 0 := by
    intro hx
    exact hne (List.length_eq_zero.mp hx)
  rw [if_neg harm]
  have hGood3 : Good c3 := inPlace_good hPre hGood
  have hcnt3 : counterOf c3 = counterOf ctx := hPre.2.1
  have hcur3 : c3.curBlock = ctx.curBlock := hPre.1
  have hsome3 : c3.curFn.isSome = true := good_curFn_isSome hGood3
  obtain ⟨fn3, hfn3⟩ := Option.isSome_iff_exists.mp hsome3
  have hcntx3 : counterOf c3 = fn3.blockCounter := by
    simp only [counterOf, hfn3]
  have hwf3 := good_wf hGood3 hfn3
  cases hcm : ir_block_create c3 "recv.merge" with
  | mk mergeBb c4 =>
  simp only [hcm]
  have hf4 := block_create_fields c3 "recv.merge" fn3 hfn3
  rw [hcm] at hf4
  have hmergeId : mergeBb = fn3.blockCounter := hf4.1
  have hcntc4 : counterOf c4 = fn3.blockCounter + 1 := hf4.2.1
  have hcurc4 : c4.curBlock = c3.curBlock := hf4.2.2.1
  have hsome4 : c4.curFn.isSome = true := hf4.2.2.2
  have hGood4 : Good c4 := by
    have := block_create_good c3 "recv.merge" hGood3
    rw [hcm] at this
    exact this
  have hmergeNew : blocksFind c4 mergeBb
      = some ⟨mergeBb, "recv.merge", []⟩ := by
    have := block_create_find_new c3 "recv.merge" fn3 hfn3 hwf3
    rw [hcm] at this
    rw [hmergeId]
    exact this
  obtain ⟨fn4, hfn4⟩ := Option.isSome_iff_exists.mp hsome4
  have hcntx4 : counterOf c4 = fn4.blockCounter := by
    simp only [counterOf, hfn4]
  have hwf4 := good_wf hGood4 hfn4
  cases hcn : ir_block_create c4 "recv.nomatch" with
  | mk nomatchBb c5 =>
  simp only [hcn]
  have hf5 := block_create_fields c4 "recv.nomatch" fn4 hfn4
  rw [hcn] at hf5
  have hnmId : nomatchBb = fn4.blockCounter := hf5.1
  have hcntc5 : counterOf c5 = fn4.blockCounter + 1 := hf5.2.1
  have hcurc5 : c5.curBlock = c4.curBlock := hf5.2.2.1
  have hsome5 : c5.curFn.isSome = true := hf5.2.2.2
  have hGood5 : Good c5 := by
    have := block_create_good c4 "recv.nomatch" hGood4
    rw [hcn] at this
    exact this
  have hnmNew : blocksFind c5 nomatchBb
      = some ⟨nomatchBb, "recv.nomatch", []⟩ := by
    have := block_create_find_new c4 "recv.nomatch" fn4 hfn4 hwf4
    rw [hcn] at this
    rw [hnmId]
    exact this
  have e0 : counterOf c4 = counterOf ctx + 1 := by
    rw [hcntc4, ← hcntx3, hcnt3]
  have e1 : counterOf c5 = counterOf ctx + 2 := by
    rw [hcntc5, ← hcntx4, e0]
  have hmergev : mergeBb = counterOf ctx := by
    rw [hmergeId, ← hcntx3, hcnt3]
  have hnmv : nomatchBb = counterOf ctx + 1 := by
    rw [hnmId, ← hcntx4, e0]
  cases hfold : arms.foldl recvArmCreate ([], c5) with
  | mk armIds c6 =>
  simp only [hfold]
  have harmf := recvArmCreate_fold_facts (fun _ => False) arms ([], c5)
    hsome5
  rw [hfold] at harmf
  have hW6 : EvolvesW (fun _ => False) c5 c6 := harmf.1
  have hcur6 : c6.curBlock = c5.curBlock := harmf.2.1
  have hsome6 : c6.curFn.isSome = true := harmf.2.2.1
  have hcnt6 : counterOf c5 ≤ counterOf c6 := harmf.2.2.2.1
  have hids6 : ∀ id, id ∈ armIds →
      counterOf c5 ≤ id ∧ (blocksFind c6 id).isSome = true := by
    intro id hid
    have hor : id ∈ ([] : List Nat) ∨
        (counterOf c5 ≤ id ∧ (blocksFind c6 id).isSome = true) :=
      (harmf.2.2.2.2 id hid).2
    rcases hor with hin | hx
    · exact absurd hin (List.not_mem_nil id)
    · exact hx
  have harmm := recvArmCreate_fold_more arms ([], c5) hsome5
  rw [hfold] at harmm
  have harmLen : armIds.length = arms.length := by
    have h : armIds.length = 0 + arms.length := harmm.1
    omega
  have harmUb : ∀ id, id ∈ armIds → id < counterOf c6 := by
    intro id hid
    have h : id ∈ ([] : List Nat) ∨ id < counterOf c6 := harmm.2 id hid
    rcases h with hin | hlt
    · exact absurd hin (List.not_mem_nil id)
    · exact hlt
  have hpres6 : ∀ bid blk, blocksFind c5 bid = some blk →
      blocksFind c6 bid = some blk := by
    intro bid blk h
    exact hW6.2.2.2.1 bid blk h (fun h2 => h2)
  have hGood6 : Good c6 := hW6.1 hGood5
  have hcur6v : c6.curBlock = some bid0 := by
    rw [hcur6, hcurc5, hcurc4, hcur3]
    exact hbid0
  obtain ⟨curBlk6, hcurBlk6⟩ :=
    Option.isSome_iff_exists.mp (good_find_cur hGood6 hcur6v)
  have hzlen : (arms.zip armIds).length = arms.length := by
    rw [List.length_zip arms armIds, harmLen, Nat.min_self]
  obtain ⟨c7, chainIds, hc7eq, hchLen, hchNil, hchNe, hGood7,
      hcnt7, hnm7, hprot7, hchMem, hchFacts⟩ :=
    recvChain_fold_exact tagVal arms.length nomatchBb
      (arms.zip armIds) 0 c6 bid0 curBlk6
      ⟨nomatchBb, "recv.nomatch", []⟩
      hGood6 hcur6v hcurBlk6
      (by omega)
      (by omega)
      (by omega)
      (hpres6 nomatchBb _ hnmNew)
      (by omega)
  have hfoldEq : ((List.range' 0 arms.length).zip
        (arms.zip armIds)).foldl
      (recvChainStep tagVal arms.length nomatchBb) c6 = c7 := by
    have hr : List.range' 0 arms.length
        = List.range' 0 (arms.zip armIds).length := by
      rw [hzlen]
    rw [hr]
    exact hc7eq
  rw [hfoldEq]
  have hpairsNe : arms.zip armIds ≠ [] := by
    refine List.ne_nil_of_length_pos ?_
    rw [hzlen]
    exact List.length_pos.mpr hne
  have hsome7 : c7.curFn.isSome = true := good_curFn_isSome hGood7
  set icall : IrInstr :=
    { op := IrOpcode.callOp, ty := IrType.void, result := undefVal,
      op1 := { kind := IrValueKind.valGlobal, ty := IrType.void,
               gname := strBytes "arnm_panic_nomatch" },
      args := [] } with hicall
  have hpcEq : ir_build_call { c7 with curBlock := some nomatchBb }
      (strBytes "arnm_panic_nomatch") [] IrType.void
      = (undefVal,
         emit ({ c7 with curBlock := some nomatchBb } : GenContext)
           icall) := by
    rw [hicall]
    rfl
  simp only [hpcEq]
  set ijmp : IrInstr := { op := IrOpcode.jmp, target1 := some mergeBb }
    with hijmp
  set c9v : GenContext :=
    emit ({ c7 with curBlock := some nomatchBb } : GenContext) icall
    with hc9v
  set c10v : GenContext := ir_build_jmp c9v mergeBb with hc10v
  have hcur8 : ({ c7 with curBlock := some nomatchBb }
      : GenContext).curBlock = some nomatchBb := rfl
  have hnm8 : blocksFind ({ c7 with curBlock := some nomatchBb }
      : GenContext) nomatchBb = some ⟨nomatchBb, "recv.nomatch", []⟩ :=
    hnm7
  have hnm9 : blocksFind c9v nomatchBb
      = some ⟨nomatchBb, "recv.nomatch", [icall]⟩ := by
    rw [hc9v]
    exact emit_find_cur ({ c7 with curBlock := some nomatchBb }
      : GenContext) icall nomatchBb ⟨nomatchBb, "recv.nomatch", []⟩
      hcur8 hnm8
  have hcur9 : c9v.curBlock = some nomatchBb := by
    rw [hc9v, emit_curBlock]
  have hnm10 : blocksFind c10v nomatchBb
      = some ⟨nomatchBb, "recv.nomatch", [icall, ijmp]⟩ := by
    rw [hc10v]
    show blocksFind (emit c9v ijmp) nomatchBb = _
    exact emit_find_cur c9v ijmp nomatchBb
      ⟨nomatchBb, "recv.nomatch", [icall]⟩ hcur9 hnm9
  have hcnt9 : counterOf c9v = counterOf c7 := by
    rw [hc9v, emit_counterOf]
    rfl
  have hcnt10 : counterOf c10v = counterOf c7 := by
    rw [hc10v]
    show counterOf (emit c9v ijmp) = _
    rw [emit_counterOf, hcnt9]
  have hsome10 : c10v.curFn.isSome = true := by
    rw [hc10v]
    show (emit c9v ijmp).curFn.isSome = true
    rw [emit_curFn_isSome, hc9v, emit_curFn_isSome]
    exact hsome7
  have hsup10 : ∀ n, counterOf c10v ≤ n →
      (n ∈ armIds ∨ counterOf c7 ≤ n) := by
    intro n hn
    right
    omega
  have hper : ∀ p, p ∈ arms.zip armIds →
      (p.2 ∈ armIds ∨ counterOf c7 ≤ p.2) ∧
      (blocksFind c10v p.2).isSome = true := by
    intro p hp
    have hpin : p.2 ∈ armIds := (List.of_mem_zip hp).2
    refine ⟨Or.inl hpin, ?_⟩
    obtain ⟨hge, hfound⟩ := hids6 p.2 hpin
    have hub := harmUb p.2 hpin
    obtain ⟨blkA, hblkA⟩ := Option.isSome_iff_exists.mp hfound
    have h7 : blocksFind c7 p.2 = some blkA := by
      refine hprot7 p.2 blkA hblkA ?_ hub
      omega
    have h9 : blocksFind c9v p.2 = some blkA := by
      rw [hc9v]
      rw [emit_find_of_ne ({ c7 with curBlock := some nomatchBb }
        : GenContext) icall p.2 ?_]
      · exact h7
      · rw [hcur8]
        intro hx
        have hx2 := Option.some.inj hx
        omega
    have h10 : blocksFind c10v p.2 = some blkA := by
      rw [hc10v]
      show blocksFind (emit c9v ijmp) p.2 = _
      rw [emit_find_of_ne c9v ijmp p.2 ?_]
      · exact h9
      · rw [hcur9]
        intro hx
        have hx2 := Option.some.inj hx
        omega
    rw [h10]
    rfl
  obtain ⟨hW11, hsome11⟩ := recvBody_fold_w
    (fun bid => bid ∈ armIds ∨ counterOf c7 ≤ bid)
    (fun g st => gen_stmt fuel g st)
    (fun c st hx1 hx2 hx3 => gen_stmt_w fuel st
      (fun bid => bid ∈ armIds ∨ counterOf c7 ≤ bid) c hx1 hx2 hx3)
    tagVal mergeBb (arms.zip armIds) c10v hsome10 hsup10 hper
  set c11v : GenContext := (arms.zip armIds).foldl
    (recvBodyStep (fun g st => gen_stmt fuel g st) tagVal mergeBb) c10v
    with hc11v
  have hnm11 : blocksFind c11v nomatchBb
      = some ⟨nomatchBb, "recv.nomatch", [icall, ijmp]⟩ := by
    refine hW11.2.2.2.1 nomatchBb _ hnm10 ?_
    intro hS
    rcases hS with hin | hge
    · have hx := (hids6 nomatchBb hin).1
      omega
    · omega
  refine ⟨tagVal, mergeBb, nomatchBb, armIds, chainIds, harmLen, ?_,
    rfl, ?_, ?_, fun c cs => rfl⟩
  · rw [hchLen, hzlen]
  · show blocksFind c11v nomatchBb = _
    exact hnm11
  · intro j arm armBb hj hjB
    have hz : (arms.zip armIds)[j]? = some (arm, armBb) :=
      List.getElem?_zip_eq_some.mpr ⟨hj, hjB⟩
    obtain ⟨cid, blk7, pre, cv, nxt, hcj, hblk7, hinstrs, hnxt⟩ :=
      hchFacts j (arm, armBb) hz
    have hinstrs2 : blk7.instrs = pre ++
        [{ op := IrOpcode.eqOp, ty := IrType.bool, result := cv,
           op1 := tagVal,
           op2 := ir_val_const_i32 (int32OfU32 (expectedTagOf arm.1)) },
         { op := IrOpcode.br, op1 := cv, target1 := some armBb,
           target2 := some nxt }] := hinstrs
    have hcmem : cid = bid0 ∨ (counterOf c6 ≤ cid ∧ cid < counterOf c7) :=
      hchMem cid (List.getElem?_mem hcj)
    have h9c : blocksFind c9v cid = some blk7 := by
      rw [hc9v]
      rw [emit_find_of_ne ({ c7 with curBlock := some nomatchBb }
        : GenContext) icall cid ?_]
      · exact hblk7
      · rw [hcur8]
        intro hx
        have hx2 := Option.some.inj hx
        rcases hcmem with h | ⟨hge6, hlt7⟩
        · omega
        · omega
    have h10c : blocksFind c10v cid = some blk7 := by
      rw [hc10v]
      show blocksFind (emit c9v ijmp) cid = _
      rw [emit_find_of_ne c9v ijmp cid ?_]
      · exact h9c
      · rw [hcur9]
        intro hx
        have hx2 := Option.some.inj hx
        rcases hcmem with h | ⟨hge6, hlt7⟩
        · omega
        · omega
    have h11c : blocksFind c11v cid = some blk7 := by
      refine hW11.2.2.2.1 cid blk7 h10c ?_
      intro hS
      rcases hS with hin | hge
      · have hx1 := (hids6 cid hin).1
        have hx2 := harmUb cid hin
        rcases hcmem with h | ⟨hge6, hlt7⟩
        · omega
        · omega
      · rcases hcmem with h | ⟨hge6, hlt7⟩
        · omega
        · omega
    refine ⟨cid, blk7, pre, cv, nxt, hcj, ?_, hinstrs2, ?_⟩
    · show blocksFind c11v cid = _
      exact h11c
    · rcases hnxt with ⟨hlt, hnx⟩ | ⟨heq, hnx⟩
      · left
        rw [hzlen] at hlt
        exact ⟨hlt, hnx⟩
      · right
        rw [hzlen] at heq
        exact ⟨heq, hnx⟩

/-- A concrete one-arm receive statement (`receive { tick => {} }`). -/
def recvArms0 : List (List Nat × Option (List AstStmt)) :=
  [(strBytes "tick", none)]

/-- Witness for C4: the one-arm `receive` above, lowered from the concrete
good generator state `goodCtx0`. -/
theorem c4_receive_lowering_witness :
    Good goodCtx0 ∧ recvArms0 ≠ [] ∧
    (∃ (tagVal : IrValue) (mergeBb nomatchBb : Nat)
       (armIds chainIds : List Nat),
       armIds.length = recvArms0.length ∧
       chainIds.length = recvArms0.length ∧
       (gen_stmt (0 + 1) goodCtx0 (AstStmt.receiveS recvArms0)).curBlock
         = some mergeBb ∧
       blocksFind (gen_stmt (0 + 1) goodCtx0 (AstStmt.receiveS recvArms0))
           nomatchBb
         = some ⟨nomatchBb, "recv.nomatch",
             [{ op := IrOpcode.callOp, ty := IrType.void,
                result := undefVal,
                op1 := { kind := IrValueKind.valGlobal, ty := IrType.void,
                         gname := strBytes "arnm_panic_nomatch" },
                args := [] },
              { op := IrOpcode.jmp, target1 := some mergeBb }]⟩ ∧
       (∀ j arm armBb, recvArms0[j]? = some arm → armIds[j]? = some armBb →
         ∃ cid blk pre cv nxt,
           chainIds[j]? = some cid ∧
           blocksFind (gen_stmt (0 + 1) goodCtx0
               (AstStmt.receiveS recvArms0)) cid = some blk ∧
           blk.instrs = pre ++
             [{ op := IrOpcode.eqOp, ty := IrType.bool, result := cv,
                op1 := tagVal,
                op2 := ir_val_const_i32 (int32OfU32
                  (expectedTagOf arm.1)) },
              { op := IrOpcode.br, op1 := cv, target1 := some armBb,
                target2 := some nxt }] ∧
           ((j + 1 < recvArms0.length ∧ chainIds[j + 1]? = some nxt) ∨
            (j + 1 = recvArms0.length ∧ nxt = nomatchBb))) ∧
       (∀ c cs, expectedTagOf (c :: cs)
         = if is_digit c then atoiDigits (c :: cs) % u32Mod
           else djb2 (c :: cs))) :=
  ⟨by decide, List.cons_ne_nil _ _,
   c4_receive_lowering 0 goodCtx0 recvArms0 (by decide)
     (List.cons_ne_nil _ _)⟩
